import Mathlib

/-!
# task-manager: service, repository and handler layers

A shallow embedding of the Go packages `internal/models`, `internal/service`,
`internal/repository`, `internal/handler` and of the in-memory repository of
`internal/service/task_service_test.go`.

* Go strings are byte strings; `len` is the number of bytes.  A Go string that
  came through `encoding/json` is valid UTF-8, so it is a Lean `String` and
  `len` is `String.utf8ByteSize`.
* `*models.Task` is a pointer.  Objects live in a heap (a list, a pointer is
  an index); this keeps the aliasing between the object a repository hands out
  and the object it stores.
* A Go `error` is a value of `GoError`; a nil-pointer dereference is the
  outcome `panic`.
* Everything the code reads from outside (the fresh UUID, the clock, the
  outcome of a statement sent to the database driver) is an explicit input.
-/

namespace TaskManager

/-! ## Go values -/

/-- Go `error` values that occur in the program: the sentinel
`repository.ErrTaskNotFound`, an error made by `errors.New`, `fmt.Errorf`
without `%w` or by the database driver, and an error wrapped by
`fmt.Errorf("...%w", err)`. -/
inductive GoError where
  | ErrTaskNotFound : GoError
  | New (msg : String) : GoError
  | Wrap (pre : String) (inner : GoError) : GoError
deriving DecidableEq, Repr

namespace GoError

/-- The method `err.Error()`: the text of the error. -/
def Error : GoError → String
  | ErrTaskNotFound => "task not found"
  | New msg => msg
  | Wrap pre inner => pre ++ inner.Error

/-- The call `errors.Is(err, repository.ErrTaskNotFound)`: walks the chain of
wrapped errors and compares each with the sentinel by identity. -/
def IsNotFound : GoError → Bool
  | ErrTaskNotFound => true
  | New _ => false
  | Wrap _ inner => inner.IsNotFound

end GoError

/-- Outcome of a Go call that returns `(value, error)`: a value with a nil
error, a non-nil error, or a run-time panic. -/
inductive Outcome (α : Type) where
  | ok (a : α) : Outcome α
  | err (e : GoError) : Outcome α
  | panic : Outcome α
deriving DecidableEq, Repr

namespace Outcome

/-- The call returned a non-nil error. -/
def isErr {α : Type} : Outcome α → Bool
  | err _ => true
  | _ => false

/-- The call returned a value and a nil error. -/
def isOk {α : Type} : Outcome α → Bool
  | ok _ => true
  | _ => false

end Outcome

/-- Go builtin `len` on a string: the number of bytes. -/
def len (s : String) : Nat := s.utf8ByteSize

/-- The number of characters (Unicode code points) of a string, which is what
`utf8.RuneCountInString` returns on valid UTF-8. -/
def runeCount (s : String) : Nat := s.length

/-! ## internal/models -/

namespace models

/-- The type `uuid.UUID`: 16 bytes, read as a number. -/
abbrev UUID := Nat

/-- Declared as `type TaskStatus string`. -/
abbrev TaskStatus := String

def TaskStatusNew : TaskStatus := "new"
def TaskStatusInProgress : TaskStatus := "in_progress"
def TaskStatusDone : TaskStatus := "done"

/-- A `time.Time` in UTC without monotonic reading (what `time.Now().UTC()`
and `time.Parse` of a `Z` timestamp return): an instant at nanosecond
resolution, counted from the Unix epoch. -/
structure Time where
  unixNano : Int
deriving DecidableEq, Repr

/-- The zero value `time.Time{}`: January 1, year 1, 00:00:00 UTC. -/
def Time.zero : Time := ⟨-62135596800 * 1000000000⟩

structure Task where
  ID : UUID
  Title : String
  Description : String
  Status : TaskStatus
  CreatedAt : Time
  UpdatedAt : Time
deriving DecidableEq, Repr

structure CreateTaskInput where
  Title : String
  Description : String
deriving DecidableEq, Repr

/-- Each field is a Go pointer: `none` is `nil` (the field is absent). -/
structure UpdateTaskInput where
  Title : Option String
  Description : Option String
  Status : Option TaskStatus
deriving DecidableEq, Repr

end models

open models

/-! ## The heap of `models.Task` objects -/

/-- A non-nil `*models.Task`. -/
abbrev Ptr := Nat

/-- The `models.Task` objects allocated so far; a pointer is an index. -/
abbrev Heap := List Task

namespace Heap

/-- Allocation of a new object (`&models.Task{...}` or `var task models.Task`
whose address escapes). -/
def alloc (h : Heap) (t : Task) : Ptr × Heap := (h.length, h ++ [t])

/-- Read through a pointer; `none` when the pointer refers to no object. -/
def read (h : Heap) (p : Ptr) : Option Task := h[p]?

/-- Write through a pointer. -/
def write (h : Heap) (p : Ptr) (t : Task) : Heap := h.set p t

end Heap

/-! ## internal/repository: the interface -/

namespace repository

def ErrTaskNotFound : GoError := GoError.ErrTaskNotFound

/-- Field `Status` is a pointer (`none` is nil); `Limit` and `Offset` are Go `int`. -/
structure TaskFilter where
  Status : Option TaskStatus
  Limit : Int
  Offset : Int
deriving DecidableEq, Repr

/-- The interface `TaskRepository` over a repository state `σ`.  Every method
receives the heap and the state and returns its Go result with the new heap
and state (a method may write through the pointer it is given). -/
structure TaskRepository (σ : Type) where
  CreateTask : Ptr → Heap → σ → Outcome Unit × Heap × σ
  GetTask : UUID → Heap → σ → Outcome Ptr × Heap × σ
  ListTasks : TaskFilter → Heap → σ → Outcome (List Ptr) × Heap × σ
  UpdateTask : Ptr → Heap → σ → Outcome Unit × Heap × σ
  DeleteTask : UUID → Heap → σ → Outcome Unit × Heap × σ
  Ping : Heap → σ → Outcome Unit × Heap × σ

/-- A call made on the repository interface, with its arguments. -/
inductive Call where
  | CreateTask (task : Ptr) : Call
  | GetTask (taskID : UUID) : Call
  | ListTasks (filter : TaskFilter) : Call
  | UpdateTask (task : Ptr) : Call
  | DeleteTask (taskID : UUID) : Call
  | Ping : Call
deriving DecidableEq, Repr

end repository

open repository

/-! ## internal/service -/

/-- What a service call runs in: the heap, the state of the repository behind
`s.repo`, and the calls made on `s.repo` so far (oldest first). -/
structure World (σ : Type) where
  heap : Heap
  repo : σ
  calls : List Call

namespace service

def DefaultLimit : Int := 50

/-- The method `taskService.Ping`. -/
def Ping {σ : Type} (r : TaskRepository σ) (w : World σ) : Outcome Unit × World σ :=
  match r.Ping w.heap w.repo with
  | (e, h, s) => (e, ⟨h, s, w.calls ++ [Call.Ping]⟩)

/-- The method `taskService.CreateTask`; `newID` is the value of `uuid.New()`. -/
def CreateTask {σ : Type} (r : TaskRepository σ) (newID : UUID)
    (input : CreateTaskInput) (w : World σ) : Outcome Ptr × World σ :=
  if len input.Title < 3 then
    (Outcome.err (GoError.New "title must be at least 3 characters"), w)
  else
    match Heap.alloc w.heap
        { ID := newID, Title := input.Title, Description := input.Description,
          Status := TaskStatusNew, CreatedAt := Time.zero, UpdatedAt := Time.zero } with
    | (task, h0) =>
      match r.CreateTask task h0 w.repo with
      | (Outcome.err e, h, s) => (Outcome.err e, ⟨h, s, w.calls ++ [Call.CreateTask task]⟩)
      | (Outcome.panic, h, s) => (Outcome.panic, ⟨h, s, w.calls ++ [Call.CreateTask task]⟩)
      | (Outcome.ok _, h, s) => (Outcome.ok task, ⟨h, s, w.calls ++ [Call.CreateTask task]⟩)

/-- The method `taskService.GetTask`. -/
def GetTask {σ : Type} (r : TaskRepository σ) (taskID : UUID) (w : World σ) :
    Outcome Ptr × World σ :=
  match r.GetTask taskID w.heap w.repo with
  | (res, h, s) => (res, ⟨h, s, w.calls ++ [Call.GetTask taskID]⟩)

/-- The method `taskService.ListTasks`. -/
def ListTasks {σ : Type} (r : TaskRepository σ) (status : Option TaskStatus)
    (limit offset : Int) (w : World σ) : Outcome (List Ptr) × World σ :=
  let limit := if limit ≤ 0 then DefaultLimit else limit
  let filter : TaskFilter := { Status := status, Limit := limit, Offset := offset }
  match r.ListTasks filter w.heap w.repo with
  | (res, h, s) => (res, ⟨h, s, w.calls ++ [Call.ListTasks filter]⟩)

/-- The `switch *input.Status` of `UpdateTask`: the three enumerated values. -/
def validStatus (st : TaskStatus) : Bool :=
  st == TaskStatusNew || st == TaskStatusInProgress || st == TaskStatusDone

/-- An assignment `task.F = v` through the pointer `task`; `none` is the panic
of a dereference when the pointer refers to no object. -/
def assign (h : Heap) (task : Ptr) (f : Task → Task) : Option Heap :=
  match Heap.read h task with
  | some t => some (Heap.write h task (f t))
  | none => none

/-- The block `if input.Title != nil { ... }` of `UpdateTask`: `none` is a
panic, otherwise the error returned from inside the block (if any) and the
heap after the block. -/
def setTitle (input : UpdateTaskInput) (task : Ptr) (h : Heap) : Option (Option GoError × Heap) :=
  match input.Title with
  | some title =>
    if len title < 3 then
      some (some (GoError.New "title must be at least 3 characters"), h)
    else
      match assign h task (fun t => { t with Title := title }) with
      | some h1 => some (none, h1)
      | none => none
  | none => some (none, h)

/-- The block `if input.Description != nil { ... }` of `UpdateTask`. -/
def setDescription (input : UpdateTaskInput) (task : Ptr) (h : Heap) : Option Heap :=
  match input.Description with
  | some d => assign h task (fun t => { t with Description := d })
  | none => some h

/-- The block `if input.Status != nil { switch ... }` of `UpdateTask`. -/
def setStatus (input : UpdateTaskInput) (task : Ptr) (h : Heap) : Option (Option GoError × Heap) :=
  match input.Status with
  | some st =>
    if validStatus st then
      match assign h task (fun t => { t with Status := st }) with
      | some h1 => some (none, h1)
      | none => none
    else
      some (some (GoError.New "invalid status"), h)
  | none => some (none, h)

/-- The three blocks of `UpdateTask` between the read and the write, in source
order: each one runs on the heap the previous one left. -/
def applyInput (input : UpdateTaskInput) (task : Ptr) (h : Heap) : Option (Option GoError × Heap) :=
  match setTitle input task h with
  | none => none
  | some (some e, h1) => some (some e, h1)
  | some (none, h1) =>
    match setDescription input task h1 with
    | none => none
    | some h2 => setStatus input task h2

/-- The method `taskService.UpdateTask`. -/
def UpdateTask {σ : Type} (r : TaskRepository σ) (taskID : UUID)
    (input : UpdateTaskInput) (w : World σ) : Outcome Ptr × World σ :=
  match r.GetTask taskID w.heap w.repo with
  | (Outcome.err e, h, s) => (Outcome.err e, ⟨h, s, w.calls ++ [Call.GetTask taskID]⟩)
  | (Outcome.panic, h, s) => (Outcome.panic, ⟨h, s, w.calls ++ [Call.GetTask taskID]⟩)
  | (Outcome.ok task, h, s) =>
    match applyInput input task h with
    | none => (Outcome.panic, ⟨h, s, w.calls ++ [Call.GetTask taskID]⟩)
    | some (some e, h1) => (Outcome.err e, ⟨h1, s, w.calls ++ [Call.GetTask taskID]⟩)
    | some (none, h1) =>
      match r.UpdateTask task h1 s with
      | (Outcome.err e, h2, s2) =>
        (Outcome.err e, ⟨h2, s2, w.calls ++ [Call.GetTask taskID, Call.UpdateTask task]⟩)
      | (Outcome.panic, h2, s2) =>
        (Outcome.panic, ⟨h2, s2, w.calls ++ [Call.GetTask taskID, Call.UpdateTask task]⟩)
      | (Outcome.ok _, h2, s2) =>
        (Outcome.ok task, ⟨h2, s2, w.calls ++ [Call.GetTask taskID, Call.UpdateTask task]⟩)

/-- The method `taskService.DeleteTask`. -/
def DeleteTask {σ : Type} (r : TaskRepository σ) (taskID : UUID) (w : World σ) :
    Outcome Unit × World σ :=
  match r.DeleteTask taskID w.heap w.repo with
  | (e, h, s) => (e, ⟨h, s, w.calls ++ [Call.DeleteTask taskID]⟩)

end service

/-! ## The in-memory repository of task_service_test.go -/

namespace inMemoryRepo

/-- The field `store map[uuid.UUID]*models.Task`: the entries of the map, at
most one for each key. -/
abbrev Store := List (UUID × Ptr)

/-- The value of `make(map[uuid.UUID]*models.Task)`. -/
def newInMemoryRepo : Store := []

/-- The map read `r.store[k]` with its `ok` flag. -/
def lookup (store : Store) (k : UUID) : Option Ptr :=
  (store.find? (fun e => e.1 == k)).map (fun e => e.2)

/-- The built-in `delete(r.store, k)`. -/
def remove (store : Store) (k : UUID) : Store :=
  store.filter (fun e => !(e.1 == k))

/-- The map write `r.store[k] = p`. -/
def insert (store : Store) (k : UUID) (p : Ptr) : Store :=
  remove store k ++ [(k, p)]

def Ping (h : Heap) (store : Store) : Outcome Unit × Heap × Store :=
  (Outcome.ok (), h, store)

/-- Reads `task.ID` through the pointer and stores the pointer itself. -/
def CreateTask (task : Ptr) (h : Heap) (store : Store) : Outcome Unit × Heap × Store :=
  match Heap.read h task with
  | none => (Outcome.panic, h, store)
  | some t => (Outcome.ok (), h, insert store t.ID task)

/-- Returns the stored pointer, not a copy of the object. -/
def GetTask (taskID : UUID) (h : Heap) (store : Store) : Outcome Ptr × Heap × Store :=
  match lookup store taskID with
  | some task => (Outcome.ok task, h, store)
  | none => (Outcome.err ErrTaskNotFound, h, store)

/-- Ranges over the map (in the order of the entries) and ignores the filter. -/
def ListTasks (_filter : TaskFilter) (h : Heap) (store : Store) :
    Outcome (List Ptr) × Heap × Store :=
  (Outcome.ok (store.map (fun e => e.2)), h, store)

def UpdateTask (task : Ptr) (h : Heap) (store : Store) : Outcome Unit × Heap × Store :=
  match Heap.read h task with
  | none => (Outcome.panic, h, store)
  | some t =>
    match lookup store t.ID with
    | none => (Outcome.err ErrTaskNotFound, h, store)
    | some _ => (Outcome.ok (), h, insert store t.ID task)

def DeleteTask (taskID : UUID) (h : Heap) (store : Store) : Outcome Unit × Heap × Store :=
  match lookup store taskID with
  | none => (Outcome.err ErrTaskNotFound, h, store)
  | some _ => (Outcome.ok (), h, remove store taskID)

/-- The type `inMemoryRepo` as an implementation of `TaskRepository`. -/
def repo : TaskRepository Store where
  CreateTask := CreateTask
  GetTask := GetTask
  ListTasks := ListTasks
  UpdateTask := UpdateTask
  DeleteTask := DeleteTask
  Ping := Ping

end inMemoryRepo

/-! ## internal/repository: SQLiteTaskRepository -/

namespace repository

/-- The two functions of package `time` the repository uses with the layout
`time.RFC3339Nano`: `t.Format(time.RFC3339Nano)` and
`time.Parse(time.RFC3339Nano, s)`.  They belong to the Go library, not to this
repository, and are taken as given. -/
structure TimeLayout where
  Format : Time → String
  Parse : String → Except GoError Time

/-- A row of table `tasks` (migrations.go): six TEXT columns, `id` the primary
key.  The `id` column holds `task.ID.String()`, the canonical text of the
UUID, which `Scan` reads back into the same UUID; the row keeps the UUID. -/
structure Row where
  id : UUID
  title : String
  description : String
  status : String
  created_at : String
  updated_at : String
deriving DecidableEq, Repr

/-- What is behind `r.db`: the rows of table `tasks`, the readings the next
calls of `time.Now().UTC()` return, and for each of the next statements sent to
the driver the error it fails with, if it fails for a reason of the driver's
own (closed handle, cancelled context, I/O). -/
structure DB where
  rows : List Row
  clock : Nat → Time
  faults : Nat → Option GoError

namespace DB

/-- The reading of `time.Now().UTC()`. -/
def now (db : DB) : Time := db.clock 0

/-- The state after one reading of the clock. -/
def tick (db : DB) : DB := { db with clock := fun n => db.clock (n + 1) }

/-- The driver's own error for the statement being sent, if any. -/
def fault (db : DB) : Option GoError := db.faults 0

/-- The state after one statement was sent. -/
def sent (db : DB) : DB := { db with faults := fun n => db.faults (n + 1) }

end DB

/-- An argument bound to a `?` of a query. -/
inductive Arg where
  | text (s : String) : Arg
  | int (i : Int) : Arg
deriving DecidableEq, Repr

namespace SQLiteTaskRepository

def Ping (h : Heap) (db : DB) : Outcome Unit × Heap × DB :=
  match db.fault with
  | some e => (Outcome.err e, h, db.sent)
  | none => (Outcome.ok (), h, db.sent)

/-- The INSERT of `CreateTask` on the table: a second row with the same
primary key is refused. -/
def insertRow (rows : List Row) (row : Row) : Except GoError (List Row) :=
  if rows.any (fun r => r.id == row.id) then
    Except.error (GoError.New "UNIQUE constraint failed: tasks.id")
  else Except.ok (rows ++ [row])

def CreateTask (L : TimeLayout) (task : Ptr) (h : Heap) (db : DB) : Outcome Unit × Heap × DB :=
  let now := db.now
  match Heap.read h task with
  | none => (Outcome.panic, h, db.tick)
  | some t0 =>
    let t : Task := { t0 with CreatedAt := now, UpdatedAt := now }
    let h1 := Heap.write h task t
    let db1 := db.tick
    match db1.fault with
    | some e => (Outcome.err e, h1, db1.sent)
    | none =>
      match insertRow db1.rows
          { id := t.ID, title := t.Title, description := t.Description, status := t.Status,
            created_at := L.Format t.CreatedAt, updated_at := L.Format t.UpdatedAt } with
      | Except.error e => (Outcome.err e, h1, db1.sent)
      | Except.ok rows => (Outcome.ok (), h1, { db1.sent with rows := rows })

/-- The body of `GetTask` and of the loop of `ListTasks` after `Scan`: the
task decoded from a row, or the error of the first timestamp that does not
parse. -/
def decodeRow (L : TimeLayout) (row : Row) : Except GoError Task :=
  match L.Parse row.created_at with
  | Except.error e => Except.error (GoError.Wrap "parse created_at: " e)
  | Except.ok createdAt =>
    match L.Parse row.updated_at with
    | Except.error e => Except.error (GoError.Wrap "parse_updated_at: " e)
    | Except.ok updatedAt =>
      Except.ok { ID := row.id, Title := row.title, Description := row.description,
                  Status := row.status, CreatedAt := createdAt, UpdatedAt := updatedAt }

def GetTask (L : TimeLayout) (taskID : UUID) (h : Heap) (db : DB) : Outcome Ptr × Heap × DB :=
  match db.fault with
  | some e => (Outcome.err e, h, db.sent)
  | none =>
    match db.rows.find? (fun r => r.id == taskID) with
    | none => (Outcome.err ErrTaskNotFound, h, db.sent)
    | some row =>
      match decodeRow L row with
      | Except.error e => (Outcome.err e, h, db.sent)
      | Except.ok t =>
        match Heap.alloc h t with
        | (p, h1) => (Outcome.ok p, h1, db.sent)

/-- The query text and the arguments `ListTasks` hands to `QueryContext`. -/
def listQuery (filter : TaskFilter) : String × List Arg :=
  let baseQuery := "\nSELECT id, title, description, status, created_at, updated_at\nFROM tasks\n"
  let queryArgs : List Arg := []
  let (baseQuery, queryArgs) :=
    match filter.Status with
    | some st => (baseQuery ++ "WHERE status = ? ", queryArgs ++ [Arg.text st])
    | none => (baseQuery, queryArgs)
  let baseQuery := baseQuery ++ "ORDER BY created_at DESC "
  let (baseQuery, queryArgs) :=
    if filter.Limit > 0 then (baseQuery ++ "LIMIT ? ", queryArgs ++ [Arg.int filter.Limit])
    else (baseQuery, queryArgs)
  let (baseQuery, queryArgs) :=
    if filter.Offset > 0 then (baseQuery ++ "OFFSET ?", queryArgs ++ [Arg.int filter.Offset])
    else (baseQuery, queryArgs)
  (baseQuery, queryArgs)

/-- What the engine answers to the query of `listQuery filter`: the rows with
the status (if one is asked for), latest `created_at` first, cut by LIMIT and
OFFSET; the text with an OFFSET clause and no LIMIT clause is not SQL and is
refused. -/
def selectRows (filter : TaskFilter) (rows : List Row) : Except GoError (List Row) :=
  let matching : List Row :=
    match filter.Status with
    | some st => rows.filter (fun (r : Row) => r.status == st)
    | none => rows
  let sorted : List Row :=
    matching.mergeSort (fun (a b : Row) => !(decide (a.created_at < b.created_at)))
  if filter.Limit > 0 then
    if filter.Offset > 0 then
      Except.ok ((sorted.drop filter.Offset.toNat).take filter.Limit.toNat)
    else Except.ok (sorted.take filter.Limit.toNat)
  else
    if filter.Offset > 0 then Except.error (GoError.New "near \"OFFSET\": syntax error")
    else Except.ok sorted

/-- The loop `for rows.Next()` of `ListTasks`: decodes the rows in order and
stops at the first error. -/
def decodeRows (L : TimeLayout) : List Row → Heap → Except GoError (List Ptr × Heap)
  | [], h => Except.ok ([], h)
  | row :: rest, h =>
    match decodeRow L row with
    | Except.error e => Except.error e
    | Except.ok t =>
      match Heap.alloc h t with
      | (p, h1) =>
        match decodeRows L rest h1 with
        | Except.error e => Except.error e
        | Except.ok (ps, h2) => Except.ok (p :: ps, h2)

def ListTasks (L : TimeLayout) (filter : TaskFilter) (h : Heap) (db : DB) :
    Outcome (List Ptr) × Heap × DB :=
  match db.fault with
  | some e => (Outcome.err e, h, db.sent)
  | none =>
    match selectRows filter db.rows with
    | Except.error e => (Outcome.err e, h, db.sent)
    | Except.ok rows =>
      match decodeRows L rows h with
      | Except.error e => (Outcome.err e, h, db.sent)
      | Except.ok (ps, h1) => (Outcome.ok ps, h1, db.sent)

/-- The UPDATE of `UpdateTask` on the table: the new rows and the number of
rows affected. -/
def updateRows (rows : List Row) (t : Task) (updatedAt : String) : List Row × Nat :=
  (rows.map (fun r =>
      if r.id == t.ID then
        { r with title := t.Title, description := t.Description, status := t.Status,
                 updated_at := updatedAt }
      else r),
   rows.countP (fun r => r.id == t.ID))

def UpdateTask (L : TimeLayout) (task : Ptr) (h : Heap) (db : DB) : Outcome Unit × Heap × DB :=
  let now := db.now
  match Heap.read h task with
  | none => (Outcome.panic, h, db.tick)
  | some t0 =>
    let t : Task := { t0 with UpdatedAt := now }
    let h1 := Heap.write h task t
    let db1 := db.tick
    match db1.fault with
    | some e => (Outcome.err e, h1, db1.sent)
    | none =>
      match updateRows db1.rows t (L.Format t.UpdatedAt) with
      | (rows, rowsAffected) =>
        if rowsAffected = 0 then (Outcome.err ErrTaskNotFound, h1, { db1.sent with rows := rows })
        else (Outcome.ok (), h1, { db1.sent with rows := rows })

/-- The DELETE of `DeleteTask` on the table: the rows left and the number of
rows affected. -/
def deleteRows (rows : List Row) (taskID : UUID) : List Row × Nat :=
  (rows.filter (fun (r : Row) => !(r.id == taskID)), rows.countP (fun (r : Row) => r.id == taskID))

def DeleteTask (taskID : UUID) (h : Heap) (db : DB) : Outcome Unit × Heap × DB :=
  match db.fault with
  | some e => (Outcome.err e, h, db.sent)
  | none =>
    match deleteRows db.rows taskID with
    | (rows, rowsAffected) =>
      if rowsAffected = 0 then (Outcome.err ErrTaskNotFound, h, { db.sent with rows := rows })
      else (Outcome.ok (), h, { db.sent with rows := rows })

/-- The type `SQLiteTaskRepository` as an implementation of `TaskRepository`. -/
def repo (L : TimeLayout) : TaskRepository DB where
  CreateTask := CreateTask L
  GetTask := GetTask L
  ListTasks := ListTasks L
  UpdateTask := UpdateTask L
  DeleteTask := DeleteTask
  Ping := Ping

end SQLiteTaskRepository

end repository

/-! ## The layout time.RFC3339Nano of the Go library -/

namespace time

/-- The character of a decimal digit. -/
def digitChar (d : Nat) : Char := Char.ofNat (48 + d)

/-- The value of a decimal digit character. -/
def digitVal (c : Char) : Nat := c.toNat - 48

/-- The decimal digits of `n` in exactly `w` characters, zero-padded. -/
def pad : Nat → Nat → List Char
  | 0, _ => []
  | w + 1, n => pad w (n / 10) ++ [digitChar (n % 10)]

/-- The number a list of decimal digits writes. -/
def digitsVal (cs : List Char) : Nat := cs.foldl (fun acc c => 10 * acc + digitVal c) 0

/-- The digits without their trailing zeros. -/
def trimZeros (cs : List Char) : List Char := (cs.reverse.dropWhile (fun c => c == '0')).reverse

/-- The year has a 29th of February. -/
def isLeap (year : Nat) : Bool := year % 4 == 0 && (year % 100 != 0 || year % 400 == 0)

/-- The lengths of the twelve months of a year. -/
def monthLengths (leap : Bool) : List Nat :=
  [31, if leap then 29 else 28, 31, 30, 31, 30, 31, 31, 30, 31, 30, 31]

/-- The number of days of a month of a year. -/
def daysIn (month year : Nat) : Nat := (monthLengths (isLeap year)).getD (month - 1) 0

/-- The month (counted from `m`) and the day of the month of the day `r` of a
stretch of months with the lengths `lens`. -/
def monthDay : List Nat → Nat → Nat → Nat × Nat
  | [], m, r => (m, r + 1)
  | len :: rest, m, r => if r < len then (m, r + 1) else monthDay rest (m + 1) (r - len)

/-- The days of a year before the first of a month. -/
def daysBeforeMonth (leap : Bool) (month : Nat) : Nat := ((monthLengths leap).take (month - 1)).sum

/-- The days from 0001-01-01 to the first of January of a year. -/
def daysBeforeYear (year : Nat) : Int :=
  let y : Int := (year : Int) - 1
  365 * y + y / 4 - y / 100 + y / 400

/-- The year and the day of the year of a day counted from 0001-01-01. -/
def yearDay (d0 : Nat) : Nat × Nat :=
  let n400 := d0 / 146097
  let d1 := d0 % 146097
  let n100 := if d1 / 36524 = 4 then 3 else d1 / 36524
  let d2 := d1 - 36524 * n100
  let n4 := d2 / 1461
  let d3 := d2 % 1461
  let n1 := if d3 / 365 = 4 then 3 else d3 / 365
  (400 * n400 + 100 * n100 + 4 * n4 + n1 + 1, d3 - 365 * n1)

/-- The fraction of a second as `Format` writes it for `.999999999`: nothing
for zero, otherwise a period and the nine digits without trailing zeros. -/
def frac (nsec : Nat) : List Char := if nsec = 0 then [] else '.' :: trimZeros (pad 9 nsec)

/-- The Go library method `t.Format(time.RFC3339Nano)` for a UTC time of the
years 0001 to 9999: date and time of day of the proleptic Gregorian calendar
as `2006-01-02T15:04:05`, the fraction of a second where it is not zero, and
`Z`. -/
def Format (t : Time) : String :=
  let sec := t.unixNano / 1000000000
  let nsec := (t.unixNano % 1000000000).toNat
  let d0 := (sec / 86400 + 719162).toNat
  let sod := (sec % 86400).toNat
  let yd := yearDay d0
  let md := monthDay (monthLengths (isLeap yd.1)) 1 yd.2
  String.mk (pad 4 yd.1 ++ '-' :: pad 2 md.1 ++ '-' :: pad 2 md.2 ++ 'T' :: pad 2 (sod / 3600)
    ++ ':' :: pad 2 (sod % 3600 / 60) ++ ':' :: pad 2 (sod % 60) ++ frac nsec ++ ['Z'])

/-- What follows the seconds in a timestamp: an optional fraction of a second
(a period or a comma and digits, of which nine count) and the zone `Z`. -/
def parseFracZone (rest : List Char) : Option Nat :=
  match rest with
  | ['Z'] => some 0
  | sep :: c :: tl =>
    if (sep == '.' || sep == ',') && c.isDigit then
      let ds := ((c :: tl).takeWhile Char.isDigit).take 9
      if (c :: tl).dropWhile Char.isDigit == ['Z'] then
        some (digitsVal ds * 10 ^ (9 - ds.length))
      else none
    else none
  | _ => none

/-- The end of `time.Parse`: the range checks on the fields that were read and
the instant of the date and time of day they give. -/
def fromFields (year month day hour min sec nsec : Nat) : Except GoError Time :=
  if month < 1 || 12 < month then Except.error (GoError.New "parsing time: month out of range")
  else if day < 1 || daysIn month year < day then
    Except.error (GoError.New "parsing time: day out of range")
  else if 24 ≤ hour then Except.error (GoError.New "parsing time: hour out of range")
  else if 60 ≤ min then Except.error (GoError.New "parsing time: minute out of range")
  else if 60 ≤ sec then Except.error (GoError.New "parsing time: second out of range")
  else
    let days : Int := daysBeforeYear year + daysBeforeMonth (isLeap year) month + day - 1 - 719162
    Except.ok ⟨((days * 86400 + hour * 3600 + min * 60 + sec) * 1000000000 + nsec)⟩

/-- The Go library function `time.Parse(time.RFC3339Nano, s)` for a timestamp
in UTC, the form this repository writes: four digits of year, two each of
month, day, hour, minute and second between the separators of the layout, an
optional fraction of a second and the zone `Z`.  A timestamp with a numeric
zone offset needs the zone of a `time.Time`, which `Time` leaves out, and is
not read here. -/
def Parse (s : String) : Except GoError Time :=
  match s.data with
  | y1 :: y2 :: y3 :: y4 :: c1 :: m1 :: m2 :: c2 :: d1 :: d2 :: c3 :: h1 :: h2 :: c4 :: i1 :: i2
      :: c5 :: s1 :: s2 :: rest =>
    if c1 == '-' && c2 == '-' && c3 == 'T' && c4 == ':' && c5 == ':'
        && [y1, y2, y3, y4, m1, m2, d1, d2, h1, h2, i1, i2, s1, s2].all Char.isDigit then
      match parseFracZone rest with
      | none => Except.error (GoError.New "parsing time: cannot parse")
      | some nsec =>
        fromFields (digitsVal [y1, y2, y3, y4]) (digitsVal [m1, m2]) (digitsVal [d1, d2])
          (digitsVal [h1, h2]) (digitsVal [i1, i2]) (digitsVal [s1, s2]) nsec
    else Except.error (GoError.New "parsing time: cannot parse")
  | _ => Except.error (GoError.New "parsing time: cannot parse")

/-- The layout `time.RFC3339Nano`. -/
def RFC3339Nano : TimeLayout := { Format := Format, Parse := Parse }

end time

/-! ## internal/handler -/

namespace handler

def ErrMsgUnhealthy : String := "Server is not available"
def ErrMsgMethodNotAllowed : String :=
  "Method not allowed. please use appropriate method for this operation"
def ErrMsgInvalidJSON : String := "Invalid JSON! can't parse incoming model please check the input"
def ErrMsgInvalidStatus : String :=
  "Invalid status! Status can be only: `new`, `in_progress` or `done`"
def ErrMsgInvalidLimit : String := "Invalid limit! Limit value must be greater than zero"
def ErrMsgInvalidOffset : String := "Invalid offset! Offset value must be greater than zero"
def ErrMsgInvalidID : String := "Invalid id! Id must be a valid uuid"
def ErrMsgNotFound : String := "Not found!"
def ErrMsgFailedToList : String := "Failed to list tasks due to an internal server error"
def ErrMsgFailedToGet : String := "Failed to get task due to an internal server error"
def ErrMsgFailedToDelete : String := "Failed to delete task due to an internal server error"
def ErrMsgTitleTooShort : String :=
  "Title must be at least 3 characters. Please check the input and try again"

def DefaultLimit : Int := 50
def DefaultOffset : Int := 0

def StatusOK : Nat := 200
def StatusCreated : Nat := 201
def StatusNoContent : Nat := 204
def StatusBadRequest : Nat := 400
def StatusNotFound : Nat := 404
def StatusMethodNotAllowed : Nat := 405
def StatusInternalServerError : Nat := 500
def StatusServiceUnavailable : Nat := 503

/-- The interface `service.TaskService` as the handler sees it, over a state
`ω` of whatever implements it.  A returned `*models.Task` is given as the
object it points to, which is what the handler encodes. -/
structure TaskService (ω : Type) where
  CreateTask : CreateTaskInput → ω → Outcome Task × ω
  GetTask : UUID → ω → Outcome Task × ω
  ListTasks : Option TaskStatus → Int → Int → ω → Outcome (List Task) × ω
  UpdateTask : UUID → UpdateTaskInput → ω → Outcome Task × ω
  DeleteTask : UUID → ω → Outcome Unit × ω
  Ping : ω → Outcome Unit × ω

/-- The library functions the handlers call, taken as given:
`json.NewDecoder(r.Body).Decode` into each input type, `json.NewEncoder(w).Encode`
of a task and of a slice of tasks, `uuid.Parse` and `strconv.Atoi`. -/
structure Lib where
  decodeCreate : String → Except GoError CreateTaskInput
  decodeUpdate : String → Except GoError UpdateTaskInput
  encodeTask : Task → String
  encodeTasks : List Task → String
  uuidParse : String → Except GoError UUID
  Atoi : String → Except GoError Int

/-- What the handler reads of an `*http.Request`: the method, the path value
`id`, the query parameters in order and the body. -/
structure Request where
  Method : String
  PathID : String
  Query : List (String × String)
  Body : String

/-- The call `r.URL.Query().Get(key)`: the first value of the key, or the
empty string. -/
def Request.queryGet (req : Request) (key : String) : String :=
  match req.Query.find? (fun kv => kv.1 == key) with
  | some kv => kv.2
  | none => ""

/-- What the handler wrote to the `http.ResponseWriter`: the status code, the
Content-Type header and the body. -/
structure Response where
  code : Nat
  contentType : String
  body : String
deriving DecidableEq, Repr

/-- The library call `http.Error(w, msg, code)`: a plain-text response whose
body is the message and a newline. -/
def httpError (msg : String) (code : Nat) : Response :=
  { code := code, contentType := "text/plain; charset=utf-8", body := msg ++ "\n" }

/-- A response with the header `Content-Type: application/json`. -/
def jsonResponse (code : Nat) (body : String) : Response :=
  { code := code, contentType := "application/json", body := body }

/-- The method `handleHealth`; the body on success is the encoding of
`map[string]string{"status": "ok"}`.  The result is `none` when the handler
panicked and wrote nothing. -/
def handleHealth {ω : Type} (svc : TaskService ω) (_lib : Lib) (_req : Request) (w : ω) :
    Option Response × ω :=
  match svc.Ping w with
  | (Outcome.err _, w1) => (some (httpError ErrMsgUnhealthy StatusServiceUnavailable), w1)
  | (Outcome.panic, w1) => (none, w1)
  | (Outcome.ok _, w1) => (some (jsonResponse StatusOK "\x7b\"status\":\"ok\"\x7d\n"), w1)

/-- The method `handleCreateTask`. -/
def handleCreateTask {ω : Type} (svc : TaskService ω) (lib : Lib) (req : Request) (w : ω) :
    Option Response × ω :=
  if req.Method != "POST" then
    (some (httpError ErrMsgMethodNotAllowed StatusMethodNotAllowed), w)
  else
    match lib.decodeCreate req.Body with
    | Except.error _ => (some (httpError ErrMsgInvalidJSON StatusBadRequest), w)
    | Except.ok createInput =>
      match svc.CreateTask createInput w with
      | (Outcome.err err, w1) =>
        let errMsg := err.Error
        if errMsg == ErrMsgTitleTooShort then
          (some (httpError ErrMsgTitleTooShort StatusBadRequest), w1)
        else
          (some (httpError errMsg StatusBadRequest), w1)
      | (Outcome.panic, w1) => (none, w1)
      | (Outcome.ok task, w1) => (some (jsonResponse StatusCreated (lib.encodeTask task)), w1)

/-- The first block of `handleListTasks`: the status filter of the query, or
the 400 response. -/
def parseStatus (req : Request) : Except Response (Option TaskStatus) :=
  let statusStr := req.queryGet "status"
  if statusStr != "" then
    if statusStr == TaskStatusNew || statusStr == TaskStatusInProgress
        || statusStr == TaskStatusDone then
      Except.ok (some statusStr)
    else Except.error (httpError ErrMsgInvalidStatus StatusBadRequest)
  else Except.ok none

/-- The block of `handleListTasks` on parameter `limit`. -/
def parseLimit (lib : Lib) (req : Request) : Except Response Int :=
  let limitStr := req.queryGet "limit"
  if limitStr != "" then
    match lib.Atoi limitStr with
    | Except.ok limitValue =>
      if limitValue > 0 then Except.ok limitValue
      else Except.error (httpError ErrMsgInvalidLimit StatusBadRequest)
    | Except.error _ => Except.error (httpError ErrMsgInvalidLimit StatusBadRequest)
  else Except.ok DefaultLimit

/-- The block of `handleListTasks` on parameter `offset`. -/
def parseOffset (lib : Lib) (req : Request) : Except Response Int :=
  let offsetStr := req.queryGet "offset"
  if offsetStr != "" then
    match lib.Atoi offsetStr with
    | Except.ok offsetValue =>
      if offsetValue ≥ 0 then Except.ok offsetValue
      else Except.error (httpError ErrMsgInvalidOffset StatusBadRequest)
    | Except.error _ => Except.error (httpError ErrMsgInvalidOffset StatusBadRequest)
  else Except.ok DefaultOffset

/-- The method `handleListTasks`. -/
def handleListTasks {ω : Type} (svc : TaskService ω) (lib : Lib) (req : Request) (w : ω) :
    Option Response × ω :=
  if req.Method != "GET" then
    (some (httpError ErrMsgMethodNotAllowed StatusMethodNotAllowed), w)
  else
    match parseStatus req with
    | Except.error resp => (some resp, w)
    | Except.ok taskStatus =>
      match parseLimit lib req with
      | Except.error resp => (some resp, w)
      | Except.ok limit =>
        match parseOffset lib req with
        | Except.error resp => (some resp, w)
        | Except.ok offset =>
          match svc.ListTasks taskStatus limit offset w with
          | (Outcome.err _, w1) =>
            (some (httpError ErrMsgFailedToList StatusInternalServerError), w1)
          | (Outcome.panic, w1) => (none, w1)
          | (Outcome.ok tasks, w1) => (some (jsonResponse StatusOK (lib.encodeTasks tasks)), w1)

/-- The method `handleGetTask`. -/
def handleGetTask {ω : Type} (svc : TaskService ω) (lib : Lib) (req : Request) (w : ω) :
    Option Response × ω :=
  if req.Method != "GET" then
    (some (httpError ErrMsgMethodNotAllowed StatusMethodNotAllowed), w)
  else
    match lib.uuidParse req.PathID with
    | Except.error _ => (some (httpError ErrMsgInvalidID StatusBadRequest), w)
    | Except.ok taskID =>
      match svc.GetTask taskID w with
      | (Outcome.err err, w1) =>
        if err.IsNotFound then (some (httpError ErrMsgNotFound StatusNotFound), w1)
        else (some (httpError ErrMsgFailedToGet StatusInternalServerError), w1)
      | (Outcome.panic, w1) => (none, w1)
      | (Outcome.ok task, w1) => (some (jsonResponse StatusOK (lib.encodeTask task)), w1)

/-- The method `handleUpdateTask`. -/
def handleUpdateTask {ω : Type} (svc : TaskService ω) (lib : Lib) (req : Request) (w : ω) :
    Option Response × ω :=
  if req.Method != "PUT" then
    (some (httpError ErrMsgMethodNotAllowed StatusMethodNotAllowed), w)
  else
    match lib.uuidParse req.PathID with
    | Except.error _ => (some (httpError ErrMsgInvalidID StatusBadRequest), w)
    | Except.ok taskID =>
      match lib.decodeUpdate req.Body with
      | Except.error _ => (some (httpError ErrMsgInvalidJSON StatusBadRequest), w)
      | Except.ok updateInput =>
        match svc.UpdateTask taskID updateInput w with
        | (Outcome.err err, w1) =>
          if err.IsNotFound then (some (httpError ErrMsgNotFound StatusNotFound), w1)
          else
            let errMsg := err.Error
            if errMsg == ErrMsgTitleTooShort then
              (some (httpError ErrMsgTitleTooShort StatusBadRequest), w1)
            else if errMsg == ErrMsgInvalidStatus then
              (some (httpError ErrMsgInvalidStatus StatusBadRequest), w1)
            else
              (some (httpError errMsg StatusBadRequest), w1)
        | (Outcome.panic, w1) => (none, w1)
        | (Outcome.ok task, w1) => (some (jsonResponse StatusOK (lib.encodeTask task)), w1)

/-- The method `handleDeleteTask`; on success it writes the status and no
body. -/
def handleDeleteTask {ω : Type} (svc : TaskService ω) (lib : Lib) (req : Request) (w : ω) :
    Option Response × ω :=
  if req.Method != "DELETE" then
    (some (httpError ErrMsgMethodNotAllowed StatusMethodNotAllowed), w)
  else
    match lib.uuidParse req.PathID with
    | Except.error _ => (some (httpError ErrMsgInvalidID StatusBadRequest), w)
    | Except.ok taskID =>
      match svc.DeleteTask taskID w with
      | (Outcome.err err, w1) =>
        if err.IsNotFound then (some (httpError ErrMsgNotFound StatusNotFound), w1)
        else (some (httpError ErrMsgFailedToDelete StatusInternalServerError), w1)
      | (Outcome.panic, w1) => (none, w1)
      | (Outcome.ok _, w1) => (some { code := StatusNoContent, contentType := "", body := "" }, w1)

end handler

/-! ## The service behind the handler -/

/-- The state of a `taskService` value as the handler runs it: the world of
the service and the values the next calls of `uuid.New()` return. -/
structure Env (σ : Type) where
  world : World σ
  uuids : Nat → UUID

namespace service

/-- The object a returned `*models.Task` points to; a pointer to no object
cannot be encoded. -/
def deref {σ : Type} (res : Outcome Ptr × World σ) : Outcome Task :=
  match res.1 with
  | Outcome.ok p =>
    match Heap.read res.2.heap p with
    | some t => Outcome.ok t
    | none => Outcome.panic
  | Outcome.err e => Outcome.err e
  | Outcome.panic => Outcome.panic

/-- The objects a returned `[]*models.Task` points to. -/
def derefAll {σ : Type} (res : Outcome (List Ptr) × World σ) : Outcome (List Task) :=
  match res.1 with
  | Outcome.ok ps =>
    match ps.mapM (fun p => Heap.read res.2.heap p) with
    | some ts => Outcome.ok ts
    | none => Outcome.panic
  | Outcome.err e => Outcome.err e
  | Outcome.panic => Outcome.panic

/-- The value `NewTaskService(repo)` as the `TaskService` the handler holds. -/
def NewTaskService {σ : Type} (r : TaskRepository σ) : handler.TaskService (Env σ) where
  CreateTask := fun input env =>
    let res := CreateTask r (env.uuids 0) input env.world
    (deref res, ⟨res.2, if len input.Title < 3 then env.uuids else fun n => env.uuids (n + 1)⟩)
  GetTask := fun taskID env =>
    let res := GetTask r taskID env.world
    (deref res, ⟨res.2, env.uuids⟩)
  ListTasks := fun status limit offset env =>
    let res := ListTasks r status limit offset env.world
    (derefAll res, ⟨res.2, env.uuids⟩)
  UpdateTask := fun taskID input env =>
    let res := UpdateTask r taskID input env.world
    (deref res, ⟨res.2, env.uuids⟩)
  DeleteTask := fun taskID env =>
    let res := DeleteTask r taskID env.world
    (res.1, ⟨res.2, env.uuids⟩)
  Ping := fun env =>
    let res := Ping r env.world
    (res.1, ⟨res.2, env.uuids⟩)

end service

/-! ## Fixtures for the concrete evaluations -/

namespace fixtures

/-- A layout that writes an instant as the decimal digits of its nanosecond
count and reads such digits back; it stands in for `time.RFC3339Nano` where a
statement is evaluated on concrete data. -/
def digitsLayout : TimeLayout where
  Format := fun t => String.mk (Nat.toDigits 10 t.unixNano.toNat)
  Parse := fun s =>
    if s.data.all Char.isDigit && !s.data.isEmpty then
      Except.ok ⟨Int.ofNat (s.data.foldl (fun n c => 10 * n + (c.toNat - 48)) 0)⟩
    else Except.error (GoError.New "cannot parse time")

/-- A database with no rows whose clock reads 1000, 1001, ... nanoseconds and
whose driver never fails. -/
def emptyDB : DB := { rows := [], clock := fun n => ⟨1000 + n⟩, faults := fun _ => none }

/-- A database whose driver fails on every statement. -/
def lockedDB : DB :=
  { rows := [], clock := fun n => ⟨1000 + n⟩,
    faults := fun _ => some (GoError.New "database is locked") }

/-- A database that holds one task, created at instant 1000, whose clock reads
2000, 2001, ... and whose driver never fails. -/
def oneRowDB : DB :=
  { rows := [⟨7, "Buy milk", "2%", "new", "1000", "1000"⟩],
    clock := fun n => ⟨2000 + n⟩, faults := fun _ => none }

/-- The task stored in `oneRowDB`. -/
def storedTask : Task :=
  { ID := 7, Title := "Buy milk", Description := "2%", Status := TaskStatusNew,
    CreatedAt := ⟨1000⟩, UpdatedAt := ⟨1000⟩ }

/-- A database with no rows whose wall clock reads 1000 first and 400
afterwards (the clock was set back in between) and whose driver never fails. -/
def steppedBackDB : DB :=
  { rows := [], clock := fun n => if n = 0 then ⟨1000⟩ else ⟨400⟩, faults := fun _ => none }

/-- A layout that writes an instant as that many strokes and reads the number
of characters back; it is lossless at every instant from the epoch on. -/
def strokesLayout : TimeLayout where
  Format := fun t => String.mk (List.replicate t.unixNano.toNat '|')
  Parse := fun s => Except.ok ⟨Int.ofNat s.data.length⟩

/-- A database with no rows whose clock reads 0, 1, 2, ... nanoseconds and
whose driver never fails. -/
def tickDB : DB := { rows := [], clock := fun n => ⟨Int.ofNat n⟩, faults := fun _ => none }
/-- The decimal number a list of digits writes, or `none`. -/
def parseNat (cs : List Char) : Option Nat :=
  if cs.all Char.isDigit && !cs.isEmpty then
    some (cs.foldl (fun n c => 10 * n + (c.toNat - 48)) 0)
  else none

/-- A library for the handlers that reads a request body as the title of the
input, writes a task as its title, and reads identifiers and integers as
decimal numbers (an integer may have a minus sign); it stands in for `encoding/json`, `uuid` and `strconv` where a
handler is evaluated on concrete data. -/
def lib : handler.Lib where
  decodeCreate := fun body =>
    if body.isEmpty then Except.error (GoError.New "EOF") else Except.ok ⟨body, ""⟩
  decodeUpdate := fun body =>
    if body.isEmpty then Except.error (GoError.New "EOF") else Except.ok ⟨some body, none, none⟩
  encodeTask := fun t => t.Title
  encodeTasks := fun ts => String.intercalate "," (ts.map (fun t => t.Title))
  uuidParse := fun s =>
    match parseNat s.data with
    | some n => Except.ok n
    | none => Except.error (GoError.New "invalid UUID")
  Atoi := fun s =>
    match s.data with
    | '-' :: cs =>
      match parseNat cs with
      | some n => Except.ok (-(Int.ofNat n))
      | none => Except.error (GoError.New "invalid syntax")
    | cs =>
      match parseNat cs with
      | some n => Except.ok (Int.ofNat n)
      | none => Except.error (GoError.New "invalid syntax")

/-- The world of a service on a new in-memory repository. -/
def memWorld : World inMemoryRepo.Store := { heap := [], repo := inMemoryRepo.newInMemoryRepo, calls := [] }

/-- The task the test `TestUpdateTaskStatusValidation` creates, with id 7. -/
def validTask : Task :=
  { ID := 7, Title := "valid title", Description := "desc", Status := TaskStatusNew,
    CreatedAt := Time.zero, UpdatedAt := Time.zero }

/-- The world of the in-memory service after that task was created. -/
def memWorld1 : World inMemoryRepo.Store :=
  { heap := [validTask], repo := [(7, 0)], calls := [Call.CreateTask 0] }

end fixtures

/-! ## Auxiliary definitions for the statements -/

/-- The task `service.CreateTask` has built and `SQLiteTaskRepository.CreateTask`
has stamped with the reading `now`. -/
def newTask (newID : UUID) (input : CreateTaskInput) (now : Time) : Task :=
  { ID := newID, Title := input.Title, Description := input.Description,
    Status := TaskStatusNew, CreatedAt := now, UpdatedAt := now }

/-- The object `UpdateTask` leaves behind the pointer when every supplied field
is valid: each supplied field of the input, the other fields of `t`. -/
def patch (input : UpdateTaskInput) (t : Task) : Task :=
  { t with Title := input.Title.getD t.Title,
           Description := input.Description.getD t.Description,
           Status := input.Status.getD t.Status }

/-- A call on the service, with its arguments (for `CreateTask` also the value
`uuid.New()` returns in it). -/
inductive Op where
  | CreateTask (newID : UUID) (input : CreateTaskInput) : Op
  | GetTask (taskID : UUID) : Op
  | ListTasks (status : Option TaskStatus) (limit offset : Int) : Op
  | UpdateTask (taskID : UUID) (input : UpdateTaskInput) : Op
  | DeleteTask (taskID : UUID) : Op
deriving DecidableEq, Repr

namespace service

/-- The tasks a call returned: the objects behind the returned pointers when
the call returns, none when it returned an error. -/
def returned (res : Outcome (List Ptr)) (h : Heap) : List Task :=
  match res with
  | Outcome.ok ps => ps.filterMap (fun p => Heap.read h p)
  | Outcome.err _ => []
  | Outcome.panic => []

/-- One call on the service: the tasks it returned and the world it left. -/
def step {σ : Type} (r : TaskRepository σ) (op : Op) (w : World σ) : List Task × World σ :=
  match op with
  | Op.CreateTask newID input =>
    match CreateTask r newID input w with
    | (Outcome.ok p, w1) => (returned (Outcome.ok [p]) w1.heap, w1)
    | (_, w1) => ([], w1)
  | Op.GetTask taskID =>
    match GetTask r taskID w with
    | (Outcome.ok p, w1) => (returned (Outcome.ok [p]) w1.heap, w1)
    | (_, w1) => ([], w1)
  | Op.ListTasks status limit offset =>
    match ListTasks r status limit offset w with
    | (res, w1) => (returned res w1.heap, w1)
  | Op.UpdateTask taskID input =>
    match UpdateTask r taskID input w with
    | (Outcome.ok p, w1) => (returned (Outcome.ok [p]) w1.heap, w1)
    | (_, w1) => ([], w1)
  | Op.DeleteTask taskID => ([], (DeleteTask r taskID w).2)

/-- A sequence of calls on the service, one after the other: all the tasks
they returned and the world the last one left. -/
def run {σ : Type} (r : TaskRepository σ) : List Op → World σ → List Task × World σ
  | [], w => ([], w)
  | op :: ops, w =>
    match step r op w with
    | (ts, w1) =>
      match run r ops w1 with
      | (ts2, w2) => (ts ++ ts2, w2)

/-- A sequence of `UpdateTask` calls on one task, one after the other,
whatever each of them returns: the world the last one left. -/
def updateMany {σ : Type} (r : TaskRepository σ) (taskID : UUID) :
    List UpdateTaskInput → World σ → World σ
  | [], w => w
  | input :: rest, w => updateMany r taskID rest (UpdateTask r taskID input w).2

end service

/-- The text `sub` appears in the text `s`: it is a prefix of what starts at
some position of `s`. -/
def appearsIn (sub s : String) : Bool :=
  s.data.tails.any (fun t => sub.data.isPrefixOf t)

/-- The number of `?` placeholders of a query text. -/
def placeholders (s : String) : Nat := s.data.count '?'

/-- The row the UPDATE of `UpdateTask` leaves in place of a row. -/
def updatedRow (taskID : UUID) (u : Task) (updatedAt : String) (r : Row) : Row :=
  if r.id == taskID then
    { r with title := u.Title, description := u.Description, status := u.Status,
             updated_at := updatedAt }
  else r

/-- The pointer refers to a task whose status is one of the three enumerated
values. -/
def Heap.validAt (h : Heap) (p : Ptr) : Bool :=
  match Heap.read h p with
  | some t => service.validStatus t.Status
  | none => false

/-- The timestamps of the row of task `taskID` in world `w`, told by the
readings `c` of the clock: created at reading 0, last updated at a reading
`j`, and the clock of `w` now at a later reading `k`. -/
def Stamped (L : TimeLayout) (c : Nat → Time) (taskID : UUID) (w : World DB) (j : Nat) : Prop :=
  ∃ row k, j < k ∧ w.repo.rows.find? (fun r => r.id == taskID) = some row
    ∧ row.created_at = L.Format (c 0) ∧ row.updated_at = L.Format (c j)
    ∧ w.repo.clock = fun n => c (n + k)

/-! ## Theorems -/

/-! ### Lemmas on the heap, the service and the repositories -/

theorem Heap.read_alloc (h : Heap) (t : Task) : Heap.read (h ++ [t]) h.length = some t := by
  simp [Heap.read]

theorem Heap.read_write (h : Heap) (p : Ptr) (t u : Task) (hp : Heap.read h p = some t) :
    Heap.read (Heap.write h p u) p = some u := by
  simp only [Heap.read, Heap.write] at hp ⊢
  obtain ⟨hlt, -⟩ := List.getElem?_eq_some.mp hp
  simp [List.getElem?_set, hlt]

theorem Heap.write_write (h : Heap) (p : Ptr) (t u : Task) :
    Heap.write (Heap.write h p t) p u = Heap.write h p u := by
  simp [Heap.write, List.set_set]

theorem assign_of_read (h : Heap) (p : Ptr) (t : Task) (f : Task → Task)
    (hp : Heap.read h p = some t) : service.assign h p f = some (Heap.write h p (f t)) := by
  simp [service.assign, hp]

theorem Heap.write_self (h : Heap) (p : Ptr) (t : Task) (hp : Heap.read h p = some t) :
    Heap.write h p t = h := by
  simp only [Heap.read, Heap.write] at hp ⊢
  apply List.ext_getElem?
  intro i
  rw [List.getElem?_set]
  split
  · rename_i hi
    subst hi
    split
    · exact hp.symm
    · rename_i hlt
      exact (List.getElem?_eq_none (Nat.le_of_not_lt hlt)).symm
  · rfl

theorem applyInput_valid (input : UpdateTaskInput) (p : Ptr) (h : Heap) (t : Task)
    (hp : Heap.read h p = some t)
    (htitle : ∀ title, input.Title = some title → 3 ≤ len title)
    (hstatus : ∀ st, input.Status = some st → service.validStatus st = true) :
    service.applyInput input p h = some (none, Heap.write h p (patch input t)) := by
  obtain ⟨ti, de, st⟩ := input
  cases ti with
  | none =>
    cases de with
    | none =>
      cases st with
      | none =>
        simp [service.applyInput, service.setTitle, service.setDescription, service.setStatus,
          patch, Heap.write_self h p t hp]
      | some s =>
        have hs := hstatus s rfl
        simp [service.applyInput, service.setTitle, service.setDescription, service.setStatus,
          patch, hs, assign_of_read h p t _ hp]
    | some d =>
      cases st with
      | none =>
        simp [service.applyInput, service.setTitle, service.setDescription, service.setStatus,
          patch, assign_of_read h p t _ hp]
      | some s =>
        have hs := hstatus s rfl
        simp [service.applyInput, service.setTitle, service.setDescription, service.setStatus,
          patch, hs, assign_of_read h p t _ hp,
          assign_of_read _ p _ _ (Heap.read_write h p t _ hp), Heap.write_write]
  | some title =>
    have ht : ¬ len title < 3 := by have := htitle title rfl; omega
    cases de with
    | none =>
      cases st with
      | none =>
        simp [service.applyInput, service.setTitle, service.setDescription, service.setStatus,
          patch, ht, assign_of_read h p t _ hp]
      | some s =>
        have hs := hstatus s rfl
        simp [service.applyInput, service.setTitle, service.setDescription, service.setStatus,
          patch, hs, ht, assign_of_read h p t _ hp,
          assign_of_read _ p _ _ (Heap.read_write h p t _ hp), Heap.write_write]
    | some d =>
      cases st with
      | none =>
        simp [service.applyInput, service.setTitle, service.setDescription, service.setStatus,
          patch, ht, assign_of_read h p t _ hp,
          assign_of_read _ p _ _ (Heap.read_write h p t _ hp), Heap.write_write]
      | some s =>
        have hs := hstatus s rfl
        simp [service.applyInput, service.setTitle, service.setDescription, service.setStatus,
          patch, hs, ht, assign_of_read h p t _ hp,
          assign_of_read _ p _ _ (Heap.read_write h p t _ hp),
          assign_of_read _ p _ _ (Heap.read_write _ p _ _ (Heap.read_write h p t _ hp)),
          Heap.write_write]

theorem sqlite_create_ok (L : TimeLayout) (newID : UUID) (input : CreateTaskInput)
    (w : World DB) (p : Ptr)
    (hok : (service.CreateTask (SQLiteTaskRepository.repo L) newID input w).1 = Outcome.ok p) :
    p = w.heap.length
      ∧ (service.CreateTask (SQLiteTaskRepository.repo L) newID input w).2.heap
          = w.heap ++ [newTask newID input w.repo.now]
      ∧ (service.CreateTask (SQLiteTaskRepository.repo L) newID input w).2.repo.rows
          = w.repo.rows ++ [⟨newID, input.Title, input.Description, TaskStatusNew,
              L.Format w.repo.now, L.Format w.repo.now⟩]
      ∧ w.repo.rows.any (fun r => r.id == newID) = false
      ∧ (service.CreateTask (SQLiteTaskRepository.repo L) newID input w).2.repo.faults
          = fun n => w.repo.faults (n + 1) := by
  by_cases hlen : len input.Title < 3
  · simp [service.CreateTask, hlen] at hok
  · cases hf : w.repo.faults 0 with
    | some e =>
      simp [service.CreateTask, hlen, Heap.alloc, SQLiteTaskRepository.repo,
        SQLiteTaskRepository.CreateTask, Heap.read, Heap.write, DB.fault, DB.tick, hf] at hok
    | none =>
      by_cases hany : w.repo.rows.any (fun r => r.id == newID) = true
      · simp [service.CreateTask, hlen, Heap.alloc, SQLiteTaskRepository.repo,
          SQLiteTaskRepository.CreateTask, SQLiteTaskRepository.insertRow, Heap.read, Heap.write,
          DB.fault, DB.tick, hf, hany] at hok
      · simp [service.CreateTask, hlen, Heap.alloc, SQLiteTaskRepository.repo,
          SQLiteTaskRepository.CreateTask, SQLiteTaskRepository.insertRow, Heap.read, Heap.write,
          DB.fault, DB.tick, DB.sent, DB.now, hf, hany, newTask] at hok ⊢
        simp at hany
        exact hok.symm
theorem sqlite_get_ok (L : TimeLayout) (taskID : UUID) (h : Heap) (db : DB) (q : Ptr)
    (hok : (SQLiteTaskRepository.GetTask L taskID h db).1 = Outcome.ok q) :
    db.faults 0 = none
      ∧ ∃ row t, db.rows.find? (fun r => r.id == taskID) = some row
          ∧ SQLiteTaskRepository.decodeRow L row = Except.ok t
          ∧ SQLiteTaskRepository.GetTask L taskID h db = (Outcome.ok h.length, h ++ [t], db.sent)
          ∧ q = h.length := by
  cases hf : db.faults 0 with
  | some e => simp [SQLiteTaskRepository.GetTask, DB.fault, hf] at hok
  | none =>
    cases hrow : db.rows.find? (fun r => r.id == taskID) with
    | none => simp [SQLiteTaskRepository.GetTask, DB.fault, hf, hrow] at hok
    | some row =>
      cases hdec : SQLiteTaskRepository.decodeRow L row with
      | error e => simp [SQLiteTaskRepository.GetTask, DB.fault, hf, hrow, hdec] at hok
      | ok t =>
        simp [SQLiteTaskRepository.GetTask, DB.fault, hf, hrow, hdec, Heap.alloc] at hok ⊢
        exact hok.symm

theorem sqlite_get_of_row (L : TimeLayout) (taskID : UUID) (h : Heap) (db : DB) (row : Row)
    (t : Task) (hf : db.faults 0 = none)
    (hrow : db.rows.find? (fun r => r.id == taskID) = some row)
    (hdec : SQLiteTaskRepository.decodeRow L row = Except.ok t) :
    SQLiteTaskRepository.GetTask L taskID h db = (Outcome.ok h.length, h ++ [t], db.sent) := by
  simp [SQLiteTaskRepository.GetTask, DB.fault, hf, hrow, hdec, Heap.alloc]


theorem sqlite_update_ok (L : TimeLayout) (p : Ptr) (h : Heap) (db : DB) (t : Task) (row : Row)
    (hp : Heap.read h p = some t) (hf : db.faults 0 = none)
    (hrow : db.rows.find? (fun r => r.id == t.ID) = some row) :
    SQLiteTaskRepository.UpdateTask L p h db
      = (Outcome.ok (), Heap.write h p { t with UpdatedAt := db.now },
          { db.tick.sent with
            rows := db.rows.map (fun r =>
              if r.id == t.ID then
                { r with title := t.Title, description := t.Description, status := t.Status,
                         updated_at := L.Format db.now }
              else r) }) := by
  have hcount : db.rows.countP (fun r => r.id == t.ID) ≠ 0 := by
    have hmem := List.mem_of_find?_eq_some hrow
    have hpr := List.find?_some hrow
    intro h0
    rw [List.countP_eq_zero] at h0
    exact h0 row hmem hpr
  simp [SQLiteTaskRepository.UpdateTask, hp, DB.fault, DB.tick, DB.sent, hf,
    SQLiteTaskRepository.updateRows, hcount]

theorem inMemoryRepo.lookup_remove (store : inMemoryRepo.Store) (k id : UUID) :
    inMemoryRepo.lookup (inMemoryRepo.remove store id) k
      = if k = id then none else inMemoryRepo.lookup store k := by
  simp only [inMemoryRepo.lookup, inMemoryRepo.remove, List.find?_filter]
  by_cases hk : k = id
  · subst hk
    simp only [if_true]
    rw [Option.map_eq_none', List.find?_eq_none]
    intro a _
    by_cases h : a.1 = k <;> simp [h]
  · simp only [hk, if_false]
    congr 2
    funext a
    by_cases h : a.1 = k
    · simp [h, hk]
    · simp [h]

theorem sqlite_countP_filter (rows : List Row) (id : UUID) :
    (rows.filter (fun (r : Row) => !(r.id == id))).countP (fun (r : Row) => r.id == id) = 0 := by
  rw [List.countP_eq_zero]
  intro r hr
  simp at hr
  simpa using hr.2

theorem sqlite_GetTask_rows (L : TimeLayout) (taskID : UUID) (h : Heap) (db : DB) :
    (SQLiteTaskRepository.GetTask L taskID h db).2.2.rows = db.rows := by
  cases hf : db.fault with
  | some e => simp [SQLiteTaskRepository.GetTask, hf, DB.sent]
  | none =>
    cases hrow : db.rows.find? (fun r => r.id == taskID) with
    | none => simp [SQLiteTaskRepository.GetTask, hf, hrow, DB.sent]
    | some row =>
      cases hdec : SQLiteTaskRepository.decodeRow L row with
      | error e => simp [SQLiteTaskRepository.GetTask, hf, hrow, hdec, DB.sent]
      | ok t => simp [SQLiteTaskRepository.GetTask, hf, hrow, hdec, DB.sent, Heap.alloc]

theorem sqlite_UpdateTask_invalid_status_rows (L : TimeLayout) (taskID : UUID)
    (ti de : Option String) (st : TaskStatus) (ws : World DB)
    (hbad : service.validStatus st = false) :
    (service.UpdateTask (SQLiteTaskRepository.repo L) taskID ⟨ti, de, some st⟩ ws).2.repo.rows
      = ws.repo.rows := by
  have hrows := sqlite_GetTask_rows L taskID ws.heap ws.repo
  cases hg : SQLiteTaskRepository.GetTask L taskID ws.heap ws.repo with
  | mk res rest =>
    obtain ⟨h1, s1⟩ := rest
    rw [hg] at hrows
    simp only at hrows
    cases res with
    | err e => simp [service.UpdateTask, SQLiteTaskRepository.repo, hg, hrows]
    | panic => simp [service.UpdateTask, SQLiteTaskRepository.repo, hg, hrows]
    | ok p =>
      have key : ∀ x, service.applyInput ⟨ti, de, some st⟩ p h1 = some (none, x) → False := by
        intro x hx
        simp only [service.applyInput, service.setTitle, service.setDescription,
          service.setStatus, hbad] at hx
        split at hx
        · cases hx
        · cases hx
        · split at hx
          · cases hx
          · cases hx
      simp only [service.UpdateTask, SQLiteTaskRepository.repo, hg]
      cases ha : service.applyInput ⟨ti, de, some st⟩ p h1 with
      | none => simpa using hrows
      | some r =>
        obtain ⟨eo, hh⟩ := r
        cases eo with
        | some e => simpa using hrows
        | none => exact absurd ha (fun h => key hh h)

theorem Heap.read_write_ne (h : Heap) (p q : Ptr) (u : Task) (hq : q ≠ p) :
    Heap.read (Heap.write h p u) q = Heap.read h q := by
  simp only [Heap.read, Heap.write]
  rw [List.getElem?_set]
  simp [Ne.symm hq]

theorem Heap.length_write (h : Heap) (p : Ptr) (u : Task) :
    (Heap.write h p u).length = h.length := by
  simp [Heap.write]

/-- What the three blocks of `UpdateTask` do to an existing object: with a
valid input they leave the patched object and no error; otherwise they return
an error and leave an object with the status and the id it had. -/
theorem applyInput_cases (input : UpdateTaskInput) (p : Ptr) (h : Heap) (t : Task)
    (hp : Heap.read h p = some t) :
    (((∀ title, input.Title = some title → 3 ≤ len title)
        ∧ (∀ st, input.Status = some st → service.validStatus st = true))
      ∧ service.applyInput input p h = some (none, Heap.write h p (patch input t)))
    ∨ (∃ e u, service.applyInput input p h = some (some e, Heap.write h p u)
        ∧ u.Status = t.Status ∧ u.ID = t.ID) := by
  by_cases hv : (∀ title, input.Title = some title → 3 ≤ len title)
        ∧ (∀ st, input.Status = some st → service.validStatus st = true)
  · exact Or.inl ⟨hv, applyInput_valid input p h t hp hv.1 hv.2⟩
  · right
    obtain ⟨ti, de, st⟩ := input
    by_cases ht : ∀ title, ti = some title → 3 ≤ len title
    · have hs : ¬ ∀ s, st = some s → service.validStatus s = true := fun hs => hv ⟨ht, hs⟩
      cases st with
      | none => exact absurd (fun s hs' => by cases hs') hs
      | some s =>
        have hbad : service.validStatus s = false := by
          cases hb : service.validStatus s with
          | false => rfl
          | true => exact absurd (fun s' hs' => by cases hs'; exact hb) hs
        cases ti with
        | none =>
          cases de with
          | none =>
            refine ⟨GoError.New "invalid status", t, ?_, rfl, rfl⟩
            simp [service.applyInput, service.setTitle, service.setDescription,
              service.setStatus, hbad, Heap.write_self h p t hp]
          | some d =>
            refine ⟨GoError.New "invalid status", { t with Description := d }, ?_, rfl, rfl⟩
            simp [service.applyInput, service.setTitle, service.setDescription,
              service.setStatus, hbad, assign_of_read h p t _ hp]
        | some title =>
          have hl : ¬ len title < 3 := by have := ht title rfl; omega
          cases de with
          | none =>
            refine ⟨GoError.New "invalid status", { t with Title := title }, ?_, rfl, rfl⟩
            simp [service.applyInput, service.setTitle, service.setDescription,
              service.setStatus, hbad, hl, assign_of_read h p t _ hp]
          | some d =>
            refine ⟨GoError.New "invalid status", { t with Title := title, Description := d }, ?_, rfl, rfl⟩
            simp [service.applyInput, service.setTitle, service.setDescription,
              service.setStatus, hbad, hl, assign_of_read h p t _ hp,
              assign_of_read _ p _ _ (Heap.read_write h p t _ hp), Heap.write_write]
    · cases ti with
      | none => exact absurd (fun title h' => by cases h') ht
      | some title =>
        have hl : len title < 3 := by
          by_contra hge
          exact ht (fun title' h' => by cases h'; omega)
        refine ⟨GoError.New "title must be at least 3 characters", t, ?_, rfl, rfl⟩
        simp [service.applyInput, service.setTitle, hl, Heap.write_self h p t hp]

theorem sqlite_update_fault (L : TimeLayout) (p : Ptr) (h : Heap) (db : DB) (t : Task)
    (e : GoError) (hp : Heap.read h p = some t) (hf : db.faults 0 = some e) :
    SQLiteTaskRepository.UpdateTask L p h db
      = (Outcome.err e, Heap.write h p { t with UpdatedAt := db.now }, db.tick.sent) := by
  simp [SQLiteTaskRepository.UpdateTask, hp, DB.fault, DB.tick, hf]

/-- The two ways `service.UpdateTask` ends on the SQLite repository: without a
returned task, the rows being those before the call; or with the patched task
of the row it read, that row rewritten and the clock read once. -/
theorem sqlite_UpdateTask_cases (L : TimeLayout) (taskID : UUID) (input : UpdateTaskInput)
    (w : World DB) (out : Outcome Ptr × World DB)
    (hout : out = service.UpdateTask (SQLiteTaskRepository.repo L) taskID input w) :
    ((∀ p, out.1 ≠ Outcome.ok p) ∧ out.2.repo.rows = w.repo.rows
        ∧ (out.2.repo.clock = w.repo.clock ∨ out.2.repo.clock = fun n => w.repo.clock (n + 1)))
    ∨ (∃ row t, w.repo.rows.find? (fun r => r.id == taskID) = some row
        ∧ SQLiteTaskRepository.decodeRow L row = Except.ok t
        ∧ (∀ st, input.Status = some st → service.validStatus st = true)
        ∧ out.1 = Outcome.ok w.heap.length
        ∧ out.2.heap = w.heap ++ [{ patch input t with UpdatedAt := w.repo.now }]
        ∧ out.2.repo.rows
            = w.repo.rows.map (updatedRow taskID (patch input t) (L.Format w.repo.now))
        ∧ out.2.repo.clock = fun n => w.repo.clock (n + 1)) := by
  subst hout
  cases hf : w.repo.faults 0 with
  | some e =>
    left
    simp [service.UpdateTask, SQLiteTaskRepository.repo, SQLiteTaskRepository.GetTask,
      DB.fault, DB.sent, hf]
  | none =>
    cases hrow : w.repo.rows.find? (fun r => r.id == taskID) with
    | none =>
      left
      simp [service.UpdateTask, SQLiteTaskRepository.repo, SQLiteTaskRepository.GetTask,
        DB.fault, DB.sent, hf, hrow]
    | some row =>
      cases hdec : SQLiteTaskRepository.decodeRow L row with
      | error e =>
        left
        simp [service.UpdateTask, SQLiteTaskRepository.repo, SQLiteTaskRepository.GetTask,
          DB.fault, DB.sent, hf, hrow, hdec]
      | ok t =>
        have hget := sqlite_get_of_row L taskID w.heap w.repo row t hf hrow hdec
        have hid : t.ID = taskID := by
          have h1 := List.find?_some hrow
          unfold SQLiteTaskRepository.decodeRow at hdec
          split at hdec
          · cases hdec
          · split at hdec
            · cases hdec
            · cases hdec
              simpa using h1
        rcases applyInput_cases input w.heap.length (w.heap ++ [t]) t (Heap.read_alloc _ _)
          with ⟨⟨-, hvs⟩, happly⟩ | ⟨e, u, happly, -, -⟩
        · have hpid : (patch input t).ID = taskID := hid
          cases hf1 : w.repo.faults 1 with
          | some e =>
            left
            have hupd := sqlite_update_fault L w.heap.length
              (Heap.write (w.heap ++ [t]) w.heap.length (patch input t)) w.repo.sent
              (patch input t) e (Heap.read_write _ _ t _ (Heap.read_alloc _ _)) hf1
            simp only [service.UpdateTask, SQLiteTaskRepository.repo, hget, happly, hupd]
            simp [DB.sent, DB.tick]
          | none =>
            right
            have hrow1 : w.repo.sent.rows.find? (fun r => r.id == (patch input t).ID)
                = some row := by
              rw [hpid]; exact hrow
            have hupd := sqlite_update_ok L w.heap.length
              (Heap.write (w.heap ++ [t]) w.heap.length (patch input t)) w.repo.sent
              (patch input t) row
              (Heap.read_write _ _ t _ (Heap.read_alloc _ _)) hf1 hrow1
            refine ⟨row, t, rfl, hdec, hvs, ?_, ?_, ?_, ?_⟩
            · simp only [service.UpdateTask, SQLiteTaskRepository.repo, hget, happly, hupd]
            · simp only [service.UpdateTask, SQLiteTaskRepository.repo, hget, happly, hupd]
              simp [Heap.write, DB.sent, DB.now]
            · simp only [service.UpdateTask, SQLiteTaskRepository.repo, hget, happly, hupd]
              simp [DB.sent, DB.tick, DB.now, hpid, updatedRow]
            · simp only [service.UpdateTask, SQLiteTaskRepository.repo, hget, happly, hupd]
              simp [DB.sent, DB.tick]
        · left
          simp [service.UpdateTask, SQLiteTaskRepository.repo, hget, happly, DB.sent]

/-- The text of `listQuery` depends on the filter only through which of the
three clauses it asks for. -/
theorem listQuery_text (f : TaskFilter) :
    (SQLiteTaskRepository.listQuery f).1
      = "\nSELECT id, title, description, status, created_at, updated_at\nFROM tasks\n"
        ++ (if f.Status.isSome then "WHERE status = ? " else "")
        ++ "ORDER BY created_at DESC "
        ++ (if f.Limit > 0 then "LIMIT ? " else "")
        ++ (if f.Offset > 0 then "OFFSET ?" else "") := by
  obtain ⟨st, lim, off⟩ := f
  cases st <;> by_cases hl : lim > 0 <;> by_cases ho : off > 0 <;>
    simp [SQLiteTaskRepository.listQuery, hl, ho, String.append_assoc]

theorem listQuery_args (f : TaskFilter) :
    (SQLiteTaskRepository.listQuery f).2
      = (match f.Status with | some st => [Arg.text st] | none => [])
        ++ (if f.Limit > 0 then [Arg.int f.Limit] else [])
        ++ (if f.Offset > 0 then [Arg.int f.Offset] else []) := by
  obtain ⟨st, lim, off⟩ := f
  cases st <;> by_cases hl : lim > 0 <;> by_cases ho : off > 0 <;>
    simp [SQLiteTaskRepository.listQuery, hl, ho]


theorem decodeRow_fields (L : TimeLayout) (row : Row) (t : Task)
    (h : SQLiteTaskRepository.decodeRow L row = Except.ok t) :
    t.Status = row.status ∧ t.ID = row.id
      ∧ L.Parse row.created_at = Except.ok t.CreatedAt
      ∧ L.Parse row.updated_at = Except.ok t.UpdatedAt := by
  unfold SQLiteTaskRepository.decodeRow at h
  cases hc : L.Parse row.created_at with
  | error e => simp [hc] at h
  | ok ca =>
    cases hu : L.Parse row.updated_at with
    | error e => simp [hc, hu] at h
    | ok ua =>
      simp only [hc, hu] at h
      cases h
      exact ⟨rfl, rfl, rfl, rfl⟩

/-- The two ways `service.CreateTask` ends on the SQLite repository. -/
theorem sqlite_CreateTask_cases (L : TimeLayout) (newID : UUID) (input : CreateTaskInput)
    (w : World DB) :
    ((∀ p, (service.CreateTask (SQLiteTaskRepository.repo L) newID input w).1 ≠ Outcome.ok p)
      ∧ (service.CreateTask (SQLiteTaskRepository.repo L) newID input w).2.repo.rows
          = w.repo.rows)
    ∨ ((service.CreateTask (SQLiteTaskRepository.repo L) newID input w).1
          = Outcome.ok w.heap.length
      ∧ (service.CreateTask (SQLiteTaskRepository.repo L) newID input w).2.heap
          = w.heap ++ [newTask newID input w.repo.now]
      ∧ (service.CreateTask (SQLiteTaskRepository.repo L) newID input w).2.repo.rows
          = w.repo.rows ++ [⟨newID, input.Title, input.Description, TaskStatusNew,
              L.Format w.repo.now, L.Format w.repo.now⟩]) := by
  by_cases hlen : len input.Title < 3
  · left
    simp [service.CreateTask, hlen]
  · cases hf : w.repo.faults 0 with
    | some e =>
      left
      simp [service.CreateTask, hlen, Heap.alloc, SQLiteTaskRepository.repo,
        SQLiteTaskRepository.CreateTask, Heap.read, Heap.write, DB.fault, DB.tick, DB.sent, hf]
    | none =>
      by_cases hany : w.repo.rows.any (fun r => r.id == newID) = true
      · left
        simp [service.CreateTask, hlen, Heap.alloc, SQLiteTaskRepository.repo,
          SQLiteTaskRepository.CreateTask, SQLiteTaskRepository.insertRow, Heap.read, Heap.write,
          DB.fault, DB.tick, DB.sent, hf, hany]
      · right
        simp [service.CreateTask, hlen, Heap.alloc, SQLiteTaskRepository.repo,
          SQLiteTaskRepository.CreateTask, SQLiteTaskRepository.insertRow, Heap.read, Heap.write,
          DB.fault, DB.tick, DB.sent, DB.now, hf, hany, newTask]

/-- What the loop of `ListTasks` leaves: the heap it started from with the
decoded tasks after it, and behind every returned pointer a task with the
status of one of the rows. -/
theorem decodeRows_status (L : TimeLayout) (rows : List Row) :
    ∀ (h : Heap) (ps : List Ptr) (h1 : Heap),
      SQLiteTaskRepository.decodeRows L rows h = Except.ok (ps, h1) →
      (∃ ts, h1 = h ++ ts)
        ∧ ∀ p ∈ ps, ∃ t, Heap.read h1 p = some t ∧ ∃ row ∈ rows, t.Status = row.status := by
  induction rows with
  | nil =>
    intro h ps h1 hd
    simp [SQLiteTaskRepository.decodeRows] at hd
    obtain ⟨rfl, rfl⟩ := hd
    exact ⟨⟨[], by simp⟩, by simp⟩
  | cons row rest ih =>
    intro h ps h1 hd
    unfold SQLiteTaskRepository.decodeRows at hd
    cases hdec : SQLiteTaskRepository.decodeRow L row with
    | error e => simp [hdec] at hd
    | ok t =>
      simp only [hdec, Heap.alloc] at hd
      cases hrest : SQLiteTaskRepository.decodeRows L rest (h ++ [t]) with
      | error e => simp [hrest] at hd
      | ok res =>
        obtain ⟨ps2, h2⟩ := res
        simp only [hrest] at hd
        cases hd
        obtain ⟨⟨ts, hts⟩, hall⟩ := ih (h ++ [t]) ps2 h1 hrest
        refine ⟨⟨t :: ts, by rw [hts]; simp⟩, ?_⟩
        intro p hp
        rcases List.mem_cons.mp hp with hp | hp
        · subst hp
          refine ⟨t, ?_, row, List.mem_cons_self _ _, (decodeRow_fields L row t hdec).1⟩
          rw [hts]
          simp only [Heap.read, List.append_assoc, List.singleton_append]
          rw [List.getElem?_append_right (Nat.le_refl _)]
          simp
        · obtain ⟨t2, hr, row2, hm, hs⟩ := hall p hp
          exact ⟨t2, hr, row2, List.mem_cons_of_mem _ hm, hs⟩

theorem selectRows_subset (filter : TaskFilter) (rows sel : List Row)
    (h : SQLiteTaskRepository.selectRows filter rows = Except.ok sel) :
    ∀ row ∈ sel, row ∈ rows := by
  intro row hrow
  unfold SQLiteTaskRepository.selectRows at h
  have hmatch : ∀ r, r ∈ (match filter.Status with
      | some st => rows.filter (fun (r : Row) => r.status == st)
      | none => rows) → r ∈ rows := by
    intro r hr
    cases hst : filter.Status with
    | none => simpa [hst] using hr
    | some st =>
      rw [hst] at hr
      exact (List.mem_filter.mp hr).1
  simp only at h
  split at h
  · split at h
    · cases h
      exact hmatch row (List.mem_mergeSort.mp (List.mem_of_mem_drop (List.mem_of_mem_take hrow)))
    · cases h
      exact hmatch row (List.mem_mergeSort.mp (List.mem_of_mem_take hrow))
  · split at h
    · cases h
    · cases h
      exact hmatch row (List.mem_mergeSort.mp hrow)

theorem sqlite_ListTasks_rows (L : TimeLayout) (filter : TaskFilter) (h : Heap) (db : DB) :
    (SQLiteTaskRepository.ListTasks L filter h db).2.2.rows = db.rows := by
  cases hf : db.fault with
  | some e => simp [SQLiteTaskRepository.ListTasks, hf, DB.sent]
  | none =>
    cases hsel : SQLiteTaskRepository.selectRows filter db.rows with
    | error e => simp [SQLiteTaskRepository.ListTasks, hf, hsel, DB.sent]
    | ok sel =>
      cases hdec : SQLiteTaskRepository.decodeRows L sel h with
      | error e => simp [SQLiteTaskRepository.ListTasks, hf, hsel, hdec, DB.sent]
      | ok res => simp [SQLiteTaskRepository.ListTasks, hf, hsel, hdec, DB.sent]

theorem sqlite_ListTasks_returned (L : TimeLayout) (filter : TaskFilter) (h : Heap) (db : DB)
    (ps : List Ptr) (hok : (SQLiteTaskRepository.ListTasks L filter h db).1 = Outcome.ok ps) :
    ∀ p ∈ ps, ∃ t, Heap.read (SQLiteTaskRepository.ListTasks L filter h db).2.1 p = some t
      ∧ ∃ row ∈ db.rows, t.Status = row.status := by
  cases hf : db.fault with
  | some e => simp [SQLiteTaskRepository.ListTasks, hf] at hok
  | none =>
    cases hsel : SQLiteTaskRepository.selectRows filter db.rows with
    | error e => simp [SQLiteTaskRepository.ListTasks, hf, hsel] at hok
    | ok sel =>
      cases hdec : SQLiteTaskRepository.decodeRows L sel h with
      | error e => simp [SQLiteTaskRepository.ListTasks, hf, hsel, hdec] at hok
      | ok res =>
        obtain ⟨ps2, h2⟩ := res
        simp [SQLiteTaskRepository.ListTasks, hf, hsel, hdec] at hok
        subst hok
        obtain ⟨-, hall⟩ := decodeRows_status L sel h ps2 h2 hdec
        intro p hp
        obtain ⟨t, hr, row, hm, hs⟩ := hall p hp
        refine ⟨t, ?_, row, selectRows_subset filter db.rows sel hsel row hm, hs⟩
        simpa [SQLiteTaskRepository.ListTasks, hf, hsel, hdec] using hr

theorem sqlite_DeleteTask_rows (taskID : UUID) (h : Heap) (db : DB) :
    ∀ row ∈ (SQLiteTaskRepository.DeleteTask taskID h db).2.2.rows, row ∈ db.rows := by
  intro row hrow
  cases hf : db.fault with
  | some e => simpa [SQLiteTaskRepository.DeleteTask, hf, DB.sent] using hrow
  | none =>
    simp only [SQLiteTaskRepository.DeleteTask, hf, SQLiteTaskRepository.deleteRows] at hrow
    split at hrow
    · exact (List.mem_filter.mp hrow).1
    · exact (List.mem_filter.mp hrow).1

theorem validStatus_new : service.validStatus TaskStatusNew = true := by decide

theorem patch_status_valid (input : UpdateTaskInput) (t : Task)
    (hvs : ∀ st, input.Status = some st → service.validStatus st = true)
    (ht : service.validStatus t.Status = true) :
    service.validStatus (patch input t).Status = true := by
  cases hs : input.Status with
  | none => simpa [patch, hs] using ht
  | some st => simpa [patch, hs] using hvs st hs

/-- One call on the service over the SQLite repository keeps the status
invariant of the table and returns only tasks with an enumerated status. -/
theorem sqlite_step_status (L : TimeLayout) (op : Op) (w : World DB)
    (hinv : ∀ row ∈ w.repo.rows, service.validStatus row.status = true) :
    (∀ t ∈ (service.step (SQLiteTaskRepository.repo L) op w).1,
        service.validStatus t.Status = true)
      ∧ ∀ row ∈ (service.step (SQLiteTaskRepository.repo L) op w).2.repo.rows,
          service.validStatus row.status = true := by
  cases op with
  | CreateTask newID input =>
    rcases sqlite_CreateTask_cases L newID input w with ⟨hno, hrows⟩ | ⟨hok, hheap, hrows⟩
    · cases hres : service.CreateTask (SQLiteTaskRepository.repo L) newID input w with
      | mk res w1 =>
        rw [hres] at hno hrows
        simp only at hrows
        cases res with
        | ok p => exact absurd rfl (hno p)
        | err e =>
          simp only [service.step, hres]
          exact ⟨by simp, by rw [hrows]; exact hinv⟩
        | panic =>
          simp only [service.step, hres]
          exact ⟨by simp, by rw [hrows]; exact hinv⟩
    · cases hres : service.CreateTask (SQLiteTaskRepository.repo L) newID input w with
      | mk res w1 =>
        rw [hres] at hok hheap hrows
        simp only at hok hheap hrows
        subst hok
        simp only [service.step, hres, service.returned]
        constructor
        · intro t ht
          simp only [List.filterMap_cons, List.filterMap_nil, hheap, Heap.read_alloc] at ht
          simp at ht
          subst ht
          exact validStatus_new
        · intro row hrow
          rw [hrows] at hrow
          rcases List.mem_append.mp hrow with h | h
          · exact hinv row h
          · simp at h
            subst h
            exact validStatus_new
  | GetTask taskID =>
    have hrows := sqlite_GetTask_rows L taskID w.heap w.repo
    cases hres : SQLiteTaskRepository.GetTask L taskID w.heap w.repo with
    | mk res rest =>
      obtain ⟨h1, s1⟩ := rest
      rw [hres] at hrows
      simp only at hrows
      cases res with
      | err e =>
        simp only [service.step, service.GetTask, SQLiteTaskRepository.repo, hres]
        exact ⟨by simp, by rw [hrows]; exact hinv⟩
      | panic =>
        simp only [service.step, service.GetTask, SQLiteTaskRepository.repo, hres]
        exact ⟨by simp, by rw [hrows]; exact hinv⟩
      | ok p =>
        obtain ⟨-, row, t, hrow, hdec, hgeteq, hq⟩ :=
          sqlite_get_ok L taskID w.heap w.repo p (by rw [hres])
        rw [hres] at hgeteq
        cases hgeteq
        simp only [service.step, service.GetTask, SQLiteTaskRepository.repo, hres,
          service.returned]
        constructor
        · intro t' ht'
          simp only [List.filterMap_cons, List.filterMap_nil, Heap.read_alloc] at ht'
          simp at ht'
          rw [ht', (decodeRow_fields L row t hdec).1]
          exact hinv row (List.mem_of_find?_eq_some hrow)
        · exact hinv
  | ListTasks status limit offset =>
    have hrows := sqlite_ListTasks_rows L
      ⟨status, if limit ≤ 0 then service.DefaultLimit else limit, offset⟩ w.heap w.repo
    cases hres : SQLiteTaskRepository.ListTasks L
        ⟨status, if limit ≤ 0 then service.DefaultLimit else limit, offset⟩ w.heap w.repo with
    | mk res rest =>
      obtain ⟨h1, s1⟩ := rest
      rw [hres] at hrows
      simp only at hrows
      simp only [service.step, service.ListTasks, SQLiteTaskRepository.repo, hres]
      refine ⟨?_, by rw [hrows]; exact hinv⟩
      cases res with
      | err e => simp [service.returned]
      | panic => simp [service.returned]
      | ok ps =>
        have hret := sqlite_ListTasks_returned L
          ⟨status, if limit ≤ 0 then service.DefaultLimit else limit, offset⟩ w.heap w.repo ps
          (by rw [hres])
        rw [hres] at hret
        simp only at hret
        intro t ht
        simp only [service.returned, List.mem_filterMap] at ht
        obtain ⟨p, hp, hread⟩ := ht
        obtain ⟨t2, hr2, row, hm, hs⟩ := hret p hp
        rw [hr2] at hread
        cases hread
        rw [hs]
        exact hinv row hm
  | UpdateTask taskID input =>
    rcases sqlite_UpdateTask_cases L taskID input w _ rfl with
      ⟨hno, hrows, -⟩ | ⟨row, t, hrow, hdec, hvs, hok, hheap, hrows, -⟩
    · cases hres : service.UpdateTask (SQLiteTaskRepository.repo L) taskID input w with
      | mk res w1 =>
        rw [hres] at hno hrows
        simp only at hrows
        cases res with
        | ok p => exact absurd rfl (hno p)
        | err e =>
          simp only [service.step, hres]
          exact ⟨by simp, by rw [hrows]; exact hinv⟩
        | panic =>
          simp only [service.step, hres]
          exact ⟨by simp, by rw [hrows]; exact hinv⟩
    · have ht : service.validStatus t.Status = true := by
        rw [(decodeRow_fields L row t hdec).1]
        exact hinv row (List.mem_of_find?_eq_some hrow)
      have hpv := patch_status_valid input t hvs ht
      cases hres : service.UpdateTask (SQLiteTaskRepository.repo L) taskID input w with
      | mk res w1 =>
        rw [hres] at hok hheap hrows
        simp only at hok hheap hrows
        subst hok
        simp only [service.step, hres, service.returned]
        constructor
        · intro t' ht'
          simp only [List.filterMap_cons, List.filterMap_nil, hheap, Heap.read_alloc] at ht'
          simp at ht'
          subst ht'
          exact hpv
        · intro r hr
          rw [hrows] at hr
          obtain ⟨r0, hr0, rfl⟩ := List.mem_map.mp hr
          unfold updatedRow
          split
          · exact hpv
          · exact hinv r0 hr0
  | DeleteTask taskID =>
    simp only [service.step, service.DeleteTask, SQLiteTaskRepository.repo]
    refine ⟨by simp, ?_⟩
    intro row hrow
    exact hinv row (sqlite_DeleteTask_rows taskID w.heap w.repo row hrow)

theorem sqlite_run_status (L : TimeLayout) (ops : List Op) :
    ∀ (w : World DB), (∀ row ∈ w.repo.rows, service.validStatus row.status = true) →
      (∀ t ∈ (service.run (SQLiteTaskRepository.repo L) ops w).1,
          service.validStatus t.Status = true)
        ∧ ∀ row ∈ (service.run (SQLiteTaskRepository.repo L) ops w).2.repo.rows,
            service.validStatus row.status = true := by
  induction ops with
  | nil =>
    intro w hinv
    exact ⟨by simp [service.run], by simpa [service.run] using hinv⟩
  | cons op ops ih =>
    intro w hinv
    obtain ⟨h1, h2⟩ := sqlite_step_status L op w hinv
    obtain ⟨h3, h4⟩ := ih _ h2
    simp only [service.run]
    constructor
    · intro t ht
      rcases List.mem_append.mp ht with h | h
      · exact h1 t h
      · exact h3 t h
    · exact h4

theorem Heap.validAt_iff (h : Heap) (p : Ptr) :
    Heap.validAt h p = true ↔ ∃ t, Heap.read h p = some t ∧ service.validStatus t.Status = true := by
  unfold Heap.validAt
  cases Heap.read h p with
  | none => simp
  | some t => simp

theorem Heap.validAt_append (h ts : Heap) (p : Ptr) (hv : Heap.validAt h p = true) :
    Heap.validAt (h ++ ts) p = true := by
  rw [Heap.validAt_iff] at hv ⊢
  obtain ⟨t, hr, hs⟩ := hv
  refine ⟨t, ?_, hs⟩
  simp only [Heap.read] at hr ⊢
  obtain ⟨hlt, -⟩ := List.getElem?_eq_some.mp hr
  rw [List.getElem?_append_left hlt]
  exact hr

theorem Heap.validAt_write (h : Heap) (p q : Ptr) (t u : Task) (hp : Heap.read h p = some t)
    (hu : service.validStatus u.Status = true) (hv : Heap.validAt h q = true) :
    Heap.validAt (Heap.write h p u) q = true := by
  rw [Heap.validAt_iff] at hv ⊢
  by_cases hq : q = p
  · subst hq
    exact ⟨u, Heap.read_write h q t u hp, hu⟩
  · obtain ⟨t2, hr, hs⟩ := hv
    exact ⟨t2, by rw [Heap.read_write_ne h p q u hq]; exact hr, hs⟩

theorem inMemoryRepo.lookup_mem (store : inMemoryRepo.Store) (k : UUID) (p : Ptr)
    (h : inMemoryRepo.lookup store k = some p) : ∃ e ∈ store, e.2 = p := by
  unfold inMemoryRepo.lookup at h
  cases hf : store.find? (fun e => e.1 == k) with
  | none => simp [hf] at h
  | some e =>
    simp [hf] at h
    exact ⟨e, List.mem_of_find?_eq_some hf, h⟩

theorem inMemoryRepo.mem_remove (store : inMemoryRepo.Store) (k : UUID) (e : UUID × Ptr)
    (h : e ∈ inMemoryRepo.remove store k) : e ∈ store :=
  (List.mem_filter.mp h).1

theorem inMemoryRepo.mem_insert (store : inMemoryRepo.Store) (k : UUID) (p : Ptr)
    (e : UUID × Ptr) (h : e ∈ inMemoryRepo.insert store k p) : e ∈ store ∨ e.2 = p := by
  unfold inMemoryRepo.insert at h
  rcases List.mem_append.mp h with h | h
  · exact Or.inl (inMemoryRepo.mem_remove store k e h)
  · simp at h
    right
    rw [h]

/-- One call on the service over the in-memory repository keeps the status
invariant of the stored objects and returns only tasks with an enumerated
status. -/
theorem inMemory_step_status (op : Op) (w : World inMemoryRepo.Store)
    (hinv : ∀ e ∈ w.repo, Heap.validAt w.heap e.2 = true) :
    (∀ t ∈ (service.step inMemoryRepo.repo op w).1, service.validStatus t.Status = true)
      ∧ ∀ e ∈ (service.step inMemoryRepo.repo op w).2.repo,
          Heap.validAt (service.step inMemoryRepo.repo op w).2.heap e.2 = true := by
  cases op with
  | CreateTask newID input =>
    by_cases hlen : len input.Title < 3
    · simp only [service.step, service.CreateTask, hlen, if_true]
      exact ⟨by simp, hinv⟩
    · simp only [service.step, service.CreateTask, hlen, if_false, Heap.alloc,
        inMemoryRepo.repo, inMemoryRepo.CreateTask, Heap.read_alloc, service.returned]
      constructor
      · intro t ht
        simp only [List.filterMap_cons, List.filterMap_nil, Heap.read_alloc] at ht
        simp at ht
        rw [ht]
        exact validStatus_new
      · intro e he
        rcases inMemoryRepo.mem_insert _ _ _ e he with h | h
        · exact Heap.validAt_append _ _ _ (hinv e h)
        · rw [h]
          exact (Heap.validAt_iff _ _).mpr ⟨_, Heap.read_alloc _ _, validStatus_new⟩
  | GetTask taskID =>
    cases hl : inMemoryRepo.lookup w.repo taskID with
    | none =>
      simp only [service.step, service.GetTask, inMemoryRepo.repo, inMemoryRepo.GetTask, hl]
      exact ⟨by simp, hinv⟩
    | some p =>
      obtain ⟨e, he, hep⟩ := inMemoryRepo.lookup_mem _ _ _ hl
      obtain ⟨t, hr, hs⟩ := (Heap.validAt_iff _ _).mp (hinv e he)
      rw [hep] at hr
      simp only [service.step, service.GetTask, inMemoryRepo.repo, inMemoryRepo.GetTask, hl,
        service.returned]
      refine ⟨?_, hinv⟩
      intro t' ht'
      simp only [List.filterMap_cons, List.filterMap_nil, hr] at ht'
      simp at ht'
      rw [ht']
      exact hs
  | ListTasks status limit offset =>
    simp only [service.step, service.ListTasks, inMemoryRepo.repo, inMemoryRepo.ListTasks,
      service.returned]
    refine ⟨?_, hinv⟩
    intro t ht
    obtain ⟨p, hp, hread⟩ := List.mem_filterMap.mp ht
    obtain ⟨e, he, rfl⟩ := List.mem_map.mp hp
    obtain ⟨t2, hr2, hs⟩ := (Heap.validAt_iff _ _).mp (hinv e he)
    rw [hr2] at hread
    cases hread
    exact hs
  | UpdateTask taskID input =>
    cases hl : inMemoryRepo.lookup w.repo taskID with
    | none =>
      simp only [service.step, service.UpdateTask, inMemoryRepo.repo, inMemoryRepo.GetTask, hl]
      exact ⟨by simp, hinv⟩
    | some p =>
      obtain ⟨e, he, hep⟩ := inMemoryRepo.lookup_mem _ _ _ hl
      obtain ⟨t, hr, hs⟩ := (Heap.validAt_iff _ _).mp (hinv e he)
      rw [hep] at hr
      rcases applyInput_cases input p w.heap t hr with ⟨⟨-, hvs⟩, happly⟩ | ⟨err, u, happly, hus, -⟩
      · have hpv := patch_status_valid input t hvs hs
        have hrw := Heap.read_write w.heap p t (patch input t) hr
        have hframe : ∀ e ∈ w.repo, Heap.validAt (Heap.write w.heap p (patch input t)) e.2 = true :=
          fun e he => Heap.validAt_write _ _ _ t _ hr hpv (hinv e he)
        cases hl2 : inMemoryRepo.lookup w.repo (patch input t).ID with
        | none =>
          simp only [service.step, service.UpdateTask, inMemoryRepo.repo, inMemoryRepo.GetTask,
            hl, happly, inMemoryRepo.UpdateTask, hrw, hl2]
          exact ⟨by simp, hframe⟩
        | some p2 =>
          simp only [service.step, service.UpdateTask, inMemoryRepo.repo, inMemoryRepo.GetTask,
            hl, happly, inMemoryRepo.UpdateTask, hrw, hl2, service.returned]
          constructor
          · intro t' ht'
            simp only [List.filterMap_cons, List.filterMap_nil, hrw] at ht'
            simp at ht'
            rw [ht']
            exact hpv
          · intro e2 he2
            rcases inMemoryRepo.mem_insert _ _ _ e2 he2 with h | h
            · exact hframe e2 h
            · rw [h]
              exact (Heap.validAt_iff _ _).mpr ⟨_, hrw, hpv⟩
      · have hu : service.validStatus u.Status = true := by rw [hus]; exact hs
        simp only [service.step, service.UpdateTask, inMemoryRepo.repo, inMemoryRepo.GetTask,
          hl, happly]
        exact ⟨by simp, fun e he => Heap.validAt_write _ _ _ t _ hr hu (hinv e he)⟩
  | DeleteTask taskID =>
    cases hl : inMemoryRepo.lookup w.repo taskID with
    | none =>
      simp only [service.step, service.DeleteTask, inMemoryRepo.repo, inMemoryRepo.DeleteTask,
        hl]
      exact ⟨by simp, hinv⟩
    | some p =>
      simp only [service.step, service.DeleteTask, inMemoryRepo.repo, inMemoryRepo.DeleteTask,
        hl]
      exact ⟨by simp, fun e he => hinv e (inMemoryRepo.mem_remove _ _ e he)⟩

theorem inMemory_run_status (ops : List Op) :
    ∀ (w : World inMemoryRepo.Store), (∀ e ∈ w.repo, Heap.validAt w.heap e.2 = true) →
      (∀ t ∈ (service.run inMemoryRepo.repo ops w).1, service.validStatus t.Status = true)
        ∧ ∀ e ∈ (service.run inMemoryRepo.repo ops w).2.repo,
            Heap.validAt (service.run inMemoryRepo.repo ops w).2.heap e.2 = true := by
  induction ops with
  | nil =>
    intro w hinv
    exact ⟨by simp [service.run], by simpa [service.run] using hinv⟩
  | cons op ops ih =>
    intro w hinv
    obtain ⟨h1, h2⟩ := inMemory_step_status op w hinv
    obtain ⟨h3, h4⟩ := ih _ h2
    simp only [service.run]
    constructor
    · intro t ht
      rcases List.mem_append.mp ht with h | h
      · exact h1 t h
      · exact h3 t h
    · exact h4


theorem sqlite_create_clock (L : TimeLayout) (newID : UUID) (input : CreateTaskInput)
    (w : World DB) (p : Ptr)
    (hok : (service.CreateTask (SQLiteTaskRepository.repo L) newID input w).1 = Outcome.ok p) :
    (service.CreateTask (SQLiteTaskRepository.repo L) newID input w).2.repo.clock
      = fun n => w.repo.clock (n + 1) := by
  by_cases hlen : len input.Title < 3
  · simp [service.CreateTask, hlen] at hok
  · cases hf : w.repo.faults 0 with
    | some e =>
      simp [service.CreateTask, hlen, Heap.alloc, SQLiteTaskRepository.repo,
        SQLiteTaskRepository.CreateTask, Heap.read, Heap.write, DB.fault, DB.tick, hf] at hok
    | none =>
      by_cases hany : w.repo.rows.any (fun r => r.id == newID) = true
      · simp [service.CreateTask, hlen, Heap.alloc, SQLiteTaskRepository.repo,
          SQLiteTaskRepository.CreateTask, SQLiteTaskRepository.insertRow, Heap.read, Heap.write,
          DB.fault, DB.tick, hf, hany] at hok
      · simp [service.CreateTask, hlen, Heap.alloc, SQLiteTaskRepository.repo,
          SQLiteTaskRepository.CreateTask, SQLiteTaskRepository.insertRow, Heap.read, Heap.write,
          DB.fault, DB.tick, DB.sent, hf, hany]

theorem find?_map_updatedRow (rows : List Row) (taskID : UUID) (u : Task) (s : String) :
    (rows.map (updatedRow taskID u s)).find? (fun r => r.id == taskID)
      = (rows.find? (fun r => r.id == taskID)).map (updatedRow taskID u s) := by
  rw [List.find?_map]
  have hcomp : ((fun (r : Row) => r.id == taskID) ∘ updatedRow taskID u s)
      = (fun (r : Row) => r.id == taskID) := by
    funext r
    simp only [Function.comp, updatedRow]
    split <;> simp_all
  rw [hcomp]

theorem stamped_step (L : TimeLayout) (c : Nat → Time) (taskID : UUID)
    (input : UpdateTaskInput) (w : World DB) (j : Nat) (hj : Stamped L c taskID w j) :
    ∃ j2, Stamped L c taskID
      (service.UpdateTask (SQLiteTaskRepository.repo L) taskID input w).2 j2 := by
  obtain ⟨row, k, hjk, hrow, hca, hua, hclk⟩ := hj
  rcases sqlite_UpdateTask_cases L taskID input w _ rfl with
    ⟨-, hrows, hc | hc⟩ | ⟨row2, t, hrow2, -, -, -, -, hrows, hc⟩
  · exact ⟨j, row, k, hjk, by rw [hrows]; exact hrow, hca, hua, by rw [hc]; exact hclk⟩
  · refine ⟨j, row, k + 1, by omega, by rw [hrows]; exact hrow, hca, hua, ?_⟩
    rw [hc, hclk]
    funext n
    simp only
    congr 1
    omega
  · refine ⟨k, updatedRow taskID (patch input t) (L.Format w.repo.now) row, k + 1, by omega,
      ?_, ?_, ?_, ?_⟩
    · rw [hrows, find?_map_updatedRow, hrow]
      rfl
    · have hid : (row.id == taskID) = true := by
        have := List.find?_some hrow
        simpa using this
      simp [updatedRow, hid, hca]
    · have hid : (row.id == taskID) = true := by
        have := List.find?_some hrow
        simpa using this
      simp [updatedRow, hid, DB.now, hclk]
    · rw [hc, hclk]
      funext n
      simp only
      congr 1
      omega

theorem stamped_updateMany (L : TimeLayout) (c : Nat → Time) (taskID : UUID)
    (inputs : List UpdateTaskInput) :
    ∀ (w : World DB) (j : Nat), Stamped L c taskID w j →
      ∃ j2, Stamped L c taskID
        (service.updateMany (SQLiteTaskRepository.repo L) taskID inputs w) j2 := by
  induction inputs with
  | nil =>
    intro w j hj
    exact ⟨j, hj⟩
  | cons input rest ih =>
    intro w j hj
    obtain ⟨j2, hj2⟩ := stamped_step L c taskID input w j hj
    exact ih _ j2 hj2

theorem strokes_lossless (n : Nat) :
    fixtures.strokesLayout.Parse (fixtures.strokesLayout.Format (fixtures.tickDB.clock n))
      = Except.ok (fixtures.tickDB.clock n) := by
  simp [fixtures.strokesLayout, fixtures.tickDB]


namespace time

theorem digitChar_spec (d : Nat) (h : d < 10) :
    digitVal (digitChar d) = d ∧ (digitChar d).isDigit = true
      ∧ ((digitChar d == '0') = true ↔ d = 0) := by
  interval_cases d <;> decide

theorem isDigit_Z : Char.isDigit 'Z' = false := by decide

theorem pad_length (w n : Nat) : (pad w n).length = w := by
  induction w generalizing n with
  | zero => rfl
  | succ w ih => simp [pad, ih]

theorem pad_isDigit (w n : Nat) : ∀ c ∈ pad w n, c.isDigit = true := by
  induction w generalizing n with
  | zero => simp [pad]
  | succ w ih =>
    intro c hc
    simp only [pad, List.mem_append, List.mem_singleton] at hc
    rcases hc with hc | hc
    · exact ih _ c hc
    · rw [hc]
      exact (digitChar_spec (n % 10) (Nat.mod_lt _ (by decide))).2.1

theorem digitsVal_append (a : List Char) (c : Char) :
    digitsVal (a ++ [c]) = 10 * digitsVal a + digitVal c := by
  simp [digitsVal, List.foldl_append]

theorem digitsVal_pad (w n : Nat) : digitsVal (pad w n) = n % 10 ^ w := by
  induction w generalizing n with
  | zero => simp [pad, digitsVal, Nat.mod_one]
  | succ w ih =>
    simp only [pad]
    rw [digitsVal_append, ih,
      (digitChar_spec (n % 10) (Nat.mod_lt _ (by decide))).1, pow_succ, Nat.mul_comm (10 ^ w) 10,
      Nat.mod_mul]
    omega

theorem digitsVal_zeros (a : List Char) (k : Nat) :
    digitsVal (a ++ List.replicate k '0') = digitsVal a * 10 ^ k := by
  induction k with
  | zero => simp
  | succ k ih =>
    rw [List.replicate_succ', ← List.append_assoc, digitsVal_append, ih, pow_succ]
    have : digitVal '0' = 0 := by decide
    rw [this]
    ring

theorem trimZeros_spec (cs : List Char) :
    ∃ k, cs = trimZeros cs ++ List.replicate k '0' ∧ k + (trimZeros cs).length = cs.length := by
  refine ⟨(cs.reverse.takeWhile (fun c => c == '0')).length, ?_, ?_⟩
  · have h := List.takeWhile_append_dropWhile (fun c => c == '0') cs.reverse
    have h2 : cs = (cs.reverse.dropWhile (fun c => c == '0')).reverse
        ++ (cs.reverse.takeWhile (fun c => c == '0')).reverse := by
      rw [← List.reverse_append, h, List.reverse_reverse]
    have h3 : (cs.reverse.takeWhile (fun c => c == '0'))
        = List.replicate (cs.reverse.takeWhile (fun c => c == '0')).length '0' := by
      rw [List.eq_replicate_iff]
      refine ⟨rfl, ?_⟩
      intro c hc
      have := List.mem_takeWhile_imp hc
      simpa using this
    unfold trimZeros
    rw [← List.reverse_replicate, ← h3]
    exact h2
  · have h := List.takeWhile_append_dropWhile (fun c => c == '0') cs.reverse
    have := congrArg List.length h
    simp only [List.length_append, List.length_reverse] at this
    unfold trimZeros
    simp only [List.length_reverse]
    omega

theorem trimZeros_isDigit (cs : List Char) (h : ∀ c ∈ cs, c.isDigit = true) :
    ∀ c ∈ trimZeros cs, c.isDigit = true := by
  intro c hc
  unfold trimZeros at hc
  rw [List.mem_reverse] at hc
  have := (List.dropWhile_sublist (fun c => c == '0')).subset hc
  exact h c (List.mem_reverse.mp this)

theorem takeWhile_digits (ds : List Char) (h : ∀ c ∈ ds, c.isDigit = true) :
    (ds ++ ['Z']).takeWhile Char.isDigit = ds ∧ (ds ++ ['Z']).dropWhile Char.isDigit = ['Z'] := by
  induction ds with
  | nil => exact ⟨by simp [List.takeWhile, isDigit_Z], by simp [List.dropWhile, isDigit_Z]⟩
  | cons d ds ih =>
    have hd := h d (List.mem_cons_self _ _)
    obtain ⟨i1, i2⟩ := ih (fun c hc => h c (List.mem_cons_of_mem _ hc))
    constructor
    · simp only [List.cons_append, List.takeWhile_cons, hd, if_true]
      rw [i1]
    · simp only [List.cons_append, List.dropWhile_cons, hd, if_true]
      rw [i2]

theorem parseFracZone_frac (nsec : Nat) (h : nsec < 1000000000) :
    parseFracZone (frac nsec ++ ['Z']) = some nsec := by
  by_cases h0 : nsec = 0
  · subst h0
    rfl
  · obtain ⟨k, hk, hlen⟩ := trimZeros_spec (pad 9 nsec)
    have hval : digitsVal (trimZeros (pad 9 nsec)) * 10 ^ k = nsec := by
      rw [← digitsVal_zeros, ← hk, digitsVal_pad]
      exact Nat.mod_eq_of_lt (by norm_num; exact h)
    have hdig := trimZeros_isDigit (pad 9 nsec) (pad_isDigit 9 nsec)
    rw [pad_length] at hlen
    cases ht : trimZeros (pad 9 nsec) with
    | nil =>
      rw [ht] at hval
      simp [digitsVal] at hval
      exact absurd hval.symm h0
    | cons c tl =>
      rw [ht] at hdig hval hlen
      have hc := hdig c (List.mem_cons_self _ _)
      obtain ⟨t1, t2⟩ := takeWhile_digits (c :: tl) hdig
      have hfrac : frac nsec ++ ['Z'] = '.' :: c :: (tl ++ ['Z']) := by
        simp [frac, h0, ht]
      rw [hfrac]
      simp only [parseFracZone]
      have hsep : (('.' : Char) == '.' || ('.' : Char) == ',') = true := by decide
      rw [hsep]
      simp only [Bool.true_and, hc, if_true]
      have e1 : (c :: (tl ++ ['Z'])) = (c :: tl) ++ ['Z'] := rfl
      rw [e1, t1, t2]
      simp only [beq_self_eq_true, if_true]
      have htake : (c :: tl).take 9 = c :: tl := by
        apply List.take_of_length_le
        omega
      rw [htake]
      have hk9 : 9 - (c :: tl).length = k := by omega
      rw [hk9, hval]


theorem isLeap_iff (year : Nat) :
    isLeap year = true ↔ (year % 4 = 0 ∧ (year % 100 ≠ 0 ∨ year % 400 = 0)) := by
  simp [isLeap]

theorem daysBeforeYear_blocks (a b c e : Nat) (hb : b ≤ 3) (hc : c ≤ 24) (he : e ≤ 3) :
    daysBeforeYear (400 * a + 100 * b + 4 * c + e + 1)
      = ((146097 * a + 36524 * b + 1461 * c + 365 * e : Nat) : Int) := by
  simp only [daysBeforeYear]
  omega

theorem isLeap_blocks (a b c e : Nat) (hb : b ≤ 3) (hc : c ≤ 24) (he : e ≤ 3) :
    isLeap (400 * a + 100 * b + 4 * c + e + 1) = true ↔ (e = 3 ∧ (c ≠ 24 ∨ b = 3)) := by
  rw [isLeap_iff]
  omega

/-- The blocks of 400, 100, 4 and 1 years `yearDay` cuts a day count into. -/
theorem yearDay_blocks (d0 : Nat) :
    ∃ a b c e yd, b ≤ 3 ∧ c ≤ 24 ∧ e ≤ 3
      ∧ yearDay d0 = (400 * a + 100 * b + 4 * c + e + 1, yd)
      ∧ d0 = 146097 * a + 36524 * b + 1461 * c + 365 * e + yd
      ∧ yd ≤ 365 ∧ (yd = 365 → e = 3 ∧ (c ≠ 24 ∨ b = 3)) := by
  refine ⟨d0 / 146097, if d0 % 146097 / 36524 = 4 then 3 else d0 % 146097 / 36524,
    (d0 % 146097 - 36524 * (if d0 % 146097 / 36524 = 4 then 3 else d0 % 146097 / 36524)) / 1461,
    if (d0 % 146097 - 36524 * (if d0 % 146097 / 36524 = 4 then 3 else d0 % 146097 / 36524))
        % 1461 / 365 = 4 then 3
    else (d0 % 146097 - 36524 * (if d0 % 146097 / 36524 = 4 then 3 else d0 % 146097 / 36524))
        % 1461 / 365,
    (d0 % 146097 - 36524 * (if d0 % 146097 / 36524 = 4 then 3 else d0 % 146097 / 36524)) % 1461
      - 365 * (if (d0 % 146097 - 36524 * (if d0 % 146097 / 36524 = 4 then 3
          else d0 % 146097 / 36524)) % 1461 / 365 = 4 then 3
        else (d0 % 146097 - 36524 * (if d0 % 146097 / 36524 = 4 then 3
          else d0 % 146097 / 36524)) % 1461 / 365), ?_, ?_, ?_, rfl, ?_, ?_, ?_⟩
  all_goals
    generalize hn100 : (if d0 % 146097 / 36524 = 4 then 3 else d0 % 146097 / 36524) = n100
    have hn : n100 ≤ 3 ∧ 36524 * n100 ≤ d0 % 146097 ∧ d0 % 146097 - 36524 * n100 ≤ 36524
        ∧ (n100 < 3 → d0 % 146097 - 36524 * n100 < 36524) := by
      subst hn100
      split <;> omega
    generalize hd2 : d0 % 146097 - 36524 * n100 = d2 at *
    generalize hn1 : (if d2 % 1461 / 365 = 4 then 3 else d2 % 1461 / 365) = n1
    have hn' : n1 ≤ 3 ∧ 365 * n1 ≤ d2 % 1461 ∧ d2 % 1461 - 365 * n1 ≤ 365
        ∧ (n1 < 3 → d2 % 1461 - 365 * n1 < 365) := by
      subst hn1
      split <;> omega
    omega


theorem yearDay_year_le (d0 : Nat) (h : d0 < 3652059) : (yearDay d0).1 ≤ 9999 := by
  obtain ⟨a, b, c, e, yd, hb, hc, he, hy, hd, -, -⟩ := yearDay_blocks d0
  rw [hy]
  simp only
  omega

theorem monthDay_spec (lens : List Nat) :
    ∀ (m r : Nat), r < lens.sum →
      m ≤ (monthDay lens m r).1 ∧ (monthDay lens m r).1 < m + lens.length
        ∧ 1 ≤ (monthDay lens m r).2
        ∧ (monthDay lens m r).2 ≤ lens.getD ((monthDay lens m r).1 - m) 0
        ∧ (lens.take ((monthDay lens m r).1 - m)).sum + (monthDay lens m r).2 = r + 1 := by
  induction lens with
  | nil =>
    intro m r h
    simp at h
  | cons len rest ih =>
    intro m r h
    simp only [List.sum_cons] at h
    by_cases hr : r < len
    · simp only [monthDay, hr, if_true, Nat.sub_self, List.getD_cons_zero, List.take_zero,
        List.sum_nil, List.length_cons]
      omega
    · simp only [monthDay, hr, if_false, List.length_cons]
      obtain ⟨i1, i2, i3, i4, i5⟩ := ih (m + 1) (r - len) (by omega)
      have hsub : (monthDay rest (m + 1) (r - len)).1 - m
          = ((monthDay rest (m + 1) (r - len)).1 - (m + 1)) + 1 := by omega
      rw [hsub]
      simp only [List.getD_cons_succ, List.take_succ_cons, List.sum_cons]
      refine ⟨by omega, by omega, i3, i4, by omega⟩

theorem monthLengths_sum (leap : Bool) :
    (monthLengths leap).sum = if leap then 366 else 365 := by
  cases leap <;> rfl


theorem pad2_eq (n : Nat) : pad 2 n = [digitChar (n / 10 % 10), digitChar (n % 10)] := by
  simp [pad]

theorem pad4_eq (n : Nat) :
    pad 4 n = [digitChar (n / 10 / 10 / 10 % 10), digitChar (n / 10 / 10 % 10),
      digitChar (n / 10 % 10), digitChar (n % 10)] := by
  simp [pad]

theorem isDigit_digitChar (n : Nat) : (digitChar (n % 10)).isDigit = true :=
  (digitChar_spec (n % 10) (Nat.mod_lt _ (by decide))).2.1

/-- What `Parse` does with a text of padded fields. -/
theorem Parse_fields (y m d h i sc : Nat) (rest : List Char) :
    Parse (String.mk (pad 4 y ++ '-' :: pad 2 m ++ '-' :: pad 2 d ++ 'T' :: pad 2 h
        ++ ':' :: pad 2 i ++ ':' :: pad 2 sc ++ rest))
      = match parseFracZone rest with
        | none => Except.error (GoError.New "parsing time: cannot parse")
        | some nsec =>
          fromFields (y % 10000) (m % 100) (d % 100) (h % 100) (i % 100) (sc % 100) nsec := by
  have e4 : digitsVal [digitChar (y / 10 / 10 / 10 % 10), digitChar (y / 10 / 10 % 10),
      digitChar (y / 10 % 10), digitChar (y % 10)] = y % 10000 := by
    rw [← pad4_eq, digitsVal_pad]
    norm_num
  have e2 : ∀ n, digitsVal [digitChar (n / 10 % 10), digitChar (n % 10)] = n % 100 := by
    intro n
    rw [← pad2_eq, digitsVal_pad]
    norm_num
  have hsep : (('-' : Char) == '-') = true ∧ (('T' : Char) == 'T') = true
      ∧ ((':' : Char) == ':') = true := by decide
  simp only [pad4_eq, pad2_eq, List.cons_append, List.nil_append, Parse, hsep.1, hsep.2.1,
    hsep.2.2, List.all_cons, List.all_nil, isDigit_digitChar, Bool.and_self, Bool.and_true,
    if_true, e4, e2]


/-- The layout reads back every instant of the years 0001 to 9999 it wrote. -/
theorem Parse_Format (t : Time) (hlo : -62135596800000000000 ≤ t.unixNano)
    (hhi : t.unixNano < 253402300800000000000) : Parse (Format t) = Except.ok t := by
  obtain ⟨n⟩ := t
  simp only at hlo hhi
  -- the numbers `Format` writes
  generalize hsec : n / 1000000000 = sec
  generalize hnsec : (n % 1000000000).toNat = nsec
  generalize hd0 : (sec / 86400 + 719162).toNat = d0
  generalize hsod : (sec % 86400).toNat = sod
  have hnsec_lt : nsec < 1000000000 := by omega
  have hd0_lt : d0 < 3652059 := by omega
  have hsod_lt : sod < 86400 := by omega
  obtain ⟨a, b, c, e, yd, hb, hc, he, hy, hdec, hyd, hyd365⟩ := yearDay_blocks d0
  have hyear_le := yearDay_year_le d0 hd0_lt
  have hdby := daysBeforeYear_blocks a b c e hb hc he
  have hleap := isLeap_blocks a b c e hb hc he
  generalize hyear : 400 * a + 100 * b + 4 * c + e + 1 = year at *
  have hsum : yd < (monthLengths (isLeap year)).sum := by
    rw [monthLengths_sum]
    split
    · omega
    · rename_i hl
      rw [hleap] at hl
      omega
  obtain ⟨hm1, hm2, hdy1, hdy2, hdy3⟩ := monthDay_spec (monthLengths (isLeap year)) 1 yd hsum
  generalize hmonth : (monthDay (monthLengths (isLeap year)) 1 yd).1 = month at *
  generalize hday : (monthDay (monthLengths (isLeap year)) 1 yd).2 = day at *
  have hlen12 : (monthLengths (isLeap year)).length = 12 := by simp [monthLengths]
  rw [hlen12] at hm2
  have hday31 : day ≤ 31 := by
    have : ∀ k, (monthLengths (isLeap year)).getD k 0 ≤ 31 := by
      intro k
      simp only [monthLengths]
      cases isLeap year <;>
        (rcases k with _ | _ | _ | _ | _ | _ | _ | _ | _ | _ | _ | _ | k <;> simp)
    exact le_trans hdy2 (this _)
  have hfmt : Format ⟨n⟩ = String.mk (pad 4 year ++ '-' :: pad 2 month ++ '-' :: pad 2 day
      ++ 'T' :: pad 2 (sod / 3600) ++ ':' :: pad 2 (sod % 3600 / 60) ++ ':' :: pad 2 (sod % 60)
      ++ (frac nsec ++ ['Z'])) := by
    simp only [Format, hsec, hnsec, hd0, hsod, hy, hmonth, hday, List.append_assoc]
  rw [hfmt, Parse_fields, parseFracZone_frac nsec hnsec_lt]
  simp only
  have r1 : year % 10000 = year := Nat.mod_eq_of_lt (by omega)
  have r2 : month % 100 = month := Nat.mod_eq_of_lt (by omega)
  have r3 : day % 100 = day := Nat.mod_eq_of_lt (by omega)
  have r4 : sod / 3600 % 100 = sod / 3600 := Nat.mod_eq_of_lt (by omega)
  have r5 : sod % 3600 / 60 % 100 = sod % 3600 / 60 := Nat.mod_eq_of_lt (by omega)
  have r6 : sod % 60 % 100 = sod % 60 := Nat.mod_eq_of_lt (by omega)
  rw [r1, r2, r3, r4, r5, r6]
  have c1 : ¬ (month < 1 ∨ 12 < month) := by omega
  have c2 : ¬ (day < 1 ∨ daysIn month year < day) := by
    simp only [daysIn]
    omega
  have c3 : ¬ 24 ≤ sod / 3600 := by omega
  have c4 : ¬ 60 ≤ sod % 3600 / 60 := by omega
  have c5 : ¬ 60 ≤ sod % 60 := by omega
  simp only [fromFields, Bool.or_eq_true, decide_eq_true_eq, c1, c2, c3, c4, c5, if_false]
  generalize hk : (List.take (month - 1) (monthLengths (isLeap year))).sum = k at *
  have hdays : daysBeforeYear year + ((daysBeforeMonth (isLeap year) month : Nat) : Int)
      + (day : Int) - 1 - 719162 = sec / 86400 := by
    simp only [daysBeforeMonth, hk, hdby]
    clear hleap hsum hdy2 hday31 hfmt c2 hyd365 hy hyear_le hdby r1 r2 r3 r4 r5 r6 c1 c3 c4 c5
      hm1 hm2 hlen12 hnsec hsod hnsec_lt hsod_lt hyd hb hc he hyear
    omega
  rw [hdays]
  clear hleap hsum hdy2 hday31 hfmt c2 hyd365 hy hyear_le hdby r1 r2 r3 r4 r5 r6 c1 c3 c4 c5
    hm1 hm2 hlen12 hdays hdec hdy3 hdy1 hd0 hd0_lt hyd hb hc he hyear hk
  apply congrArg (fun x => (Except.ok (Time.mk x) : Except GoError Time))
  omega

end time

theorem utf8ByteSize_go_ge (cs : List Char) : cs.length ≤ String.utf8ByteSize.go cs := by
  induction cs with
  | nil => simp [String.utf8ByteSize.go]
  | cons c cs ih =>
    simp only [String.utf8ByteSize.go, List.length_cons]
    have := Char.utf8Size_pos c
    omega

/-- A string has at least as many bytes as characters. -/
theorem runeCount_le_len (s : String) : runeCount s ≤ len s := by
  obtain ⟨cs⟩ := s
  simp only [runeCount, len, String.length, String.utf8ByteSize]
  exact utf8ByteSize_go_ge cs

/-- With an invalid status, and a title that is too short or neither title nor
description supplied, the three blocks of `UpdateTask` return an error before
any assignment, whatever the pointer. -/
theorem applyInput_refused_unchanged (input : UpdateTaskInput) (p : Ptr) (h : Heap)
    (st : TaskStatus) (hst : input.Status = some st) (hbad : service.validStatus st = false)
    (hc : (input.Title = none ∧ input.Description = none)
      ∨ (∃ title, input.Title = some title ∧ len title < 3)) :
    ∃ e, service.applyInput input p h = some (some e, h) := by
  obtain ⟨ti, de, sta⟩ := input
  simp only at hst hc
  subst hst
  rcases hc with ⟨h1, h2⟩ | ⟨title, h1, h2⟩
  · subst h1 h2
    exact ⟨GoError.New "invalid status", by
      simp [service.applyInput, service.setTitle, service.setDescription,
        service.setStatus, hbad]⟩
  · subst h1
    exact ⟨GoError.New "title must be at least 3 characters", by
      simp [service.applyInput, service.setTitle, h2]⟩

theorem inMemory_UpdateTask_refused_unchanged (taskID : UUID) (input : UpdateTaskInput)
    (wm : World inMemoryRepo.Store) (st : TaskStatus) (hst : input.Status = some st)
    (hbad : service.validStatus st = false)
    (hc : (input.Title = none ∧ input.Description = none)
      ∨ (∃ title, input.Title = some title ∧ len title < 3)) :
    (service.UpdateTask inMemoryRepo.repo taskID input wm).2.heap = wm.heap
      ∧ (service.UpdateTask inMemoryRepo.repo taskID input wm).2.repo = wm.repo := by
  cases hl : inMemoryRepo.lookup wm.repo taskID with
  | none =>
    simp [service.UpdateTask, inMemoryRepo.repo, inMemoryRepo.GetTask, hl]
  | some p =>
    obtain ⟨e, he⟩ := applyInput_refused_unchanged input p wm.heap st hst hbad hc
    simp [service.UpdateTask, inMemoryRepo.repo, inMemoryRepo.GetTask, hl, he]

/-- The model of the layout on known timestamps: the Unix epoch, an instant
with microseconds, the zero `time.Time`, the last instant of the year 9999, a
29th of February, and a day that does not exist. -/
theorem time.Format_Parse_examples :
    time.Format ⟨0⟩ = "1970-01-01T00:00:00Z"
      ∧ time.Format ⟨1700000000123456000⟩ = "2023-11-14T22:13:20.123456Z"
      ∧ time.Format Time.zero = "0001-01-01T00:00:00Z"
      ∧ time.Format ⟨253402300799999999999⟩ = "9999-12-31T23:59:59.999999999Z"
      ∧ time.Format ⟨951782400000000001⟩ = "2000-02-29T00:00:00.000000001Z"
      ∧ time.Parse "2023-11-14T22:13:20.123456Z" = Except.ok ⟨1700000000123456000⟩
      ∧ time.Parse "0001-01-01T00:00:00Z" = Except.ok Time.zero
      ∧ time.Parse "2023-02-29T00:00:00Z"
          = Except.error (GoError.New "parsing time: day out of range") :=
  ⟨by decide, by decide, by decide, by decide, by decide, rfl, rfl, rfl⟩

/-! ### The claims -/

/-- For every `CreateTaskInput` whose title has `len` (bytes) below 3, every
repository and every state, `service.CreateTask` returns the title error and
makes no call on the repository: the list of calls, the repository state and
the heap are the ones it started from. -/
theorem CreateTask_len_below_3_no_write {σ : Type} (r : TaskRepository σ) (newID : UUID)
    (input : CreateTaskInput) (w : World σ) (hshort : len input.Title < 3) :
    (service.CreateTask r newID input w).1
        = Outcome.err (GoError.New "title must be at least 3 characters")
      ∧ (service.CreateTask r newID input w).2.calls = w.calls
      ∧ (service.CreateTask r newID input w).2.repo = w.repo
      ∧ (service.CreateTask r newID input w).2.heap = w.heap := by
  simp [service.CreateTask, hshort]


/-- The input of `TestCreateTaskValidation`: title "ab" on a new in-memory
repository. -/
theorem CreateTask_len_below_3_no_write_at_ab :
    len (CreateTaskInput.mk "ab" "desc").Title < 3
      ∧ (service.CreateTask inMemoryRepo.repo 1 ⟨"ab", "desc"⟩ fixtures.memWorld).1
          = Outcome.err (GoError.New "title must be at least 3 characters")
      ∧ (service.CreateTask inMemoryRepo.repo 1 ⟨"ab", "desc"⟩ fixtures.memWorld).2.calls = []
      ∧ (service.CreateTask inMemoryRepo.repo 1 ⟨"ab", "desc"⟩ fixtures.memWorld).2.repo = []
      ∧ (service.CreateTask inMemoryRepo.repo 1 ⟨"ab", "desc"⟩ fixtures.memWorld).2.heap = [] :=
  ⟨by decide,
   CreateTask_len_below_3_no_write inMemoryRepo.repo 1 ⟨"ab", "desc"⟩ fixtures.memWorld
     (by decide)⟩

/-- C1, the code at the failing input: the title "éé" has 2 characters, fewer
than 3, and `service.CreateTask` returns a task and no error, having called
the repository's `CreateTask`, which stored the task: the in-memory store
holds the new entry and the table of the SQLite repository holds the new row.
The test of the service compares `len`, the number of bytes (4 here), with
3. -/
theorem C1_two_character_title_is_written :
    runeCount (CreateTaskInput.mk "éé" "desc").Title < 3
      ∧ len (CreateTaskInput.mk "éé" "desc").Title = 4
      ∧ (service.CreateTask inMemoryRepo.repo 7 ⟨"éé", "desc"⟩ fixtures.memWorld).1
          = Outcome.ok 0
      ∧ (service.CreateTask inMemoryRepo.repo 7 ⟨"éé", "desc"⟩ fixtures.memWorld).2.calls
          = [Call.CreateTask 0]
      ∧ (service.CreateTask inMemoryRepo.repo 7 ⟨"éé", "desc"⟩ fixtures.memWorld).2.repo
          = [(7, 0)]
      ∧ (service.CreateTask (SQLiteTaskRepository.repo time.RFC3339Nano) 7 ⟨"éé", "desc"⟩ ⟨[], fixtures.emptyDB, []⟩).1 = Outcome.ok 0
      ∧ (service.CreateTask (SQLiteTaskRepository.repo time.RFC3339Nano) 7 ⟨"éé", "desc"⟩ ⟨[], fixtures.emptyDB, []⟩).2.calls
          = [Call.CreateTask 0]
      ∧ (service.CreateTask (SQLiteTaskRepository.repo time.RFC3339Nano) 7 ⟨"éé", "desc"⟩ ⟨[], fixtures.emptyDB, []⟩).2.repo.rows
          = [⟨7, "éé", "desc", "new", "1970-01-01T00:00:00.000001Z",
              "1970-01-01T00:00:00.000001Z"⟩] := by
  decide

/-- C2, as stated, fails: on the in-memory repository holding the task of id 7,
an input whose status "bogus" is invalid and whose title "ab" is too short
gets the title error, whose text says nothing of the status; and an input with
the valid title "changed title" and the status "bogus" gets the error "invalid
status" while the stored task, which was `validTask`, now has the new title. -/
theorem C2_counterexample :
    service.validStatus "bogus" = false
      ∧ service.deref (service.GetTask inMemoryRepo.repo 7 fixtures.memWorld1)
          = Outcome.ok fixtures.validTask
      ∧ (service.UpdateTask inMemoryRepo.repo 7 ⟨some "ab", none, some "bogus"⟩
            fixtures.memWorld1).1
          = Outcome.err (GoError.New "title must be at least 3 characters")
      ∧ (GoError.New "title must be at least 3 characters").Error ≠ "invalid status"
      ∧ (service.UpdateTask inMemoryRepo.repo 7 ⟨some "changed title", none, some "bogus"⟩
            fixtures.memWorld1).1
          = Outcome.err (GoError.New "invalid status")
      ∧ service.deref (service.GetTask inMemoryRepo.repo 7
            (service.UpdateTask inMemoryRepo.repo 7 ⟨some "changed title", none, some "bogus"⟩
              fixtures.memWorld1).2)
          = Outcome.ok { fixtures.validTask with Title := "changed title" }
      ∧ ({ fixtures.validTask with Title := "changed title" } : Task) ≠ fixtures.validTask := by
  decide

/-- What `service.UpdateTask` does with an invalid status on an existing task,
for every repository: the error by the `len` of the supplied title, the one
repository call, the repository state, and the heap when neither title nor
description is supplied; the rows under the SQLite repository. -/
theorem UpdateTask_invalid_status_core {σ : Type} (r : TaskRepository σ) (taskID : UUID)
    (input : UpdateTaskInput) (w : World σ) (st : TaskStatus) (p : Ptr) (h1 : Heap) (s1 : σ)
    (t : Task) (L : TimeLayout) (ws : World DB)
    (hget : r.GetTask taskID w.heap w.repo = (Outcome.ok p, h1, s1))
    (hobj : Heap.read h1 p = some t)
    (hst : input.Status = some st) (hbad : service.validStatus st = false) :
    (service.UpdateTask r taskID input w).1
        = Outcome.err (GoError.New
            (if (input.Title.map (fun title => decide (len title < 3))).getD false
             then "title must be at least 3 characters" else "invalid status"))
      ∧ (service.UpdateTask r taskID input w).2.calls = w.calls ++ [Call.GetTask taskID]
      ∧ (service.UpdateTask r taskID input w).2.repo = s1
      ∧ ((input.Title = none ∧ input.Description = none) →
          (service.UpdateTask r taskID input w).2.heap = h1)
      ∧ (service.UpdateTask (SQLiteTaskRepository.repo L) taskID input ws).2.repo.rows
          = ws.repo.rows := by
  obtain ⟨ti, de, sta⟩ := input
  simp only at hst
  subst hst
  have hbad2 : ¬ service.validStatus st = true := by simp [hbad]
  refine ⟨?_, ?_, ?_, ?_, ?_⟩
  · cases ti with
    | none =>
      cases de with
      | none =>
        simp [service.UpdateTask, hget, service.applyInput, service.setTitle,
          service.setDescription, service.setStatus, hbad]
      | some d =>
        simp [service.UpdateTask, hget, service.applyInput, service.setTitle,
          service.setDescription, service.setStatus, hbad, assign_of_read h1 p t _ hobj]
    | some title =>
      by_cases hlen : len title < 3
      · simp [service.UpdateTask, hget, service.applyInput, service.setTitle, hlen]
      · cases de with
        | none =>
          simp [service.UpdateTask, hget, service.applyInput, service.setTitle,
            service.setDescription, service.setStatus, hbad, hlen,
            assign_of_read h1 p t _ hobj]
        | some d =>
          simp [service.UpdateTask, hget, service.applyInput, service.setTitle,
            service.setDescription, service.setStatus, hbad, hlen,
            assign_of_read h1 p t _ hobj,
            assign_of_read _ p _ _ (Heap.read_write h1 p t _ hobj)]
  · cases ti with
    | none =>
      cases de with
      | none =>
        simp [service.UpdateTask, hget, service.applyInput, service.setTitle,
          service.setDescription, service.setStatus, hbad]
      | some d =>
        simp [service.UpdateTask, hget, service.applyInput, service.setTitle,
          service.setDescription, service.setStatus, hbad, assign_of_read h1 p t _ hobj]
    | some title =>
      by_cases hlen : len title < 3
      · simp [service.UpdateTask, hget, service.applyInput, service.setTitle, hlen]
      · cases de with
        | none =>
          simp [service.UpdateTask, hget, service.applyInput, service.setTitle,
            service.setDescription, service.setStatus, hbad, hlen,
            assign_of_read h1 p t _ hobj]
        | some d =>
          simp [service.UpdateTask, hget, service.applyInput, service.setTitle,
            service.setDescription, service.setStatus, hbad, hlen,
            assign_of_read h1 p t _ hobj,
            assign_of_read _ p _ _ (Heap.read_write h1 p t _ hobj)]
  · cases ti with
    | none =>
      cases de with
      | none =>
        simp [service.UpdateTask, hget, service.applyInput, service.setTitle,
          service.setDescription, service.setStatus, hbad]
      | some d =>
        simp [service.UpdateTask, hget, service.applyInput, service.setTitle,
          service.setDescription, service.setStatus, hbad, assign_of_read h1 p t _ hobj]
    | some title =>
      by_cases hlen : len title < 3
      · simp [service.UpdateTask, hget, service.applyInput, service.setTitle, hlen]
      · cases de with
        | none =>
          simp [service.UpdateTask, hget, service.applyInput, service.setTitle,
            service.setDescription, service.setStatus, hbad, hlen,
            assign_of_read h1 p t _ hobj]
        | some d =>
          simp [service.UpdateTask, hget, service.applyInput, service.setTitle,
            service.setDescription, service.setStatus, hbad, hlen,
            assign_of_read h1 p t _ hobj,
            assign_of_read _ p _ _ (Heap.read_write h1 p t _ hobj)]
  · rintro ⟨hti, hde⟩
    simp only at hti hde
    subst hti hde
    simp [service.UpdateTask, hget, service.applyInput, service.setTitle,
      service.setDescription, service.setStatus, hbad]
  · exact sqlite_UpdateTask_invalid_status_rows L taskID ti de st ws hbad


/-- C2, amended: for every repository, every existing task (`GetTask` returns
a pointer to an object) and every input whose status is present and is not one
of "new", "in_progress", "done", `service.UpdateTask` returns an error and its
only call on the repository is the `GetTask`: no `UpdateTask`; the repository
state is the one `GetTask` left, and under the SQLite repository the rows of
the table are the rows before the call.  The error is "invalid status" when no
title is supplied or the supplied title has at least 3 characters; a supplied
title of fewer than 3 bytes (so of fewer than 3 characters) is refused first,
with the title error.  When the title is refused that way, or when the input
supplies neither title nor description, nothing is assigned: the heap is the
one `GetTask` left, and under the in-memory repository the heap and the store
are those before the call. -/
theorem C2_UpdateTask_invalid_status {σ : Type} (r : TaskRepository σ) (taskID : UUID)
    (input : UpdateTaskInput) (w : World σ) (st : TaskStatus) (p : Ptr) (h1 : Heap) (s1 : σ)
    (t : Task) (L : TimeLayout) (ws : World DB) (wm : World inMemoryRepo.Store)
    (hget : r.GetTask taskID w.heap w.repo = (Outcome.ok p, h1, s1))
    (hobj : Heap.read h1 p = some t)
    (hst : input.Status = some st) (hbad : service.validStatus st = false) :
    (service.UpdateTask r taskID input w).1
        = Outcome.err (GoError.New
            (if (input.Title.map (fun title => decide (len title < 3))).getD false
             then "title must be at least 3 characters" else "invalid status"))
      ∧ ((∀ title, input.Title = some title → 3 ≤ runeCount title) →
          (service.UpdateTask r taskID input w).1 = Outcome.err (GoError.New "invalid status"))
      ∧ ((∃ title, input.Title = some title ∧ len title < 3) →
          (service.UpdateTask r taskID input w).1
            = Outcome.err (GoError.New "title must be at least 3 characters"))
      ∧ (service.UpdateTask r taskID input w).2.calls = w.calls ++ [Call.GetTask taskID]
      ∧ (service.UpdateTask r taskID input w).2.repo = s1
      ∧ (((input.Title = none ∧ input.Description = none)
            ∨ (∃ title, input.Title = some title ∧ len title < 3)) →
          (service.UpdateTask r taskID input w).2.heap = h1)
      ∧ (service.UpdateTask (SQLiteTaskRepository.repo L) taskID input ws).2.repo.rows
          = ws.repo.rows
      ∧ (((input.Title = none ∧ input.Description = none)
            ∨ (∃ title, input.Title = some title ∧ len title < 3)) →
          (service.UpdateTask inMemoryRepo.repo taskID input wm).2.heap = wm.heap
            ∧ (service.UpdateTask inMemoryRepo.repo taskID input wm).2.repo = wm.repo) := by
  obtain ⟨c1, c2, c3, -, c5⟩ :=
    UpdateTask_invalid_status_core r taskID input w st p h1 s1 t L ws hget hobj hst hbad
  refine ⟨c1, ?_, ?_, c2, c3, ?_, c5, ?_⟩
  · intro hlong
    rw [c1]
    cases hti : input.Title with
    | none => simp
    | some title =>
      have h3 := hlong title hti
      have hle := runeCount_le_len title
      have : ¬ len title < 3 := by omega
      simp [this]
  · rintro ⟨title, hti, hshort⟩
    rw [c1]
    simp [hti, hshort]
  · intro hc
    obtain ⟨e, he⟩ := applyInput_refused_unchanged input p h1 st hst hbad hc
    simp [service.UpdateTask, hget, he]
  · intro hc
    exact inMemory_UpdateTask_refused_unchanged taskID input wm st hst hbad hc

/-- C2, amended, at the input of `TestUpdateTaskStatusValidation` (the task of
id 7 on the in-memory repository and the status "wrong" alone) and at the
title "ab" with the status "bogus". -/
theorem C2_UpdateTask_invalid_status_witness :
    ((service.UpdateTask inMemoryRepo.repo 7 ⟨none, none, some "wrong"⟩ fixtures.memWorld1).1
        = Outcome.err (GoError.New "invalid status")
      ∧ (service.UpdateTask inMemoryRepo.repo 7 ⟨none, none, some "wrong"⟩
          fixtures.memWorld1).2.calls = [Call.CreateTask 0, Call.GetTask 7]
      ∧ (service.UpdateTask inMemoryRepo.repo 7 ⟨none, none, some "wrong"⟩
          fixtures.memWorld1).2.repo = [(7, 0)]
      ∧ (service.UpdateTask inMemoryRepo.repo 7 ⟨none, none, some "wrong"⟩
          fixtures.memWorld1).2.heap = [fixtures.validTask]
      ∧ (service.UpdateTask (SQLiteTaskRepository.repo fixtures.digitsLayout) 7
          ⟨none, none, some "wrong"⟩ ⟨[], fixtures.oneRowDB, []⟩).2.repo.rows
          = fixtures.oneRowDB.rows)
      ∧ ((service.UpdateTask inMemoryRepo.repo 7 ⟨some "ab", none, some "bogus"⟩
          fixtures.memWorld1).1
          = Outcome.err (GoError.New "title must be at least 3 characters")
        ∧ (service.UpdateTask inMemoryRepo.repo 7 ⟨some "ab", none, some "bogus"⟩
          fixtures.memWorld1).2.heap = [fixtures.validTask]
        ∧ (service.UpdateTask inMemoryRepo.repo 7 ⟨some "ab", none, some "bogus"⟩
          fixtures.memWorld1).2.repo = [(7, 0)]) := by
  have h := C2_UpdateTask_invalid_status inMemoryRepo.repo 7 ⟨none, none, some "wrong"⟩
    fixtures.memWorld1 "wrong" 0 [fixtures.validTask] [(7, 0)] fixtures.validTask
    fixtures.digitsLayout ⟨[], fixtures.oneRowDB, []⟩ fixtures.memWorld1
    (by decide) (by decide) rfl (by decide)
  have g := C2_UpdateTask_invalid_status inMemoryRepo.repo 7 ⟨some "ab", none, some "bogus"⟩
    fixtures.memWorld1 "bogus" 0 [fixtures.validTask] [(7, 0)] fixtures.validTask
    fixtures.digitsLayout ⟨[], fixtures.oneRowDB, []⟩ fixtures.memWorld1
    (by decide) (by decide) rfl (by decide)
  obtain ⟨-, h2, -, h4, h5, h6, h7, -⟩ := h
  obtain ⟨-, -, g3, -, -, -, -, g8⟩ := g
  have gc : (some "ab" : Option String) = some "ab" ∧ len "ab" < 3 := ⟨rfl, by decide⟩
  exact ⟨⟨h2 (fun title ht => by cases ht), h4, h5, h6 (Or.inl ⟨rfl, rfl⟩), h7⟩,
    ⟨g3 ⟨"ab", gc⟩, (g8 (Or.inr ⟨"ab", gc⟩)).1, (g8 (Or.inr ⟨"ab", gc⟩)).2⟩⟩

/-- C3: under the SQLite repository, for every existing task `t` (what
`GetTask` returns, whatever its status) and every input whose supplied title
has `len` at least 3 and whose supplied status is one of the three values,
when the driver executes the UPDATE `service.UpdateTask` returns a task `u`
whose supplied fields are the input's, whose absent fields are those of `t`,
whose id and created_at are those of `t` and whose updated_at is the reading
of the clock; when the driver executes the next SELECT and the layout reads
back the timestamp it wrote, a following `GetTask` returns a task equal to
`u`. -/
theorem C3_UpdateTask_partial_update (L : TimeLayout) (taskID : UUID) (input : UpdateTaskInput) (w : World DB)
    (q : Ptr) (t : Task)
    (hget : (service.GetTask (SQLiteTaskRepository.repo L) taskID w).1 = Outcome.ok q)
    (hobj : Heap.read (service.GetTask (SQLiteTaskRepository.repo L) taskID w).2.heap q = some t)
    (htitle : ∀ title, input.Title = some title → 3 ≤ len title)
    (hstatus : ∀ st, input.Status = some st → service.validStatus st = true)
    (hwrite : w.repo.faults 1 = none)
    (hlayout : L.Parse (L.Format w.repo.now) = Except.ok w.repo.now)
    (hread : w.repo.faults 2 = none) :
    ∃ p u r, (service.UpdateTask (SQLiteTaskRepository.repo L) taskID input w).1 = Outcome.ok p
      ∧ Heap.read (service.UpdateTask (SQLiteTaskRepository.repo L) taskID input w).2.heap p
          = some u
      ∧ u.Title = input.Title.getD t.Title
      ∧ u.Description = input.Description.getD t.Description
      ∧ u.Status = input.Status.getD t.Status
      ∧ u.ID = t.ID ∧ u.CreatedAt = t.CreatedAt ∧ u.UpdatedAt = w.repo.now
      ∧ (service.GetTask (SQLiteTaskRepository.repo L) taskID
          (service.UpdateTask (SQLiteTaskRepository.repo L) taskID input w).2).1 = Outcome.ok r
      ∧ Heap.read (service.GetTask (SQLiteTaskRepository.repo L) taskID
          (service.UpdateTask (SQLiteTaskRepository.repo L) taskID input w).2).2.heap r
          = some u := by
  have hget1 : (SQLiteTaskRepository.GetTask L taskID w.heap w.repo).1 = Outcome.ok q := by
    simpa [service.GetTask, SQLiteTaskRepository.repo] using hget
  obtain ⟨hf0, row, t0, hrow, hdec, hgeteq, hq⟩ := sqlite_get_ok L taskID w.heap w.repo q hget1
  have ht0 : t0 = t := by
    have : Heap.read (w.heap ++ [t0]) q = some t := by
      simpa [service.GetTask, SQLiteTaskRepository.repo, hgeteq] using hobj
    rw [hq, Heap.read_alloc] at this
    exact Option.some.inj this
  subst ht0
  have hrid : row.id = taskID := by
    have := List.find?_some hrow
    simpa using this
  -- what the row decodes to
  have hdec2 := hdec
  unfold SQLiteTaskRepository.decodeRow at hdec2
  cases hc : L.Parse row.created_at with
  | error e => simp [hc] at hdec2
  | ok ca =>
    cases hu : L.Parse row.updated_at with
    | error e => simp [hc, hu] at hdec2
    | ok ua =>
      simp only [hc, hu] at hdec2
      have ht0 : t0 = ⟨row.id, row.title, row.description, row.status, ca, ua⟩ :=
        (Except.ok.inj hdec2).symm
      have hid : t0.ID = taskID := by rw [ht0]; exact hrid
      have hca : t0.CreatedAt = ca := by rw [ht0]
      -- the three blocks
      have happly := applyInput_valid input w.heap.length (w.heap ++ [t0]) t0
        (Heap.read_alloc _ _) htitle hstatus
      have hpid : (patch input t0).ID = taskID := hid
      have hrow1 : w.repo.sent.rows.find? (fun r => r.id == (patch input t0).ID) = some row := by
        rw [hpid]; exact hrow
      have hupd := sqlite_update_ok L w.heap.length
        (Heap.write (w.heap ++ [t0]) w.heap.length (patch input t0)) w.repo.sent
        (patch input t0) row
        (Heap.read_write _ _ t0 _ (Heap.read_alloc _ _)) hwrite hrow1
      have hU : service.UpdateTask (SQLiteTaskRepository.repo L) taskID input w
          = (Outcome.ok w.heap.length,
              ⟨w.heap ++ [{ patch input t0 with UpdatedAt := w.repo.now }],
               { w.repo.sent.tick.sent with
                  rows := w.repo.rows.map (fun r =>
                    if r.id == taskID then
                      { r with title := (patch input t0).Title,
                               description := (patch input t0).Description,
                               status := (patch input t0).Status,
                               updated_at := L.Format w.repo.now }
                    else r) },
               w.calls ++ [Call.GetTask taskID, Call.UpdateTask w.heap.length]⟩) := by
        simp only [service.UpdateTask, SQLiteTaskRepository.repo, hgeteq, happly, hupd]
        simp [Heap.write, DB.sent, DB.now, hpid]
      rw [hU]
      have hfind2 : (w.repo.rows.map (fun r =>
                    if r.id == taskID then
                      { r with title := (patch input t0).Title,
                               description := (patch input t0).Description,
                               status := (patch input t0).Status,
                               updated_at := L.Format w.repo.now }
                    else r)).find? (fun r => r.id == taskID)
          = some { row with title := (patch input t0).Title,
                            description := (patch input t0).Description,
                            status := (patch input t0).Status,
                            updated_at := L.Format w.repo.now } := by
        rw [List.find?_map]
        have hcomp : ((fun (r : Row) => r.id == taskID) ∘ (fun (r : Row) =>
                    if r.id == taskID then
                      { r with title := (patch input t0).Title,
                               description := (patch input t0).Description,
                               status := (patch input t0).Status,
                               updated_at := L.Format w.repo.now }
                    else r)) = (fun (r : Row) => r.id == taskID) := by
          funext r
          simp only [Function.comp]
          split <;> simp_all
        rw [hcomp, hrow]
        simp [hrid]
      have hdec3 : SQLiteTaskRepository.decodeRow L
          { row with title := (patch input t0).Title,
                     description := (patch input t0).Description,
                     status := (patch input t0).Status,
                     updated_at := L.Format w.repo.now }
          = Except.ok { patch input t0 with UpdatedAt := w.repo.now } := by
        simp [SQLiteTaskRepository.decodeRow, hc, hlayout, patch, ht0]
      have hget2 := sqlite_get_of_row L taskID
        (w.heap ++ [{ patch input t0 with UpdatedAt := w.repo.now }])
        { w.repo.sent.tick.sent with
                  rows := w.repo.rows.map (fun r =>
                    if r.id == taskID then
                      { r with title := (patch input t0).Title,
                               description := (patch input t0).Description,
                               status := (patch input t0).Status,
                               updated_at := L.Format w.repo.now }
                    else r) } _ _ hread hfind2 hdec3
      refine ⟨w.heap.length, { patch input t0 with UpdatedAt := w.repo.now },
        (w.heap ++ [{ patch input t0 with UpdatedAt := w.repo.now }]).length,
        rfl, Heap.read_alloc _ _, rfl, rfl, rfl, rfl, rfl, rfl, ?_, ?_⟩
      · simp only [service.GetTask, SQLiteTaskRepository.repo, hget2]
      · simp only [service.GetTask, SQLiteTaskRepository.repo, hget2]
        exact Heap.read_alloc _ _

/-- C3 at the task of `oneRowDB`: the title is replaced, the status goes from
"new" to "done", the description is not supplied. -/
theorem C3_UpdateTask_partial_update_witness :
    ∃ p u r, (service.UpdateTask (SQLiteTaskRepository.repo fixtures.digitsLayout) 7
          ⟨some "new title", none, some "done"⟩ ⟨[], fixtures.oneRowDB, []⟩).1 = Outcome.ok p
      ∧ Heap.read (service.UpdateTask (SQLiteTaskRepository.repo fixtures.digitsLayout) 7
          ⟨some "new title", none, some "done"⟩ ⟨[], fixtures.oneRowDB, []⟩).2.heap p = some u
      ∧ u.Title = "new title"
      ∧ u.Description = "2%"
      ∧ u.Status = "done"
      ∧ u.ID = 7 ∧ u.CreatedAt = ⟨1000⟩ ∧ u.UpdatedAt = ⟨2000⟩
      ∧ (service.GetTask (SQLiteTaskRepository.repo fixtures.digitsLayout) 7
          (service.UpdateTask (SQLiteTaskRepository.repo fixtures.digitsLayout) 7
            ⟨some "new title", none, some "done"⟩ ⟨[], fixtures.oneRowDB, []⟩).2).1
          = Outcome.ok r
      ∧ Heap.read (service.GetTask (SQLiteTaskRepository.repo fixtures.digitsLayout) 7
          (service.UpdateTask (SQLiteTaskRepository.repo fixtures.digitsLayout) 7
            ⟨some "new title", none, some "done"⟩ ⟨[], fixtures.oneRowDB, []⟩).2).2.heap r
          = some u :=
  C3_UpdateTask_partial_update fixtures.digitsLayout 7 ⟨some "new title", none, some "done"⟩
    ⟨[], fixtures.oneRowDB, []⟩ 0 fixtures.storedTask (by decide) (by decide)
    (by intro title h; cases h; decide) (by intro st h; cases h; decide) rfl rfl rfl

/-- A creation followed by a read on the SQLite repository, for a layout that
reads back the timestamp the creation wrote. -/
theorem sqlite_CreateTask_then_GetTask (L : TimeLayout) (newID : UUID) (input : CreateTaskInput)
    (w : World DB) (p : Ptr)
    (hok : (service.CreateTask (SQLiteTaskRepository.repo L) newID input w).1 = Outcome.ok p)
    (hlayout : L.Parse (L.Format w.repo.now) = Except.ok w.repo.now)
    (hread : (service.CreateTask (SQLiteTaskRepository.repo L) newID input w).2.repo.fault
        = none) :
    ∃ t q, Heap.read (service.CreateTask (SQLiteTaskRepository.repo L) newID input w).2.heap p
          = some t
      ∧ (service.GetTask (SQLiteTaskRepository.repo L) t.ID
          (service.CreateTask (SQLiteTaskRepository.repo L) newID input w).2).1 = Outcome.ok q
      ∧ Heap.read (service.GetTask (SQLiteTaskRepository.repo L) t.ID
          (service.CreateTask (SQLiteTaskRepository.repo L) newID input w).2).2.heap q
          = some t := by
  obtain ⟨hp, hheap, hrows, hany, -⟩ := sqlite_create_ok L newID input w p hok
  generalize service.CreateTask (SQLiteTaskRepository.repo L) newID input w = res at *
  have hfind : res.2.repo.rows.find? (fun r => r.id == newID)
      = some ⟨newID, input.Title, input.Description, TaskStatusNew,
              L.Format w.repo.now, L.Format w.repo.now⟩ := by
    rw [hrows, List.find?_append]
    have : w.repo.rows.find? (fun r => r.id == newID) = none := by
      simp at hany
      simpa using hany
    simp [this]
  have hdec : SQLiteTaskRepository.decodeRow L
      ⟨newID, input.Title, input.Description, TaskStatusNew,
        L.Format w.repo.now, L.Format w.repo.now⟩ = Except.ok (newTask newID input w.repo.now) := by
    simp [SQLiteTaskRepository.decodeRow, hlayout, newTask]
  have hget := sqlite_get_of_row L newID res.2.heap res.2.repo _ _ hread hfind hdec
  refine ⟨newTask newID input w.repo.now, res.2.heap.length, ?_, ?_, ?_⟩
  · rw [hheap, hp]; exact Heap.read_alloc _ _
  · show (service.GetTask (SQLiteTaskRepository.repo L) newID res.2).1 = _
    simp [service.GetTask, SQLiteTaskRepository.repo, hget]
  · show Heap.read (service.GetTask (SQLiteTaskRepository.repo L) newID res.2).2.heap _ = _
    simp [service.GetTask, SQLiteTaskRepository.repo, hget, Heap.read]


/-- C4: under the SQLite repository, which writes the timestamps with
`Format(time.RFC3339Nano)` and reads them with `time.Parse(time.RFC3339Nano, _)`:
for every input for which `service.CreateTask` succeeds and returns the task
`t`, at a clock reading of the years 0001 to 9999, when the driver executes
the next SELECT an immediately following `service.GetTask(t.ID)` succeeds and
returns a task equal to `t` in all six fields; the row holds the two
timestamps as the RFC3339Nano text of the reading, and that text parses back
to the reading. -/
theorem C4_CreateTask_then_GetTask (newID : UUID) (input : CreateTaskInput) (w : World DB)
    (p : Ptr)
    (hok : (service.CreateTask (SQLiteTaskRepository.repo time.RFC3339Nano) newID input w).1 = Outcome.ok p)
    (hyears : -62135596800000000000 ≤ w.repo.now.unixNano
      ∧ w.repo.now.unixNano < 253402300800000000000)
    (hread : (service.CreateTask (SQLiteTaskRepository.repo time.RFC3339Nano) newID input w).2.repo.fault = none) :
    (∃ t q, Heap.read (service.CreateTask (SQLiteTaskRepository.repo time.RFC3339Nano) newID input w).2.heap p = some t
      ∧ (service.GetTask (SQLiteTaskRepository.repo time.RFC3339Nano) t.ID (service.CreateTask (SQLiteTaskRepository.repo time.RFC3339Nano) newID input w).2).1 = Outcome.ok q
      ∧ Heap.read (service.GetTask (SQLiteTaskRepository.repo time.RFC3339Nano) t.ID
          (service.CreateTask (SQLiteTaskRepository.repo time.RFC3339Nano) newID input w).2).2.heap q = some t)
      ∧ (∃ row, (service.CreateTask (SQLiteTaskRepository.repo time.RFC3339Nano) newID input w).2.repo.rows.find?
            (fun r => r.id == newID) = some row
          ∧ row.created_at = time.Format w.repo.now ∧ row.updated_at = time.Format w.repo.now)
      ∧ time.Parse (time.Format w.repo.now) = Except.ok w.repo.now := by
  have hlayout : time.RFC3339Nano.Parse (time.RFC3339Nano.Format w.repo.now)
      = Except.ok w.repo.now := time.Parse_Format w.repo.now hyears.1 hyears.2
  refine ⟨sqlite_CreateTask_then_GetTask time.RFC3339Nano newID input w p hok hlayout hread,
    ?_, hlayout⟩
  obtain ⟨-, -, hrows, hany, -⟩ := sqlite_create_ok time.RFC3339Nano newID input w p hok
  refine ⟨⟨newID, input.Title, input.Description, TaskStatusNew,
    time.Format w.repo.now, time.Format w.repo.now⟩, ?_, rfl, rfl⟩
  rw [hrows, List.find?_append]
  have : w.repo.rows.find? (fun r => r.id == newID) = none := by
    simp at hany
    simpa using hany
  simp [this]
  rfl

/-- C4 at the input "Buy milk" / "2%" on an empty database whose clock reads
1000 nanoseconds after the Unix epoch. -/
theorem C4_CreateTask_then_GetTask_witness :
    (∃ t q, Heap.read (service.CreateTask (SQLiteTaskRepository.repo time.RFC3339Nano) 7 ⟨"Buy milk", "2%"⟩
          ⟨[], fixtures.emptyDB, []⟩).2.heap 0 = some t
      ∧ (service.GetTask (SQLiteTaskRepository.repo time.RFC3339Nano) t.ID (service.CreateTask (SQLiteTaskRepository.repo time.RFC3339Nano) 7 ⟨"Buy milk", "2%"⟩
            ⟨[], fixtures.emptyDB, []⟩).2).1 = Outcome.ok q
      ∧ Heap.read (service.GetTask (SQLiteTaskRepository.repo time.RFC3339Nano) t.ID (service.CreateTask (SQLiteTaskRepository.repo time.RFC3339Nano) 7 ⟨"Buy milk", "2%"⟩
            ⟨[], fixtures.emptyDB, []⟩).2).2.heap q = some t)
      ∧ (service.CreateTask (SQLiteTaskRepository.repo time.RFC3339Nano) 7 ⟨"Buy milk", "2%"⟩ ⟨[], fixtures.emptyDB, []⟩).2.repo.rows
          = [⟨7, "Buy milk", "2%", "new", "1970-01-01T00:00:00.000001Z",
              "1970-01-01T00:00:00.000001Z"⟩] :=
  ⟨(C4_CreateTask_then_GetTask 7 ⟨"Buy milk", "2%"⟩ ⟨[], fixtures.emptyDB, []⟩ 0
      (by decide) (by decide) (by decide)).1, by decide⟩

/-- C5: under the SQLite repository, for every input whose title has `len` at
least 3 and for which the insert succeeds (`service.CreateTask` returns a
task), the returned task has status "new", the title and the description of
the input, created_at equal to updated_at, and the id drawn by `uuid.New()`. -/
theorem C5_CreateTask_returns_new_task (L : TimeLayout) (newID : UUID) (input : CreateTaskInput)
    (w : World DB) (p : Ptr) (hlen : 3 ≤ len input.Title)
    (hok : (service.CreateTask (SQLiteTaskRepository.repo L) newID input w).1 = Outcome.ok p) :
    ∃ t, Heap.read (service.CreateTask (SQLiteTaskRepository.repo L) newID input w).2.heap p
          = some t
      ∧ t.Status = "new" ∧ t.Title = input.Title ∧ t.Description = input.Description
      ∧ t.CreatedAt = t.UpdatedAt ∧ t.ID = newID := by
  have hlen2 := hlen
  obtain ⟨hp, hheap, -, -, -⟩ := sqlite_create_ok L newID input w p hok
  refine ⟨newTask newID input w.repo.now, ?_, rfl, rfl, rfl, rfl, rfl⟩
  rw [hheap, hp]
  exact Heap.read_alloc _ _

/-- C5 at the input of the scenario: "Buy milk" / "2%" on an empty database. -/
theorem C5_CreateTask_returns_new_task_witness :
    ∃ t, Heap.read (service.CreateTask (SQLiteTaskRepository.repo fixtures.digitsLayout) 7
          ⟨"Buy milk", "2%"⟩ ⟨[], fixtures.emptyDB, []⟩).2.heap 0 = some t
      ∧ t.Status = "new" ∧ t.Title = "Buy milk" ∧ t.Description = "2%"
      ∧ t.CreatedAt = t.UpdatedAt ∧ t.ID = 7 :=
  C5_CreateTask_returns_new_task fixtures.digitsLayout 7 ⟨"Buy milk", "2%"⟩
    ⟨[], fixtures.emptyDB, []⟩ 0 (by decide) (by decide)

/-- C6, the code at the failing input: the title "éé" has 2 characters and 4
bytes; `service.CreateTask` accepts it and stores it, and so does
`service.UpdateTask`, because both compare `len`, the number of bytes, with
3. -/
theorem C6_two_character_title_accepted :
    runeCount "éé" = 2 ∧ len "éé" = 4
      ∧ (service.CreateTask inMemoryRepo.repo 7 ⟨"éé", "desc"⟩ fixtures.memWorld).1
          = Outcome.ok 0
      ∧ service.deref (service.GetTask inMemoryRepo.repo 7
          (service.CreateTask inMemoryRepo.repo 7 ⟨"éé", "desc"⟩ fixtures.memWorld).2)
          = Outcome.ok { fixtures.validTask with Title := "éé" }
      ∧ service.deref (service.UpdateTask inMemoryRepo.repo 7 ⟨some "éé", none, none⟩
          fixtures.memWorld1)
          = Outcome.ok { fixtures.validTask with Title := "éé" } := by
  decide

/-- C7, the code at the failing input: on the in-memory repository holding
`validTask`, an update with a valid title, a description and the invalid
status "wrong" returns the error "invalid status", and the task object the
repository stores already carries the new title and the new description; the
only repository call was `GetTask`. -/
theorem C7_fields_applied_before_status_validated :
    service.deref (service.GetTask inMemoryRepo.repo 7 fixtures.memWorld1)
        = Outcome.ok fixtures.validTask
      ∧ (service.UpdateTask inMemoryRepo.repo 7
          ⟨some "changed title", some "changed", some "wrong"⟩ fixtures.memWorld1).1
        = Outcome.err (GoError.New "invalid status")
      ∧ (service.UpdateTask inMemoryRepo.repo 7
          ⟨some "changed title", some "changed", some "wrong"⟩ fixtures.memWorld1).2.calls
        = [Call.CreateTask 0, Call.GetTask 7]
      ∧ service.deref (service.GetTask inMemoryRepo.repo 7
          (service.UpdateTask inMemoryRepo.repo 7
            ⟨some "changed title", some "changed", some "wrong"⟩ fixtures.memWorld1).2)
        = Outcome.ok { fixtures.validTask with Title := "changed title",
                                               Description := "changed" } := by
  decide

/-- C8: for every status filter, limit and offset, `service.ListTasks` makes
exactly one call on the repository, `ListTasks` with the filter
`{Status: status, Limit: 50 if limit <= 0 else limit, Offset: offset}`, and
returns the result, heap and state of that call unchanged; the limit of that
filter is positive. -/
theorem C8_ListTasks_delegates {σ : Type} (r : TaskRepository σ) (status : Option TaskStatus)
    (limit offset : Int) (w : World σ) :
    (service.ListTasks r status limit offset w).1
        = (r.ListTasks ⟨status, if limit ≤ 0 then 50 else limit, offset⟩ w.heap w.repo).1
      ∧ (service.ListTasks r status limit offset w).2.heap
        = (r.ListTasks ⟨status, if limit ≤ 0 then 50 else limit, offset⟩ w.heap w.repo).2.1
      ∧ (service.ListTasks r status limit offset w).2.repo
        = (r.ListTasks ⟨status, if limit ≤ 0 then 50 else limit, offset⟩ w.heap w.repo).2.2
      ∧ (service.ListTasks r status limit offset w).2.calls
        = w.calls ++ [Call.ListTasks ⟨status, if limit ≤ 0 then 50 else limit, offset⟩]
      ∧ (0 : Int) < (if limit ≤ 0 then 50 else limit) := by
  refine ⟨?_, ?_, ?_, ?_, ?_⟩
  · simp [service.ListTasks, service.DefaultLimit]
  · simp [service.ListTasks, service.DefaultLimit]
  · simp [service.ListTasks, service.DefaultLimit]
  · simp [service.ListTasks, service.DefaultLimit]
  · split <;> omega

/-- C9: `service.DeleteTask` on the in-memory repository and, when the driver
executes the statements, on the SQLite repository: for an id that is not in
the store it returns `ErrTaskNotFound` and the store is unchanged; for an id
that is in the store it returns nil, the store afterwards is the store before
without that id and with every other entry as it was, and a second
`DeleteTask` of the same id directly afterwards returns `ErrTaskNotFound`. -/
theorem C9_DeleteTask_not_found_semantics (L : TimeLayout) (taskID : UUID) (wm : World inMemoryRepo.Store) (ws : World DB) :
    (inMemoryRepo.lookup wm.repo taskID = none →
        (service.DeleteTask inMemoryRepo.repo taskID wm).1 = Outcome.err ErrTaskNotFound
        ∧ (service.DeleteTask inMemoryRepo.repo taskID wm).2.repo = wm.repo
        ∧ (service.DeleteTask inMemoryRepo.repo taskID wm).2.heap = wm.heap)
    ∧ (inMemoryRepo.lookup wm.repo taskID ≠ none →
        (service.DeleteTask inMemoryRepo.repo taskID wm).1 = Outcome.ok ()
        ∧ (∀ k, inMemoryRepo.lookup (service.DeleteTask inMemoryRepo.repo taskID wm).2.repo k
              = if k = taskID then none else inMemoryRepo.lookup wm.repo k)
        ∧ (service.DeleteTask inMemoryRepo.repo taskID
              (service.DeleteTask inMemoryRepo.repo taskID wm).2).1
            = Outcome.err ErrTaskNotFound)
    ∧ (ws.repo.faults 0 = none → (∀ r ∈ ws.repo.rows, r.id ≠ taskID) →
        (service.DeleteTask (SQLiteTaskRepository.repo L) taskID ws).1
            = Outcome.err ErrTaskNotFound
        ∧ (service.DeleteTask (SQLiteTaskRepository.repo L) taskID ws).2.repo.rows = ws.repo.rows
        ∧ (service.DeleteTask (SQLiteTaskRepository.repo L) taskID ws).2.heap = ws.heap)
    ∧ (ws.repo.faults 0 = none → ws.repo.faults 1 = none → (∃ r ∈ ws.repo.rows, r.id = taskID) →
        (service.DeleteTask (SQLiteTaskRepository.repo L) taskID ws).1 = Outcome.ok ()
        ∧ (service.DeleteTask (SQLiteTaskRepository.repo L) taskID ws).2.repo.rows
            = ws.repo.rows.filter (fun r => r.id ≠ taskID)
        ∧ (service.DeleteTask (SQLiteTaskRepository.repo L) taskID
              (service.DeleteTask (SQLiteTaskRepository.repo L) taskID ws).2).1
            = Outcome.err ErrTaskNotFound) := by
  refine ⟨?_, ?_, ?_, ?_⟩
  · intro hno
    simp [service.DeleteTask, inMemoryRepo.repo, inMemoryRepo.DeleteTask, hno]
  · intro hyes
    obtain ⟨p, hp⟩ := Option.ne_none_iff_exists'.mp hyes
    have hgone : inMemoryRepo.lookup (inMemoryRepo.remove wm.repo taskID) taskID = none := by
      rw [inMemoryRepo.lookup_remove]; simp
    refine ⟨?_, ?_, ?_⟩
    · simp [service.DeleteTask, inMemoryRepo.repo, inMemoryRepo.DeleteTask, hp]
    · intro k
      simp only [service.DeleteTask, inMemoryRepo.repo, inMemoryRepo.DeleteTask, hp]
      exact inMemoryRepo.lookup_remove _ _ _
    · simp [service.DeleteTask, inMemoryRepo.repo, inMemoryRepo.DeleteTask, hp, hgone]
  · intro hf hno
    have hcount : ws.repo.rows.countP (fun (r : Row) => r.id == taskID) = 0 := by
      rw [List.countP_eq_zero]
      intro r hr
      simpa using hno r hr
    have hfilter : ws.repo.rows.filter (fun (r : Row) => !(r.id == taskID)) = ws.repo.rows := by
      rw [List.filter_eq_self]
      intro r hr
      simpa using hno r hr
    simp [service.DeleteTask, SQLiteTaskRepository.repo, SQLiteTaskRepository.DeleteTask,
      SQLiteTaskRepository.deleteRows, DB.fault, DB.sent, hf, hcount, hfilter]
  · intro hf hf1 hyes
    have hcount : ws.repo.rows.countP (fun (r : Row) => r.id == taskID) ≠ 0 := by
      intro h0
      rw [List.countP_eq_zero] at h0
      obtain ⟨r, hr, hid⟩ := hyes
      exact h0 r hr (by simpa using hid)
    have hcount2 := sqlite_countP_filter ws.repo.rows taskID
    refine ⟨?_, ?_, ?_⟩
    · simp [service.DeleteTask, SQLiteTaskRepository.repo, SQLiteTaskRepository.DeleteTask,
        SQLiteTaskRepository.deleteRows, DB.fault, DB.sent, hf, hcount]
    · simp only [service.DeleteTask, SQLiteTaskRepository.repo, SQLiteTaskRepository.DeleteTask,
        SQLiteTaskRepository.deleteRows, DB.fault, DB.sent, hf, hcount, if_false]
      congr 1
      funext r
      by_cases h : r.id = taskID <;> simp [h]
    · simp [service.DeleteTask, SQLiteTaskRepository.repo, SQLiteTaskRepository.DeleteTask,
        SQLiteTaskRepository.deleteRows, DB.fault, DB.sent, hf, hf1, hcount, hcount2]

/-- C9 at id 7, which the in-memory store of `memWorld1` and the table of
`oneRowDB` hold, and at id 8, which they do not hold. -/
theorem C9_DeleteTask_not_found_semantics_witness :
    ((service.DeleteTask inMemoryRepo.repo 8 fixtures.memWorld1).1
          = Outcome.err ErrTaskNotFound
        ∧ (service.DeleteTask inMemoryRepo.repo 8 fixtures.memWorld1).2.repo = [(7, 0)])
      ∧ ((service.DeleteTask inMemoryRepo.repo 7 fixtures.memWorld1).1 = Outcome.ok ()
        ∧ (service.DeleteTask inMemoryRepo.repo 7
            (service.DeleteTask inMemoryRepo.repo 7 fixtures.memWorld1).2).1
          = Outcome.err ErrTaskNotFound)
      ∧ ((service.DeleteTask (SQLiteTaskRepository.repo fixtures.digitsLayout) 8
            ⟨[], fixtures.oneRowDB, []⟩).1 = Outcome.err ErrTaskNotFound
        ∧ (service.DeleteTask (SQLiteTaskRepository.repo fixtures.digitsLayout) 8
            ⟨[], fixtures.oneRowDB, []⟩).2.repo.rows = fixtures.oneRowDB.rows)
      ∧ ((service.DeleteTask (SQLiteTaskRepository.repo fixtures.digitsLayout) 7
            ⟨[], fixtures.oneRowDB, []⟩).1 = Outcome.ok ()
        ∧ (service.DeleteTask (SQLiteTaskRepository.repo fixtures.digitsLayout) 7
            (service.DeleteTask (SQLiteTaskRepository.repo fixtures.digitsLayout) 7
              ⟨[], fixtures.oneRowDB, []⟩).2).1 = Outcome.err ErrTaskNotFound) := by
  have h8 := C9_DeleteTask_not_found_semantics fixtures.digitsLayout 8 fixtures.memWorld1
    ⟨[], fixtures.oneRowDB, []⟩
  have h7 := C9_DeleteTask_not_found_semantics fixtures.digitsLayout 7 fixtures.memWorld1
    ⟨[], fixtures.oneRowDB, []⟩
  have a := h8.1 (by decide)
  have b := h7.2.1 (by decide)
  have c := h8.2.2.1 rfl (by decide)
  have d := h7.2.2.2 rfl rfl (by decide)
  exact ⟨⟨a.1, a.2.1⟩, ⟨b.1, b.2.2⟩, ⟨c.1, c.2.1⟩, ⟨d.1, d.2.2⟩⟩

/-- C10, the code at the failing input: with a database whose driver answers
"database is locked", `handleCreateTask` (a POST with a valid body) and
`handleUpdateTask` (a PUT with a valid id and body) answer 400 with the raw
text of the driver's error as body, while `handleGetTask`, `handleListTasks`
and `handleDeleteTask` answer 500 with their fixed message. -/
theorem C10_storage_error_answers :
    (handler.handleCreateTask
        (service.NewTaskService (SQLiteTaskRepository.repo fixtures.digitsLayout)) fixtures.lib
        ⟨"POST", "", [], "Buy milk"⟩ ⟨⟨[], fixtures.lockedDB, []⟩, fun n => n⟩).1
        = some ⟨400, "text/plain; charset=utf-8", "database is locked\n"⟩
      ∧ (handler.handleUpdateTask
        (service.NewTaskService (SQLiteTaskRepository.repo fixtures.digitsLayout)) fixtures.lib
        ⟨"PUT", "7", [], "new title"⟩ ⟨⟨[], fixtures.lockedDB, []⟩, fun n => n⟩).1
        = some ⟨400, "text/plain; charset=utf-8", "database is locked\n"⟩
      ∧ (handler.handleGetTask
        (service.NewTaskService (SQLiteTaskRepository.repo fixtures.digitsLayout)) fixtures.lib
        ⟨"GET", "7", [], ""⟩ ⟨⟨[], fixtures.lockedDB, []⟩, fun n => n⟩).1
        = some ⟨500, "text/plain; charset=utf-8",
            "Failed to get task due to an internal server error\n"⟩
      ∧ (handler.handleListTasks
        (service.NewTaskService (SQLiteTaskRepository.repo fixtures.digitsLayout)) fixtures.lib
        ⟨"GET", "", [], ""⟩ ⟨⟨[], fixtures.lockedDB, []⟩, fun n => n⟩).1
        = some ⟨500, "text/plain; charset=utf-8",
            "Failed to list tasks due to an internal server error\n"⟩
      ∧ (handler.handleDeleteTask
        (service.NewTaskService (SQLiteTaskRepository.repo fixtures.digitsLayout)) fixtures.lib
        ⟨"DELETE", "7", [], ""⟩ ⟨⟨[], fixtures.lockedDB, []⟩, fun n => n⟩).1
        = some ⟨500, "text/plain; charset=utf-8",
            "Failed to delete task due to an internal server error\n"⟩ := by
  decide

/-- C11: for every GET request on /tasks, every service behind the handler and
every state.  When `status` is non-empty and none of "new", "in_progress",
"done", or `limit` is non-empty and `strconv.Atoi` does not give an integer
above 0, or `offset` is non-empty and `strconv.Atoi` does not give an integer
at least 0, `handleListTasks` answers 400 and the state of the service is the
one it started from (the service is not called).  Otherwise the state and the
response are those of one call `ListTasks(status, limit, offset)` with the
parsed values, where a missing or empty parameter stands for no status filter,
limit 50 and offset 0: 200 with the encoded tasks when the call returns them,
500 with the fixed message when it returns an error. -/
theorem C11_handleListTasks_query_parameters {ω : Type} (svc : handler.TaskService ω) (lib : handler.Lib)
    (req : handler.Request) (w : ω) (hm : req.Method = "GET") :
    ((req.queryGet "status" ≠ "" ∧ req.queryGet "status" ≠ "new"
          ∧ req.queryGet "status" ≠ "in_progress" ∧ req.queryGet "status" ≠ "done") →
        handler.handleListTasks svc lib req w
          = (some (handler.httpError handler.ErrMsgInvalidStatus 400), w))
    ∧ ((req.queryGet "limit" ≠ ""
          ∧ ∀ v, lib.Atoi (req.queryGet "limit") = Except.ok v → v ≤ 0) →
        ∃ msg, handler.handleListTasks svc lib req w = (some (handler.httpError msg 400), w))
    ∧ ((req.queryGet "offset" ≠ ""
          ∧ ∀ v, lib.Atoi (req.queryGet "offset") = Except.ok v → v < 0) →
        ∃ msg, handler.handleListTasks svc lib req w = (some (handler.httpError msg 400), w))
    ∧ (∀ (st : Option TaskStatus) (lim off : Int),
        ((req.queryGet "status" = "" ∧ st = none)
          ∨ (st = some (req.queryGet "status")
              ∧ (req.queryGet "status" = "new" ∨ req.queryGet "status" = "in_progress"
                  ∨ req.queryGet "status" = "done"))) →
        ((req.queryGet "limit" = "" ∧ lim = 50)
          ∨ (req.queryGet "limit" ≠ "" ∧ lib.Atoi (req.queryGet "limit") = Except.ok lim
              ∧ 0 < lim)) →
        ((req.queryGet "offset" = "" ∧ off = 0)
          ∨ (req.queryGet "offset" ≠ "" ∧ lib.Atoi (req.queryGet "offset") = Except.ok off
              ∧ 0 ≤ off)) →
        (handler.handleListTasks svc lib req w).2 = (svc.ListTasks st lim off w).2
          ∧ (handler.handleListTasks svc lib req w).1
              = match (svc.ListTasks st lim off w).1 with
                | Outcome.ok tasks => some (handler.jsonResponse 200 (lib.encodeTasks tasks))
                | Outcome.err _ =>
                  some (handler.httpError handler.ErrMsgFailedToList 500)
                | Outcome.panic => none) := by
  have hm2 : (req.Method != "GET") = false := by simp [hm]
  refine ⟨?_, ?_, ?_, ?_⟩
  · rintro ⟨h0, h1, h2, h3⟩
    simp [handler.handleListTasks, hm2, handler.parseStatus, h0, h1, h2, h3, TaskStatusNew,
      TaskStatusInProgress, TaskStatusDone, handler.StatusBadRequest]
  · rintro ⟨h0, hv⟩
    have hl : handler.parseLimit lib req
        = Except.error (handler.httpError handler.ErrMsgInvalidLimit 400) := by
      unfold handler.parseLimit
      simp only [h0, bne_iff_ne, ne_eq, not_false_eq_true, if_true]
      cases ha : lib.Atoi (req.queryGet "limit") with
      | error e => rfl
      | ok v =>
        have := hv v ha
        have hn : ¬ v > 0 := by omega
        simp [hn, handler.StatusBadRequest]
    unfold handler.handleListTasks
    simp only [hm2]
    cases hs : handler.parseStatus req with
    | error resp =>
      unfold handler.parseStatus at hs
      simp only at hs
      split at hs
      · split at hs
        · cases hs
        · cases hs
          exact ⟨_, rfl⟩
      · cases hs
    | ok st => exact ⟨handler.ErrMsgInvalidLimit, by simp [hl]⟩
  · rintro ⟨h0, hv⟩
    have ho : handler.parseOffset lib req
        = Except.error (handler.httpError handler.ErrMsgInvalidOffset 400) := by
      unfold handler.parseOffset
      simp only [h0, bne_iff_ne, ne_eq, not_false_eq_true, if_true]
      cases ha : lib.Atoi (req.queryGet "offset") with
      | error e => rfl
      | ok v =>
        have := hv v ha
        have hn : ¬ v ≥ 0 := by omega
        simp [hn, handler.StatusBadRequest]
    unfold handler.handleListTasks
    simp only [hm2]
    cases hs : handler.parseStatus req with
    | error resp =>
      unfold handler.parseStatus at hs
      simp only at hs
      split at hs
      · split at hs
        · cases hs
        · cases hs
          exact ⟨_, rfl⟩
      · cases hs
    | ok st =>
      cases hl : handler.parseLimit lib req with
      | error resp =>
        unfold handler.parseLimit at hl
        simp only at hl
        split at hl
        · split at hl
          · split at hl
            · cases hl
            · cases hl
              exact ⟨_, rfl⟩
          · cases hl
            exact ⟨_, rfl⟩
        · cases hl
      | ok lim => exact ⟨handler.ErrMsgInvalidOffset, by simp [ho]⟩
  · intro st lim off hst hlim hoff
    have hs : handler.parseStatus req = Except.ok st := by
      unfold handler.parseStatus
      rcases hst with ⟨he, hn⟩ | ⟨hn, hv⟩
      · simp [he, hn]
      · have hne : req.queryGet "status" ≠ "" := by
          rcases hv with h | h | h <;> rw [h] <;> decide
        rcases hv with h | h | h <;>
          simp [hn, h, TaskStatusNew, TaskStatusInProgress, TaskStatusDone]
    have hl : handler.parseLimit lib req = Except.ok lim := by
      unfold handler.parseLimit
      rcases hlim with ⟨he, hn⟩ | ⟨hne, ha, hp⟩
      · simp [he, hn, handler.DefaultLimit]
      · simp [hne, ha, hp]
    have ho : handler.parseOffset lib req = Except.ok off := by
      unfold handler.parseOffset
      rcases hoff with ⟨he, hn⟩ | ⟨hne, ha, hp⟩
      · simp [he, hn, handler.DefaultOffset]
      · simp [hne, ha, hp]
    unfold handler.handleListTasks
    simp only [hm2, hs, hl, ho]
    cases hr : svc.ListTasks st lim off w with
    | mk res w1 =>
      cases res <;> simp [handler.StatusOK, handler.StatusInternalServerError]

/-- C11 at the queries `limit=-1`, `limit=0`, `offset=-1`, `status=bogus` and
`status=new&limit=10`, on the service over the database `oneRowDB`. -/
theorem C11_handleListTasks_query_parameters_witness :
    (∃ msg, handler.handleListTasks (service.NewTaskService (SQLiteTaskRepository.repo fixtures.digitsLayout)) fixtures.lib ⟨"GET", "", [("limit", "-1")], ""⟩ ⟨⟨[], fixtures.oneRowDB, []⟩, fun n => n⟩
        = (some (handler.httpError msg 400), ⟨⟨[], fixtures.oneRowDB, []⟩, fun n => n⟩))
      ∧ (∃ msg, handler.handleListTasks (service.NewTaskService (SQLiteTaskRepository.repo fixtures.digitsLayout)) fixtures.lib ⟨"GET", "", [("limit", "0")], ""⟩ ⟨⟨[], fixtures.oneRowDB, []⟩, fun n => n⟩
        = (some (handler.httpError msg 400), ⟨⟨[], fixtures.oneRowDB, []⟩, fun n => n⟩))
      ∧ (∃ msg, handler.handleListTasks (service.NewTaskService (SQLiteTaskRepository.repo fixtures.digitsLayout)) fixtures.lib ⟨"GET", "", [("offset", "-1")], ""⟩ ⟨⟨[], fixtures.oneRowDB, []⟩, fun n => n⟩
        = (some (handler.httpError msg 400), ⟨⟨[], fixtures.oneRowDB, []⟩, fun n => n⟩))
      ∧ handler.handleListTasks (service.NewTaskService (SQLiteTaskRepository.repo fixtures.digitsLayout)) fixtures.lib ⟨"GET", "", [("status", "bogus")], ""⟩ ⟨⟨[], fixtures.oneRowDB, []⟩, fun n => n⟩
        = (some (handler.httpError handler.ErrMsgInvalidStatus 400), ⟨⟨[], fixtures.oneRowDB, []⟩, fun n => n⟩)
      ∧ (handler.handleListTasks (service.NewTaskService (SQLiteTaskRepository.repo fixtures.digitsLayout)) fixtures.lib
            ⟨"GET", "", [("status", "new"), ("limit", "10")], ""⟩ ⟨⟨[], fixtures.oneRowDB, []⟩, fun n => n⟩).2
          = ((service.NewTaskService (SQLiteTaskRepository.repo fixtures.digitsLayout)).ListTasks (some "new") 10 0 ⟨⟨[], fixtures.oneRowDB, []⟩, fun n => n⟩).2
      ∧ (handler.handleListTasks (service.NewTaskService (SQLiteTaskRepository.repo fixtures.digitsLayout)) fixtures.lib
            ⟨"GET", "", [("status", "new"), ("limit", "10")], ""⟩ ⟨⟨[], fixtures.oneRowDB, []⟩, fun n => n⟩).1
          = some (handler.jsonResponse 200 "Buy milk") := by
  have hgood := (C11_handleListTasks_query_parameters (service.NewTaskService (SQLiteTaskRepository.repo fixtures.digitsLayout)) fixtures.lib
    ⟨"GET", "", [("status", "new"), ("limit", "10")], ""⟩ ⟨⟨[], fixtures.oneRowDB, []⟩, fun n => n⟩ rfl).2.2.2
      (some "new") 10 0 (Or.inr ⟨rfl, Or.inl (by decide)⟩)
      (Or.inr ⟨by decide, rfl, by decide⟩) (Or.inl ⟨by decide, rfl⟩)
  refine ⟨?_, ?_, ?_, ?_, hgood.1, ?_⟩
  · exact (C11_handleListTasks_query_parameters (service.NewTaskService (SQLiteTaskRepository.repo fixtures.digitsLayout)) fixtures.lib
      ⟨"GET", "", [("limit", "-1")], ""⟩ ⟨⟨[], fixtures.oneRowDB, []⟩, fun n => n⟩ rfl).2.1
        ⟨by decide, fun v hv => by cases hv; decide⟩
  · exact (C11_handleListTasks_query_parameters (service.NewTaskService (SQLiteTaskRepository.repo fixtures.digitsLayout)) fixtures.lib
      ⟨"GET", "", [("limit", "0")], ""⟩ ⟨⟨[], fixtures.oneRowDB, []⟩, fun n => n⟩ rfl).2.1
        ⟨by decide, fun v hv => by cases hv; decide⟩
  · exact (C11_handleListTasks_query_parameters (service.NewTaskService (SQLiteTaskRepository.repo fixtures.digitsLayout)) fixtures.lib
      ⟨"GET", "", [("offset", "-1")], ""⟩ ⟨⟨[], fixtures.oneRowDB, []⟩, fun n => n⟩ rfl).2.2.1
        ⟨by decide, fun v hv => by cases hv; decide⟩
  · exact (C11_handleListTasks_query_parameters (service.NewTaskService (SQLiteTaskRepository.repo fixtures.digitsLayout)) fixtures.lib
      ⟨"GET", "", [("status", "bogus")], ""⟩ ⟨⟨[], fixtures.oneRowDB, []⟩, fun n => n⟩ rfl).1
        ⟨by decide, by decide, by decide, by decide⟩
  · have hlist : ((service.NewTaskService
          (SQLiteTaskRepository.repo fixtures.digitsLayout)).ListTasks (some "new") 10 0
          ⟨⟨[], fixtures.oneRowDB, []⟩, fun n => n⟩).1 = Outcome.ok [fixtures.storedTask] := by
      simp [service.NewTaskService, service.ListTasks, service.derefAll,
        SQLiteTaskRepository.repo, SQLiteTaskRepository.ListTasks,
        SQLiteTaskRepository.selectRows, fixtures.oneRowDB, DB.fault, DB.sent,
        service.DefaultLimit, SQLiteTaskRepository.decodeRows, SQLiteTaskRepository.decodeRow,
        fixtures.digitsLayout, Heap.alloc, Heap.read, fixtures.storedTask, TaskStatusNew]
      decide
    rw [hgood.2, hlist]
    decide

/-- C14, as stated, fails at the filter with no status, limit 0 and offset 5:
the query text `ListTasks` builds has an OFFSET clause and no LIMIT clause. -/
theorem C14_counterexample :
    appearsIn "OFFSET ?" (SQLiteTaskRepository.listQuery ⟨none, 0, 5⟩).1 = true
      ∧ appearsIn "LIMIT" (SQLiteTaskRepository.listQuery ⟨none, 0, 5⟩).1 = false
      ∧ (SQLiteTaskRepository.listQuery ⟨none, 0, 5⟩).1
          = "\nSELECT id, title, description, status, created_at, updated_at\nFROM tasks\nORDER BY created_at DESC OFFSET ?"
      ∧ (SQLiteTaskRepository.listQuery ⟨none, 0, 5⟩).2 = [Arg.int 5] := by
  decide


/-- C14, amended: for every `TaskFilter`, in the query text and the argument
list `ListTasks` builds the predicate `WHERE status = ?` appears exactly when
Status is present, `LIMIT ?` exactly when Limit > 0 and `OFFSET ?` exactly when
Offset > 0; the text is a part with the predicate (if any), then `ORDER BY
created_at DESC`, then a part with the LIMIT and OFFSET clauses (if any); the
number of `?` is the number of arguments, which are the status, the limit and
the offset in this order, each one when its clause is there.  An OFFSET clause
appears without a LIMIT clause exactly when Limit <= 0 and Offset > 0, and
never for a filter `service.ListTasks` builds. -/
theorem C14_listQuery_clauses (f : TaskFilter) :
    appearsIn "WHERE status = ?" (SQLiteTaskRepository.listQuery f).1 = f.Status.isSome
      ∧ appearsIn "LIMIT ?" (SQLiteTaskRepository.listQuery f).1 = decide (0 < f.Limit)
      ∧ appearsIn "OFFSET ?" (SQLiteTaskRepository.listQuery f).1 = decide (0 < f.Offset)
      ∧ (∃ pre post, (SQLiteTaskRepository.listQuery f).1
              = pre ++ "ORDER BY created_at DESC " ++ post
          ∧ appearsIn "WHERE status = ?" pre = f.Status.isSome
          ∧ appearsIn "LIMIT" pre = false ∧ appearsIn "OFFSET" pre = false
          ∧ appearsIn "ORDER BY" pre = false
          ∧ appearsIn "WHERE" post = false ∧ appearsIn "ORDER BY" post = false
          ∧ appearsIn "LIMIT ?" post = decide (0 < f.Limit)
          ∧ appearsIn "OFFSET ?" post = decide (0 < f.Offset))
      ∧ placeholders (SQLiteTaskRepository.listQuery f).1
          = (SQLiteTaskRepository.listQuery f).2.length
      ∧ (SQLiteTaskRepository.listQuery f).2
          = (match f.Status with | some st => [Arg.text st] | none => [])
            ++ (if 0 < f.Limit then [Arg.int f.Limit] else [])
            ++ (if 0 < f.Offset then [Arg.int f.Offset] else [])
      ∧ ((appearsIn "OFFSET ?" (SQLiteTaskRepository.listQuery f).1 = true
            ∧ appearsIn "LIMIT ?" (SQLiteTaskRepository.listQuery f).1 = false)
          ↔ (f.Limit ≤ 0 ∧ 0 < f.Offset))
      ∧ (∀ (status : Option TaskStatus) (limit offset : Int),
          ¬ (appearsIn "OFFSET ?" (SQLiteTaskRepository.listQuery
                ⟨status, if limit ≤ 0 then service.DefaultLimit else limit, offset⟩).1 = true
            ∧ appearsIn "LIMIT ?" (SQLiteTaskRepository.listQuery
                ⟨status, if limit ≤ 0 then service.DefaultLimit else limit, offset⟩).1
                = false)) := by
  have key : ∀ g : TaskFilter,
      appearsIn "WHERE status = ?" (SQLiteTaskRepository.listQuery g).1 = g.Status.isSome
      ∧ appearsIn "LIMIT ?" (SQLiteTaskRepository.listQuery g).1 = decide (0 < g.Limit)
      ∧ appearsIn "OFFSET ?" (SQLiteTaskRepository.listQuery g).1 = decide (0 < g.Offset)
      ∧ placeholders (SQLiteTaskRepository.listQuery g).1
          = (SQLiteTaskRepository.listQuery g).2.length := by
    intro g
    rw [listQuery_args, listQuery_text]
    obtain ⟨st, lim, off⟩ := g
    cases st <;> by_cases hl : 0 < lim <;> by_cases ho : 0 < off <;>
      simp only [hl, ho, gt_iff_lt, Option.isSome, if_true, if_false, decide_True,
        decide_False, Bool.false_eq_true, List.length_append, List.length_cons,
        List.length_nil] <;> decide
  obtain ⟨k1, k2, k3, k4⟩ := key f
  refine ⟨k1, k2, k3, ?_, k4, ?_, ?_, ?_⟩
  · refine ⟨"\nSELECT id, title, description, status, created_at, updated_at\nFROM tasks\n"
        ++ (if f.Status.isSome then "WHERE status = ? " else ""),
      (if f.Limit > 0 then "LIMIT ? " else "") ++ (if f.Offset > 0 then "OFFSET ?" else ""),
      ?_, ?_⟩
    · rw [listQuery_text]
      simp [String.append_assoc]
    · obtain ⟨st, lim, off⟩ := f
      cases st <;> by_cases hl : 0 < lim <;> by_cases ho : 0 < off <;>
        simp only [hl, ho, gt_iff_lt, Option.isSome, if_true, if_false, decide_True,
          decide_False, Bool.false_eq_true] <;> decide
  · simpa using listQuery_args f
  · rw [k2, k3]
    simp only [decide_eq_true_eq, decide_eq_false_iff_not]
    constructor
    · rintro ⟨h1, h2⟩; exact ⟨by omega, h1⟩
    · rintro ⟨h1, h2⟩; exact ⟨h2, by omega⟩
  · intro status limit offset
    obtain ⟨-, j2, j3, -⟩ := key ⟨status, if limit ≤ 0 then service.DefaultLimit else limit, offset⟩
    rw [j2, j3]
    simp only [decide_eq_true_eq, decide_eq_false_iff_not, service.DefaultLimit]
    rintro ⟨-, h2⟩
    apply h2
    split <;> omega

/-- C12: the status invariant, on the SQLite repository and on the in-memory
repository.  If every row of the table (every object the in-memory store
points to) has a status among "new", "in_progress", "done", then after any
sequence of `CreateTask`, `GetTask`, `ListTasks`, `UpdateTask` and `DeleteTask`
calls, whatever each one returns, every row of the table (every stored object)
and every task one of the calls returned has such a status.  The test
`validStatus` of the service holds for exactly these three strings: "New",
"DONE" and " done" fail it. -/
theorem C12_status_invariant (L : TimeLayout) (ops : List Op) (ws : World DB)
    (wm : World inMemoryRepo.Store) :
    ((∀ row ∈ ws.repo.rows, service.validStatus row.status = true) →
        (∀ t ∈ (service.run (SQLiteTaskRepository.repo L) ops ws).1,
            service.validStatus t.Status = true)
          ∧ ∀ row ∈ (service.run (SQLiteTaskRepository.repo L) ops ws).2.repo.rows,
              service.validStatus row.status = true)
      ∧ ((∀ e ∈ wm.repo, Heap.validAt wm.heap e.2 = true) →
        (∀ t ∈ (service.run inMemoryRepo.repo ops wm).1, service.validStatus t.Status = true)
          ∧ ∀ e ∈ (service.run inMemoryRepo.repo ops wm).2.repo,
              Heap.validAt (service.run inMemoryRepo.repo ops wm).2.heap e.2 = true)
      ∧ (∀ st, service.validStatus st = true
            ↔ (st = "new" ∨ st = "in_progress" ∨ st = "done"))
      ∧ service.validStatus "New" = false ∧ service.validStatus "DONE" = false
      ∧ service.validStatus " done" = false := by
  refine ⟨sqlite_run_status L ops ws, inMemory_run_status ops wm, ?_, by decide, by decide,
    by decide⟩
  intro st
  simp [service.validStatus, TaskStatusNew, TaskStatusInProgress, TaskStatusDone, or_assoc]

/-- C12 at a sequence of six calls, one of them an update with the status
"DONE", on the database `oneRowDB` and on the in-memory world `memWorld1`. -/
theorem C12_status_invariant_witness :
    ((∀ t ∈ (service.run (SQLiteTaskRepository.repo fixtures.digitsLayout)
          [Op.CreateTask 8 ⟨"Write report", ""⟩, Op.UpdateTask 7 ⟨none, none, some "DONE"⟩,
        Op.UpdateTask 7 ⟨none, none, some "done"⟩, Op.GetTask 7, Op.ListTasks none 0 0,
        Op.DeleteTask 8] ⟨[], fixtures.oneRowDB, []⟩).1, service.validStatus t.Status = true)
        ∧ ∀ row ∈ (service.run (SQLiteTaskRepository.repo fixtures.digitsLayout)
          [Op.CreateTask 8 ⟨"Write report", ""⟩, Op.UpdateTask 7 ⟨none, none, some "DONE"⟩,
        Op.UpdateTask 7 ⟨none, none, some "done"⟩, Op.GetTask 7, Op.ListTasks none 0 0,
        Op.DeleteTask 8] ⟨[], fixtures.oneRowDB, []⟩).2.repo.rows,
            service.validStatus row.status = true)
      ∧ ((∀ t ∈ (service.run inMemoryRepo.repo
          [Op.CreateTask 8 ⟨"Write report", ""⟩, Op.UpdateTask 7 ⟨none, none, some "DONE"⟩,
        Op.UpdateTask 7 ⟨none, none, some "done"⟩, Op.GetTask 7, Op.ListTasks none 0 0,
        Op.DeleteTask 8] fixtures.memWorld1).1, service.validStatus t.Status = true)
        ∧ ∀ e ∈ (service.run inMemoryRepo.repo
          [Op.CreateTask 8 ⟨"Write report", ""⟩, Op.UpdateTask 7 ⟨none, none, some "DONE"⟩,
        Op.UpdateTask 7 ⟨none, none, some "done"⟩, Op.GetTask 7, Op.ListTasks none 0 0,
        Op.DeleteTask 8] fixtures.memWorld1).2.repo,
            Heap.validAt (service.run inMemoryRepo.repo
              [Op.CreateTask 8 ⟨"Write report", ""⟩, Op.UpdateTask 7 ⟨none, none, some "DONE"⟩,
        Op.UpdateTask 7 ⟨none, none, some "done"⟩, Op.GetTask 7, Op.ListTasks none 0 0,
        Op.DeleteTask 8] fixtures.memWorld1).2.heap e.2 = true) :=
  ⟨(C12_status_invariant fixtures.digitsLayout
      [Op.CreateTask 8 ⟨"Write report", ""⟩, Op.UpdateTask 7 ⟨none, none, some "DONE"⟩,
        Op.UpdateTask 7 ⟨none, none, some "done"⟩, Op.GetTask 7, Op.ListTasks none 0 0,
        Op.DeleteTask 8] ⟨[], fixtures.oneRowDB, []⟩ fixtures.memWorld1).1 (by decide),
   (C12_status_invariant fixtures.digitsLayout
      [Op.CreateTask 8 ⟨"Write report", ""⟩, Op.UpdateTask 7 ⟨none, none, some "DONE"⟩,
        Op.UpdateTask 7 ⟨none, none, some "done"⟩, Op.GetTask 7, Op.ListTasks none 0 0,
        Op.DeleteTask 8] ⟨[], fixtures.oneRowDB, []⟩ fixtures.memWorld1).2.1 (by decide)⟩

/-- C13, as stated, fails when the wall clock is set back between the calls:
with the readings 1000 at the creation and 400 at the update, the successful
`UpdateTask` returns, and the table then holds, a task whose updated_at (400)
is below its created_at (1000) and below the updated_at it had before the
update (1000). -/
theorem C13_counterexample :
    ∃ t0 u, service.deref (service.CreateTask (SQLiteTaskRepository.repo fixtures.digitsLayout) 7 ⟨"Buy milk", "2%"⟩
          ⟨[], fixtures.steppedBackDB, []⟩) = Outcome.ok t0
      ∧ service.deref (service.UpdateTask (SQLiteTaskRepository.repo fixtures.digitsLayout) 7 ⟨some "new title", none, none⟩
          (service.CreateTask (SQLiteTaskRepository.repo fixtures.digitsLayout) 7 ⟨"Buy milk", "2%"⟩
            ⟨[], fixtures.steppedBackDB, []⟩).2) = Outcome.ok u
      ∧ service.deref (service.GetTask (SQLiteTaskRepository.repo fixtures.digitsLayout) 7
          (service.UpdateTask (SQLiteTaskRepository.repo fixtures.digitsLayout) 7 ⟨some "new title", none, none⟩
            (service.CreateTask (SQLiteTaskRepository.repo fixtures.digitsLayout) 7 ⟨"Buy milk", "2%"⟩
              ⟨[], fixtures.steppedBackDB, []⟩).2).2) = Outcome.ok u
      ∧ t0.UpdatedAt = ⟨1000⟩ ∧ u.CreatedAt = ⟨1000⟩ ∧ u.UpdatedAt = ⟨400⟩
      ∧ u.UpdatedAt.unixNano < u.CreatedAt.unixNano
      ∧ u.UpdatedAt.unixNano < t0.UpdatedAt.unixNano :=
  ⟨⟨7, "Buy milk", "2%", "new", ⟨1000⟩, ⟨1000⟩⟩, ⟨7, "new title", "2%", "new", ⟨1000⟩, ⟨400⟩⟩,
    by decide, by decide, by decide, rfl, rfl, rfl, by decide, by decide⟩

/-- C13, amended: on the SQLite repository, when the readings of the wall
clock increase from each call of `time.Now()` to the next and the layout reads
back every timestamp it wrote.  The task `CreateTask` returns has created_at =
updated_at.  After any number of `UpdateTask` calls on that task, whatever
they returned, the stored task `s` has the created_at of the creation and
updated_at >= created_at; and a further `UpdateTask` that succeeds returns a
task `u` with the created_at of the creation, updated_at >= created_at and
updated_at strictly above the stored updated_at it replaced. -/
theorem C13_timestamps_under_increasing_clock (L : TimeLayout) (newID : UUID) (cin : CreateTaskInput) (w0 : World DB)
    (p0 : Ptr) (t0 : Task) (inputs : List UpdateTaskInput) (input : UpdateTaskInput)
    (p : Ptr) (u : Task)
    (hclock : ∀ n, (w0.repo.clock n).unixNano < (w0.repo.clock (n + 1)).unixNano)
    (hlayout : ∀ n, L.Parse (L.Format (w0.repo.clock n)) = Except.ok (w0.repo.clock n))
    (hcreate : (service.CreateTask (SQLiteTaskRepository.repo L) newID cin w0).1
        = Outcome.ok p0)
    (hobj0 : Heap.read (service.CreateTask (SQLiteTaskRepository.repo L) newID cin w0).2.heap p0
        = some t0)
    (hupd : (service.UpdateTask (SQLiteTaskRepository.repo L) newID input
        (service.updateMany (SQLiteTaskRepository.repo L) newID inputs
          (service.CreateTask (SQLiteTaskRepository.repo L) newID cin w0).2)).1 = Outcome.ok p)
    (hobj : Heap.read (service.UpdateTask (SQLiteTaskRepository.repo L) newID input
        (service.updateMany (SQLiteTaskRepository.repo L) newID inputs
          (service.CreateTask (SQLiteTaskRepository.repo L) newID cin w0).2)).2.heap p
        = some u) :
    t0.CreatedAt = t0.UpdatedAt
      ∧ ∃ row s, (service.updateMany (SQLiteTaskRepository.repo L) newID inputs
            (service.CreateTask (SQLiteTaskRepository.repo L) newID cin w0).2).repo.rows.find?
              (fun r => r.id == newID) = some row
        ∧ SQLiteTaskRepository.decodeRow L row = Except.ok s
        ∧ s.CreatedAt = t0.CreatedAt
        ∧ s.CreatedAt.unixNano ≤ s.UpdatedAt.unixNano
        ∧ u.CreatedAt = t0.CreatedAt
        ∧ u.CreatedAt.unixNano ≤ u.UpdatedAt.unixNano
        ∧ s.UpdatedAt.unixNano < u.UpdatedAt.unixNano := by
  have hmono : StrictMono (fun n => (w0.repo.clock n).unixNano) :=
    strictMono_nat_of_lt_succ hclock
  obtain ⟨hp0, hheap0, hrows0, hany0, -⟩ := sqlite_create_ok L newID cin w0 p0 hcreate
  have hclk0 := sqlite_create_clock L newID cin w0 p0 hcreate
  have ht0 : t0 = newTask newID cin w0.repo.now := by
    rw [hheap0, hp0, Heap.read_alloc] at hobj0
    exact (Option.some.inj hobj0).symm
  have hst0 : Stamped L w0.repo.clock newID
      (service.CreateTask (SQLiteTaskRepository.repo L) newID cin w0).2 0 := by
    refine ⟨⟨newID, cin.Title, cin.Description, TaskStatusNew, L.Format w0.repo.now,
      L.Format w0.repo.now⟩, 1, by omega, ?_, rfl, rfl, hclk0⟩
    rw [hrows0, List.find?_append]
    have : w0.repo.rows.find? (fun r => r.id == newID) = none := by
      simp at hany0
      simpa using hany0
    simp [this]
  obtain ⟨j, row, k, hjk, hrow, hca, hua, hclk⟩ :=
    stamped_updateMany L w0.repo.clock newID inputs _ 0 hst0
  generalize service.updateMany (SQLiteTaskRepository.repo L) newID inputs
      (service.CreateTask (SQLiteTaskRepository.repo L) newID cin w0).2 = w at *
  rcases sqlite_UpdateTask_cases L newID input w _ rfl with
    ⟨hno, -, -⟩ | ⟨row2, s, hrow2, hdec, -, hok, hheap, -, -⟩
  · exact absurd hupd (hno p)
  · rw [hrow] at hrow2
    cases hrow2
    obtain ⟨-, -, hpc, hpu⟩ := decodeRow_fields L row s hdec
    have hsc : s.CreatedAt = w0.repo.clock 0 := by
      rw [hca, hlayout 0] at hpc
      exact (Except.ok.inj hpc).symm
    have hsu : s.UpdatedAt = w0.repo.clock j := by
      rw [hua, hlayout j] at hpu
      exact (Except.ok.inj hpu).symm
    have hu : u = { patch input s with UpdatedAt := w.repo.now } := by
      rw [hok] at hupd
      cases hupd
      rw [hheap, Heap.read_alloc] at hobj
      exact (Option.some.inj hobj).symm
    have hnow : w.repo.now = w0.repo.clock k := by
      simp [DB.now, hclk]
    have h0j : (w0.repo.clock 0).unixNano ≤ (w0.repo.clock j).unixNano :=
      hmono.monotone (Nat.zero_le j)
    have hjk2 : (w0.repo.clock j).unixNano < (w0.repo.clock k).unixNano := hmono hjk
    refine ⟨by rw [ht0]; rfl, row, s, hrow, hdec, ?_, ?_, ?_, ?_, ?_⟩
    · rw [hsc, ht0]; rfl
    · rw [hsc, hsu]; exact h0j
    · rw [hu, ht0]; exact hsc
    · rw [hu]
      show s.CreatedAt.unixNano ≤ w.repo.now.unixNano
      rw [hsc, hnow]
      omega
    · rw [hu]
      show s.UpdatedAt.unixNano < w.repo.now.unixNano
      rw [hsu, hnow]
      exact hjk2


/-- C13, amended, at a creation followed by a successful update, a failing
update and one more successful update, with the clock reading 0, 1, 2, ... -/
theorem C13_timestamps_under_increasing_clock_witness :
    ∃ row s, (service.updateMany (SQLiteTaskRepository.repo fixtures.strokesLayout) 7
        [⟨none, none, some "in_progress"⟩, ⟨some "ab", none, none⟩]
            (service.CreateTask (SQLiteTaskRepository.repo fixtures.strokesLayout) 7
              ⟨"Buy milk", "2%"⟩ ⟨[], fixtures.tickDB, []⟩).2).repo.rows.find?
              (fun r => r.id == 7) = some row
        ∧ SQLiteTaskRepository.decodeRow fixtures.strokesLayout row = Except.ok s
        ∧ s.CreatedAt = (⟨0⟩ : Time)
        ∧ s.CreatedAt.unixNano ≤ s.UpdatedAt.unixNano
        ∧ (⟨7, "new title", "2%", "in_progress", ⟨0⟩, ⟨2⟩⟩ : Task).CreatedAt = (⟨0⟩ : Time)
        ∧ (0 : Int) ≤ 2
        ∧ s.UpdatedAt.unixNano < 2 :=
  (C13_timestamps_under_increasing_clock fixtures.strokesLayout 7 ⟨"Buy milk", "2%"⟩ ⟨[], fixtures.tickDB, []⟩ 0
    ⟨7, "Buy milk", "2%", "new", ⟨0⟩, ⟨0⟩⟩
    [⟨none, none, some "in_progress"⟩, ⟨some "ab", none, none⟩] ⟨some "new title", none, none⟩
    3 ⟨7, "new title", "2%", "in_progress", ⟨0⟩, ⟨2⟩⟩
    (by intro n; simp [fixtures.tickDB]) strokes_lossless (by decide) (by decide) (by decide)
    (by decide)).2

end TaskManager
